import Mathlib

/-!
# app_ppm: throttle curve and per-cycle control loop

Shallow embedding of `applications/app_ppm_backup.c`.

Conventions of the embedding.

* C `float` values are exact rationals.  Rounding, overflow to infinity and
  the IEEE special values are not represented.  A division whose divisor is
  zero has no rational value, so every function that divides returns an
  `Option`: `none` stands for "the C code produced a non-finite value here".
* The `int` counters are integers; `++` wraps to 32 bits.
* The module-level `static volatile` variables are the fields of `State`.
* Calls into the drive, the decoder, the watchdog and the bus link are
  recorded, in program order, in a list of `Cmd`.
* One pass through the body of the `for(;;)` loop of `ppm_thread` is the
  function `ppm_thread_cycle`; the values the collaborators return during that
  pass are the fields of `Env`.
-/

namespace AppPpm

/-! ## Arithmetic helpers -/

/-- Division of two C floats: defined only for a nonzero divisor. -/
def fdiv (a b : ℚ) : Option ℚ :=
  if b = 0 then none else some (a / b)

/-- Read of element `i` of a C float array. -/
def idx (a : List ℚ) (i : Nat) : ℚ := a.getD i 0

/-- The value of `fabsf`. -/
def fabsf (v : ℚ) : ℚ := if v < 0 then -v else v

/-- Increment of a C `int`, wrapping to 32 bits. -/
def int_incr (n : Int) : Int := (n + 1 + 2147483648) % 4294967296 - 2147483648

/-! ## Settings (lines 41-46) -/

def MAX_CAN_AGE : ℚ := 1 / 10
def MIN_PULSES_WITHOUT_POWER : Int := 50
def RPM_FILTER_SAMPLES : Nat := 8
def CRUISE_CONTROL_ACTIVE : Int := 1
def CRUISE_CONTROL_INACTIVE : Int := 0

/-! ## The throttle curve `neville` (lines 77-106) -/

/-- The piecewise-linear part of `neville`, lines 79-90. -/
def directSteps (x y : List ℚ) (t : ℚ) : Option ℚ :=
  if t < idx x 1 then
    (fdiv (idx y 1) (idx x 1)).map (fun q => q * t)
  else if t > idx x 3 then
    (fdiv (idx y 4 - idx y 3) (idx x 4 - idx x 3)).map (fun q => q * (t - idx x 3) + idx y 3)
  else if t > idx x 2 then
    (fdiv (idx y 3 - idx y 2) (idx x 3 - idx x 2)).map (fun q => q * (t - idx x 2) + idx y 2)
  else if t > idx x 1 then
    (fdiv (idx y 2 - idx y 1) (idx x 2 - idx x 1)).map (fun q => q * (t - idx x 1) + idx y 1)
  else
    some (idx y 1)

/-- The assignment of line 97 for given `j` and `i`. -/
def nevilleAssign (x : List ℚ) (t : ℚ) (j : Nat) (f : List ℚ) (i : Nat) : Option (List ℚ) :=
  (fdiv ((t - idx x (i - j)) * idx f i - (t - idx x i) * idx f (i - 1))
        (idx x i - idx x (i - j))).map (fun v => f.set i v)

/-- The inner loop of line 96: `i` runs from 4 down to `j`. -/
def nevilleInner (x : List ℚ) (t : ℚ) (f : List ℚ) (j : Nat) : Option (List ℚ) :=
  ([4, 3, 2, 1].filter (fun i => decide (j ≤ i))).foldlM (nevilleAssign x t j) f

/-- The loops of lines 92-97: `f` starts as a copy of `y`, `j` runs from 1 to 4. -/
def nevilleLoop (x y : List ℚ) (t : ℚ) : Option (List ℚ) :=
  [1, 2, 3, 4].foldlM (nevilleInner x t) (y.take 5)

/-- The clamp of lines 102-105. -/
def nevilleClamp (spline : ℚ) : ℚ :=
  if spline > 1 then 1 else if spline < 0 then 0 else spline

/-- The function `neville`; the globals `x`, `y` and `config.bezier_reduce_factor` are arguments. -/
def neville (x y : List ℚ) (bezier_reduce_factor : ℚ) (t : ℚ) : Option ℚ := do
  let directSteps ← directSteps x y t
  let f ← nevilleLoop x y t
  let spline := idx f 4 - ((idx f 4 - directSteps) * bezier_reduce_factor)
  pure (nevilleClamp spline)

/-! ## Data model -/

/-- The control modes named by the two `switch` statements of `ppm_thread`;
`PPM_CTRL_TYPE_NONE` stands for every value that reaches `default`. -/
inductive ppm_control_type
  | PPM_CTRL_TYPE_NONE
  | PPM_CTRL_TYPE_CURRENT
  | PPM_CTRL_TYPE_CURRENT_NOREV
  | PPM_CTRL_TYPE_CURRENT_NOREV_BRAKE
  | PPM_CTRL_TYPE_WATT_NOREV_BRAKE
  | PPM_CTRL_TYPE_PID_NOACCELERATION
  | PPM_CTRL_TYPE_CRUISE_CONTROL_SECONDARY_CHANNEL
  | PPM_CTRL_TYPE_DUTY
  | PPM_CTRL_TYPE_DUTY_NOREV
  | PPM_CTRL_TYPE_PID
  | PPM_CTRL_TYPE_PID_NOREV
  deriving DecidableEq

open ppm_control_type

/-- The fields of `ppm_config` that this file reads. -/
structure ppm_config where
  ctrl_type : ppm_control_type
  pid_max_erpm : ℚ
  hyst : ℚ
  pulse_start : ℚ
  pulse_end : ℚ
  pulse_center : ℚ
  median_filter : Bool
  safe_start : Bool
  rpm_lim_start : ℚ
  rpm_lim_end : ℚ
  multi_esc : Bool
  tc : Bool
  tc_max_diff : ℚ
  tc_offset : ℚ
  adjustable_throttle_enabled : Bool
  x1_throttle : ℚ
  y1_throttle : ℚ
  x2_throttle : ℚ
  y2_throttle : ℚ
  x3_throttle : ℚ
  y3_throttle : ℚ
  bezier_reduce_factor : ℚ
  max_watt_enabled : Bool
  max_watt : ℚ
  max_watt_ramp_by_current : Bool
  max_watt_ramp_factor : ℚ

/-- The fields of `mc_configuration` that this file reads. -/
structure mc_configuration where
  s_pid_min_erpm : ℚ
  l_current_max : ℚ
  l_current_min : ℚ
  l_max_duty : ℚ
  cc_min_current : ℚ
  deriving DecidableEq

/-- One record of the peer table; `age` is the value of `UTILS_AGE_S(msg->rx_time)`
during the cycle, in seconds. -/
structure can_status_msg where
  id : Int
  age : ℚ
  rpm : ℚ
  cruise_control_status : Int
  deriving DecidableEq

/-- The calls this file makes into the drive, the decoder, the watchdog and the bus link. -/
inductive Cmd
  | mc_interface_set_cruise_control_status (status : Int)
  | servodec_set_pulse_options (pulse_start pulse_center pulse_end : ℚ) (median_filter : Bool)
  | timeout_reset
  | mc_interface_set_pid_speed (rpm : ℚ)
  | mc_interface_set_pid_speed_and_watt (rpm watt : ℚ)
  | mc_interface_set_duty (duty : ℚ)
  | mc_interface_set_current (current : ℚ)
  | mc_interface_set_brake_current (current : ℚ)
  | comm_can_set_duty (id : Int) (duty : ℚ)
  | comm_can_set_rpm_and_watt (id : Int) (rpm watt : ℚ)
  | comm_can_set_current (id : Int) (current : ℚ)
  | comm_can_set_current_brake (id : Int) (current : ℚ)
  deriving DecidableEq

/-- The private variables of lines 58-71, the function-static
`pulses_without_power_before` of line 466, and the drive's cruise flag as last
written through `mc_interface_set_cruise_control_status`. -/
structure State where
  is_running : Bool
  pid_rpm : ℚ
  mode_switch_pulses : Int
  config : ppm_config
  pulses_without_power : Int
  filter_buffer : List ℚ
  filter_ptr : Nat
  has_enough_pid_filter_data : Bool
  x : List ℚ
  y : List ℚ
  pulses_without_power_before : Int
  cruise_control_status : Int

/-- What the collaborators return during one cycle.  `utils_deadband` is not
part of this file and is taken as given; `peers` is the table behind
`comm_can_get_status_msg_index`, one entry per index below
`CAN_STATUS_MSGS_TO_STORE`; `fault` is `0` for `FAULT_CODE_NONE`. -/
structure Env where
  timeout_has_timeout : Bool
  servodec_get_time_since_update : Nat
  timeout_get_timeout_msec : Nat
  mc_interface_get_fault : Nat
  servodec_get_servo : ℚ
  utils_deadband : ℚ → ℚ → ℚ → Option ℚ
  mcconf : mc_configuration
  mc_interface_get_rpm : ℚ
  peers : List can_status_msg
  mc_interface_get_motor_voltage : ℚ
  mc_interface_get_max_current_at_current_motor_voltage : ℚ
  mc_interface_get_duty_cycle_now : ℚ
  timeout_get_brake_current : ℚ

def FAULT_CODE_NONE : Nat := 0

/-- Modelled from the spec: `utils_map` is not part of this file; it is the usual
linear map of `x` from the range `in_min..in_max` onto `out_min..out_max`. -/
def utils_map (x in_min in_max out_min out_max : ℚ) : Option ℚ :=
  (fdiv ((x - in_min) * (out_max - out_min)) (in_max - in_min)).map (fun q => q + out_min)

/-! ## `app_ppm_configure` (lines 108-135) -/

/-- The function `app_ppm_configure`, with `SERVO_OUT_ENABLE` off. -/
def app_ppm_configure (conf : ppm_config) (s : State) : State × List Cmd :=
  ({ s with
      config := conf
      pulses_without_power := 0
      has_enough_pid_filter_data := false
      filter_ptr := 0
      cruise_control_status := CRUISE_CONTROL_INACTIVE
      x := [0, conf.x1_throttle, conf.x2_throttle, conf.x3_throttle, 1]
      y := [0, conf.y1_throttle, conf.y2_throttle, conf.y3_throttle, 1] },
   [Cmd.mc_interface_set_cruise_control_status CRUISE_CONTROL_INACTIVE] ++
   (if s.is_running then
      [Cmd.servodec_set_pulse_options conf.pulse_start conf.pulse_center conf.pulse_end
        conf.median_filter]
    else []))

/-! ## One cycle of `ppm_thread` (lines 173-596) -/

/-- The local variables of the loop body. -/
structure Locals where
  servo_val : ℚ
  current : ℚ
  current_mode : Bool
  current_mode_brake : Bool
  send_duty : Bool
  rpm_local : ℚ
  rpm_lowest : ℚ
  cruise_control_status : Bool

/-- The module state, the locals and the calls made so far in the cycle. -/
structure Frame where
  s : State
  l : Locals
  out : List Cmd

/-- How a part of the loop body ends: control reaches the next statement, or
the part executed `continue`. -/
inductive Flow
  | proceed (m : Frame)
  | skip (s : State) (out : List Cmd)

/-- The test of lines 176-177. -/
def staleInput (env : Env) : Bool :=
  env.timeout_has_timeout
    || decide (env.servodec_get_time_since_update > env.timeout_get_timeout_msec)
    || decide (env.mc_interface_get_fault ≠ FAULT_CODE_NONE)

/-- The condition of lines 217, 391, 481, 498 and 533 on a peer record. -/
def fresh (msg : can_status_msg) : Bool :=
  decide (msg.id ≥ 0) && decide (msg.age < MAX_CAN_AGE)

/-- Lines 182-201: the decoded value after remapping, deadband and curve. -/
def shapeInput (env : Env) (s : State) : Option ℚ :=
  let servo_val := env.servodec_get_servo
  match s.config.ctrl_type with
  | PPM_CTRL_TYPE_CURRENT_NOREV
  | PPM_CTRL_TYPE_DUTY_NOREV
  | PPM_CTRL_TYPE_PID_NOREV =>
    env.utils_deadband ((servo_val + 1) / 2) s.config.hyst 1
  | _ =>
    (env.utils_deadband servo_val s.config.hyst 1).bind (fun servo_val =>
      if s.config.adjustable_throttle_enabled && decide (servo_val > 0) then
        neville s.x s.y s.config.bezier_reduce_factor servo_val
      else
        some servo_val)

/-- The body of the loop of lines 214-229 for one record. -/
def lowestStep (acc : ℚ × Bool) (msg : can_status_msg) : ℚ × Bool :=
  if fresh msg then
    (if fabsf msg.rpm < fabsf acc.1 then msg.rpm else acc.1,
     if msg.cruise_control_status = CRUISE_CONTROL_ACTIVE then true else acc.2)
  else acc

/-- Lines 210-230: the pair `(rpm_lowest, cruise_control_status)`. -/
def findLowest (multi_esc : Bool) (rpm_local : ℚ) (peers : List can_status_msg) : ℚ × Bool :=
  if multi_esc then peers.foldl lowestStep (rpm_local, false) else (rpm_local, false)

/-- Lines 203-230: the locals as they stand before the second `switch`. -/
def initLocals (env : Env) (s : State) (servo_val : ℚ) : Locals :=
  let r := findLowest s.config.multi_esc env.mc_interface_get_rpm env.peers
  { servo_val := servo_val
    current := 0
    current_mode := false
    current_mode_brake := false
    send_duty := false
    rpm_local := env.mc_interface_get_rpm
    rpm_lowest := r.1
    cruise_control_status := r.2 }

/-- The cruise hand-off of lines 240-250 (and 270-280): `lock` is the call that
sets the locked speed. -/
def cruiseHandoff (env : Env) (lock : ℚ → Cmd) (m : Frame) : Frame :=
  if m.l.rpm_lowest > env.mcconf.s_pid_min_erpm ∧ m.l.rpm_lowest < m.s.config.pid_max_erpm then
    let pid_rpm := if m.s.pid_rpm = 0 then m.l.rpm_lowest else m.s.pid_rpm
    { s := { m.s with pid_rpm := pid_rpm }
      l := { m.l with current_mode := false, send_duty := true }
      out := m.out ++ [lock pid_rpm] }
  else
    { m with s := { m.s with pid_rpm := 0 }, l := { m.l with current := 0 } }

/-- The statement `pulses_without_power++` guarded by `cond`. -/
def countPulse (cond : Bool) (m : Frame) : Frame :=
  if cond then
    { m with s := { m.s with pulses_without_power := int_incr m.s.pulses_without_power } }
  else m

/-- Lines 233-261: `PPM_CTRL_TYPE_CURRENT` and `PPM_CTRL_TYPE_CURRENT_NOREV`. -/
def caseCurrent (env : Env) (m : Frame) : Frame :=
  let m : Frame := { m with l := { m.l with current_mode := true } }
  let m : Frame :=
    if m.l.servo_val ≥ 0 then
      if m.l.cruise_control_status && decide (m.l.servo_val = 0) then
        cruiseHandoff env Cmd.mc_interface_set_pid_speed m
      else
        { m with l := { m.l with current := m.l.servo_val * env.mcconf.l_current_max } }
    else
      { m with l := { m.l with current := m.l.servo_val * fabsf env.mcconf.l_current_min } }
  countPulse (decide (fabsf m.l.servo_val < 1 / 1000)) m

/-- Lines 263-292: `PPM_CTRL_TYPE_CURRENT_NOREV_BRAKE`. -/
def caseCurrentNorevBrake (env : Env) (m : Frame) : Frame :=
  let m : Frame := { m with l := { m.l with current_mode := true } }
  let m : Frame :=
    if m.l.servo_val ≥ 0 then
      if m.l.cruise_control_status && decide (m.l.servo_val = 0) then
        cruiseHandoff env Cmd.mc_interface_set_pid_speed m
      else
        { m with l := { m.l with current := m.l.servo_val * env.mcconf.l_current_max } }
    else
      { m with l := { m.l with current := fabsf (m.l.servo_val * env.mcconf.l_current_min)
                               current_mode_brake := true } }
  countPulse (decide (m.l.servo_val < 1 / 1000)) m

/-- Lines 316-331: the forward current of the power-capped mode. -/
def wattCurrent (env : Env) (cfg : ppm_config) (servo_val : ℚ) : Option ℚ :=
  (if cfg.max_watt_enabled then
      (fdiv cfg.max_watt env.mc_interface_get_motor_voltage).map (fun q => servo_val * q)
    else
      some (servo_val * env.mc_interface_get_max_current_at_current_motor_voltage)).map
    (fun current =>
      let current :=
        if cfg.max_watt_ramp_by_current then
          let current_by_max_motor_current :=
            servo_val * env.mcconf.l_current_max * cfg.max_watt_ramp_factor
          if current_by_max_motor_current < current then current_by_max_motor_current
          else current
        else current
      if current > env.mcconf.l_current_max then env.mcconf.l_current_max else current)

/-- Lines 293-340: `PPM_CTRL_TYPE_WATT_NOREV_BRAKE`. -/
def caseWattNorevBrake (env : Env) (m : Frame) : Option Frame :=
  let m : Frame := { m with l := { m.l with current_mode := true } }
  (if m.l.servo_val ≥ 0 then
      if m.l.cruise_control_status && decide (m.l.servo_val = 0) then
        some (cruiseHandoff env
          (fun pid_rpm =>
            if m.s.config.max_watt_enabled then
              Cmd.mc_interface_set_pid_speed_and_watt pid_rpm m.s.config.max_watt
            else Cmd.mc_interface_set_pid_speed pid_rpm) m)
      else
        (wattCurrent env m.s.config m.l.servo_val).map
          (fun current => { m with l := { m.l with current := current } })
    else
      some { m with l := { m.l with current := fabsf (m.l.servo_val * env.mcconf.l_current_min)
                                    current_mode_brake := true } }).map
    (fun m => countPulse (decide (m.l.servo_val < 1 / 1000)) m)

/-- The calls of a loop over the peer table that sends `cmd id` to every fresh record. -/
def toFreshPeers (env : Env) (cmd : Int → Cmd) : List Cmd :=
  (env.peers.filter fresh).map (fun msg => cmd msg.id)

/-- Lines 344-357: the ring write and the moving average; returns the new
`(filter_buffer, filter_ptr, has_enough_pid_filter_data)` and `rpm_filtered`. -/
def rpmFilter (s : State) (rpm_lowest : ℚ) : (List ℚ × Nat × Bool) × ℚ :=
  let buf := s.filter_buffer.set s.filter_ptr rpm_lowest
  let ptr := s.filter_ptr + 1
  let full := decide (ptr ≥ RPM_FILTER_SAMPLES)
  let ptr := if full then 0 else ptr
  let has := if full then true else s.has_enough_pid_filter_data
  let rpm_filtered :=
    if has then
      ((List.range RPM_FILTER_SAMPLES).foldl (fun acc i => acc + idx buf i) 0)
        / (RPM_FILTER_SAMPLES : ℚ)
    else 0
  ((buf, ptr, has), rpm_filtered)

/-- Lines 363-376: the update of `pid_rpm` for a positive input. -/
def lowerPid (pid_rpm rpm_filtered : ℚ) : ℚ :=
  let pid_rpm := if pid_rpm = 0 then rpm_filtered else pid_rpm
  if rpm_filtered > 1000 then
    let diff := pid_rpm - rpm_filtered
    if diff > 1500 then pid_rpm - 10
    else if diff > 500 ∧ rpm_filtered < 1500 then pid_rpm - 10
    else pid_rpm
  else 0

/-- Lines 341-411: `PPM_CTRL_TYPE_PID_NOACCELERATION`. -/
def casePidNoacceleration (env : Env) (m : Frame) : Frame :=
  let m : Frame := { m with l := { m.l with current_mode := true } }
  let r := rpmFilter m.s m.l.rpm_lowest
  let rpm_filtered := r.2
  let m := { m with s := { m.s with filter_buffer := r.1.1
                                    filter_ptr := r.1.2.1
                                    has_enough_pid_filter_data := r.1.2.2 } }
  let m : Frame :=
    if m.l.servo_val ≥ 0 then
      if m.l.servo_val > 0 then
        let pid_rpm := lowerPid m.s.pid_rpm rpm_filtered
        let m := { m with s := { m.s with pid_rpm := pid_rpm } }
        if pid_rpm > 0 ∧ pid_rpm < m.s.config.pid_max_erpm then
          { m with
            l := { m.l with current_mode := false, send_duty := true }
            out := m.out ++ [Cmd.mc_interface_set_pid_speed_and_watt pid_rpm m.s.config.max_watt]
              ++ (if m.s.config.multi_esc then
                    toFreshPeers env
                      (fun id => Cmd.comm_can_set_rpm_and_watt id pid_rpm m.s.config.max_watt)
                  else []) }
        else
          { m with l := { m.l with current := 0 } }
      else
        { m with l := { m.l with current := 0 } }
    else
      { m with l := { m.l with current := fabsf (m.l.servo_val * env.mcconf.l_current_min)
                               current_mode_brake := true } }
  countPulse (decide (m.l.servo_val < 1 / 1000)) m

/-- Lines 412-425: `PPM_CTRL_TYPE_CRUISE_CONTROL_SECONDARY_CHANNEL`; ends in `continue`. -/
def caseCruiseSecondary (m : Frame) : Flow :=
  let status :=
    if m.l.servo_val ≥ 3 / 10 ∨ m.l.servo_val ≤ -(3 / 10) then CRUISE_CONTROL_ACTIVE
    else CRUISE_CONTROL_INACTIVE
  Flow.skip { m.s with cruise_control_status := status }
    (m.out ++ [Cmd.mc_interface_set_cruise_control_status status, Cmd.timeout_reset])

/-- The condition of lines 432, 444 and 465. -/
def safeStartHold (s : State) : Bool :=
  decide (s.pulses_without_power < MIN_PULSES_WITHOUT_POWER) && s.config.safe_start

/-- Lines 426-436: `PPM_CTRL_TYPE_DUTY` and `PPM_CTRL_TYPE_DUTY_NOREV`. -/
def caseDuty (env : Env) (m : Frame) : Option Frame :=
  let m : Frame := countPulse (decide (fabsf m.l.servo_val < 1 / 1000)) m
  if !(safeStartHold m.s) then
    (utils_map m.l.servo_val (-1) 1 (-env.mcconf.l_max_duty) env.mcconf.l_max_duty).map
      (fun duty => { m with l := { m.l with send_duty := true }
                            out := m.out ++ [Cmd.mc_interface_set_duty duty] })
  else some m

/-- Lines 438-448: `PPM_CTRL_TYPE_PID` and `PPM_CTRL_TYPE_PID_NOREV`. -/
def casePid (m : Frame) : Frame :=
  let m : Frame := countPulse (decide (fabsf m.l.servo_val < 1 / 1000)) m
  if !(safeStartHold m.s) then
    { m with l := { m.l with send_duty := true }
             out := m.out ++ [Cmd.mc_interface_set_pid_speed
                                (m.l.servo_val * m.s.config.pid_max_erpm)] }
  else m

/-- Lines 232-452: the second `switch`. -/
def dispatch (env : Env) (m : Frame) : Option Flow :=
  match m.s.config.ctrl_type with
  | PPM_CTRL_TYPE_CURRENT
  | PPM_CTRL_TYPE_CURRENT_NOREV => some (Flow.proceed (caseCurrent env m))
  | PPM_CTRL_TYPE_CURRENT_NOREV_BRAKE => some (Flow.proceed (caseCurrentNorevBrake env m))
  | PPM_CTRL_TYPE_WATT_NOREV_BRAKE => (caseWattNorevBrake env m).map Flow.proceed
  | PPM_CTRL_TYPE_PID_NOACCELERATION => some (Flow.proceed (casePidNoacceleration env m))
  | PPM_CTRL_TYPE_CRUISE_CONTROL_SECONDARY_CHANNEL => some (caseCruiseSecondary m)
  | PPM_CTRL_TYPE_DUTY
  | PPM_CTRL_TYPE_DUTY_NOREV => (caseDuty env m).map Flow.proceed
  | PPM_CTRL_TYPE_PID
  | PPM_CTRL_TYPE_PID_NOREV => some (Flow.proceed (casePid m))
  | PPM_CTRL_TYPE_NONE => some (Flow.skip m.s m.out)

/-- Lines 454-463: the full-reverse counter. -/
def modeSwitch (m : Frame) : Frame :=
  if m.l.servo_val = -1 then
    { m with s := { m.s with mode_switch_pulses := int_incr m.s.mode_switch_pulses } }
  else
    { m with s := { m.s with mode_switch_pulses := 0 } }

/-- Lines 465-473: the safe-start gate; ends in `continue` when it holds the cycle. -/
def safeStartGate (env : Env) (m : Frame) : Flow :=
  if safeStartHold m.s then
    let pwp :=
      if m.s.pulses_without_power = m.s.pulses_without_power_before then 0
      else m.s.pulses_without_power
    Flow.skip { m.s with pulses_without_power := pwp, pulses_without_power_before := pwp }
      (m.out ++ [Cmd.mc_interface_set_brake_current env.timeout_get_brake_current])
  else Flow.proceed m

/-- Lines 475-485: the duty broadcast. -/
def dutyBroadcast (env : Env) (m : Frame) : Frame :=
  if m.l.send_duty && m.s.config.multi_esc then
    { m with out := m.out ++
        toFreshPeers env (fun id => Cmd.comm_can_set_duty id env.mc_interface_get_duty_cycle_now) }
  else m

/-- Lines 503-516: the soft RPM limit on the current. -/
def softRpmLimit (cfg : ppm_config) (mcconf : mc_configuration) (rpm_lowest current : ℚ) :
    Option ℚ :=
  if rpm_lowest > cfg.rpm_lim_end ∧ current > 0 then
    some mcconf.cc_min_current
  else if rpm_lowest > cfg.rpm_lim_start ∧ current > 0 then
    utils_map rpm_lowest cfg.rpm_lim_start cfg.rpm_lim_end current mcconf.cc_min_current
  else if rpm_lowest < -cfg.rpm_lim_end ∧ current < 0 then
    some mcconf.cc_min_current
  else if rpm_lowest < -cfg.rpm_lim_start ∧ current < 0 then
    (utils_map (-rpm_lowest) cfg.rpm_lim_start cfg.rpm_lim_end (-current)
      mcconf.cc_min_current).map (fun c => -c)
  else
    some current

/-- Lines 540-548 and 570-578: the traction-control value of `current_out` for a
given `diff`. -/
def tcDerate (cfg : ppm_config) (mcconf : mc_configuration) (current diff : ℚ) : Option ℚ :=
  if diff > cfg.tc_offset then
    (utils_map (diff - cfg.tc_offset) 0 (cfg.tc_max_diff - cfg.tc_offset) current 0).map
      (fun current_out => if current_out < mcconf.cc_min_current then 0 else current_out)
  else
    some current

/-- The body of the loop of lines 530-565 for one record; the accumulator is
`current_out` and the calls made so far. -/
def tcPeerStep (cfg : ppm_config) (mcconf : mc_configuration) (current rpm_lowest : ℚ)
    (is_reverse : Bool) (acc : ℚ × List Cmd) (msg : can_status_msg) : Option (ℚ × List Cmd) :=
  if fresh msg then
    (if cfg.tc then
        tcDerate cfg mcconf current ((if is_reverse then -msg.rpm else msg.rpm) - rpm_lowest)
      else some acc.1).map
      (fun current_out =>
        (current_out,
         acc.2 ++ [Cmd.comm_can_set_current msg.id
                    (if is_reverse then -current_out else current_out)]))
  else some acc

/-- Lines 518-592: sign normalisation, traction control and the current commands. -/
def currentCommands (env : Env) (m : Frame) (current : ℚ) : Option Frame :=
  let is_reverse := decide (current < 0)
  let current_out := if is_reverse then -current else current
  let current := if is_reverse then -current else current
  let rpm_local := if is_reverse then -m.l.rpm_local else m.l.rpm_local
  let rpm_lowest := if is_reverse then -m.l.rpm_lowest else m.l.rpm_lowest
  (if m.s.config.multi_esc then
      (env.peers.foldlM (tcPeerStep m.s.config env.mcconf current rpm_lowest is_reverse)
        (current_out, m.out)).bind
        (fun acc =>
          (if m.s.config.tc then tcDerate m.s.config env.mcconf current (rpm_local - rpm_lowest)
           else some acc.1).map (fun current_out => (current_out, acc.2)))
    else some (current_out, m.out)).map
    (fun acc =>
      { s := m.s
        l := { m.l with current := current, rpm_local := rpm_local, rpm_lowest := rpm_lowest }
        out := acc.2 ++ [Cmd.mc_interface_set_current (if is_reverse then -acc.1 else acc.1)] })

/-- Lines 487-594: the current path. -/
def currentOutput (env : Env) (m : Frame) : Option Frame :=
  if m.l.current_mode then
    let m : Frame := { m with s := { m.s with pid_rpm := 0 } }
    if m.l.current_mode_brake then
      some { m with out := m.out ++ [Cmd.mc_interface_set_brake_current m.l.current]
                      ++ toFreshPeers env (fun id => Cmd.comm_can_set_current_brake id m.l.current) }
    else
      (softRpmLimit m.s.config env.mcconf m.l.rpm_lowest m.l.current).bind
        (fun current => currentCommands env m current)
  else some m

/-- Lines 182-463: the cycle from the read of the decoder up to the safe-start
gate.  `Flow.proceed m` is the frame with which the gate is reached;
`Flow.skip` is a cycle that the second `switch` ended with `continue`. -/
def beforeGate (env : Env) (s : State) : Option Flow :=
  (shapeInput env s).bind (fun servo_val =>
    (dispatch env { s := s, l := initLocals env s servo_val, out := [] }).map (fun r =>
      match r with
      | Flow.skip s out => Flow.skip s out
      | Flow.proceed m => Flow.proceed (modeSwitch m)))

/-- Lines 465-594: the safe-start gate and what follows it. -/
def afterGate (env : Env) (m : Frame) : Option (State × List Cmd) :=
  match safeStartGate env m with
  | Flow.skip s out => some (s, out)
  | Flow.proceed m => (currentOutput env (dutyBroadcast env m)).map (fun m => (m.s, m.out))

/-- One pass through the body of the `for(;;)` loop, lines 174-596: the state
afterwards and the calls made, in order. -/
def ppm_thread_cycle (env : Env) (s : State) : Option (State × List Cmd) :=
  if staleInput env then
    some ({ s with pulses_without_power := 0 }, [])
  else
    (beforeGate env s).bind (fun r =>
      match r with
      | Flow.skip s out => some (s, out)
      | Flow.proceed m => afterGate env m)

/-- The module state that lines 465-594 leave behind: the counter writes of the
gate (lines 467-470) when it holds the cycle, and the reset of line 489 on the
current path otherwise.  None of these writes reads a computed current, so this
state is defined also for a cycle in which a current is the result of a
division by zero. -/
def afterGateState (env : Env) (m : Frame) : State :=
  match safeStartGate env m with
  | Flow.skip s _ => s
  | Flow.proceed m => if m.l.current_mode then { m.s with pid_rpm := 0 } else m.s

/-! ## Auxiliary definitions used by the proofs -/

/-- The running minimum of lines 220-222 over a list of RPM values. -/
def runningLowest (a : ℚ) (l : List ℚ) : ℚ :=
  l.foldl (fun acc r => if fabsf r < fabsf acc then r else acc) a

/-- The fields of the state that no control mode writes. -/
def SameSettings (s t : State) : Prop :=
  t.config = s.config ∧ t.pulses_without_power_before = s.pulses_without_power_before
    ∧ t.x = s.x ∧ t.y = s.y ∧ t.is_running = s.is_running
    ∧ t.cruise_control_status = s.cruise_control_status

/-- The modes with a cruise hand-off. -/
def cruiseModes : List ppm_control_type :=
  [PPM_CTRL_TYPE_CURRENT, PPM_CTRL_TYPE_CURRENT_NOREV, PPM_CTRL_TYPE_CURRENT_NOREV_BRAKE,
   PPM_CTRL_TYPE_WATT_NOREV_BRAKE]

/-- The locked-speed call of the hand-off, lines 246, 276 and 306-310. -/
def lockCmd (cfg : ppm_config) (pid_rpm : ℚ) : Cmd :=
  if cfg.ctrl_type = PPM_CTRL_TYPE_WATT_NOREV_BRAKE ∧ cfg.max_watt_enabled = true then
    Cmd.mc_interface_set_pid_speed_and_watt pid_rpm cfg.max_watt
  else Cmd.mc_interface_set_pid_speed pid_rpm

/-- The frame that reaches the gate after the cruise branch of lines 238-250. -/
def handoffFrame (env : Env) (s : State) : Frame :=
  modeSwitch (countPulse true
    (cruiseHandoff env (lockCmd s.config)
      { s := s, l := { initLocals env s 0 with current_mode := true }, out := [] }))

/-- The calls that set a locked speed, on the local drive or on a peer. -/
def isLockedSpeed : Cmd → Bool
  | Cmd.mc_interface_set_pid_speed _ => true
  | Cmd.mc_interface_set_pid_speed_and_watt _ _ => true
  | Cmd.comm_can_set_rpm_and_watt _ _ _ => true
  | _ => false

/-- The states the module can be in: after a call of `app_ppm_configure`, and
after every cycle of the thread from such a state. -/
inductive Reachable : State → Prop
  | configure (conf : ppm_config) (s : State) : Reachable (app_ppm_configure conf s).1
  | cycle (env : Env) (s s' : State) (out : List Cmd) :
      Reachable s → ppm_thread_cycle env s = some (s', out) → Reachable s'

/-! ## Definitions that follow the specification -/

/-- Piecewise-linear interpolation through a list of points given by increasing
abscissa (spec 4.1, step 1): on the segment from `p` to `q` the value at `t` is
`p.2 + (q.2 - p.2) * (t - p.1) / (q.1 - p.1)`; the segment is the first one whose
right end is not below `t` (the last one beyond the last point). -/
def piecewiseLinear : List (ℚ × ℚ) → ℚ → ℚ
  | [], _ => 0
  | [p], _ => p.2
  | p :: q :: rest, t =>
    if t ≤ q.1 ∨ rest.isEmpty then p.2 + (q.2 - p.2) * (t - p.1) / (q.1 - p.1)
    else piecewiseLinear (q :: rest) t

/-- The sequence of spec 4.5 over which the lowest RPM is taken: the local RPM,
then the RPM of every record with a valid identifier and an age under 0.1 s, in
table order. -/
def rpmCandidates (rpm_local : ℚ) (peers : List can_status_msg) : List ℚ :=
  rpm_local :: (peers.filter (fun msg => decide (0 ≤ msg.id ∧ msg.age < 1 / 10))).map
    (fun msg => msg.rpm)

/-! ## Sample values for the examples -/

/-- A configuration for the examples: reversible current mode, two controllers,
safe start on, default curve. -/
def sampleConfig : ppm_config :=
  { ctrl_type := PPM_CTRL_TYPE_CURRENT
    pid_max_erpm := 15000
    hyst := 0
    pulse_start := 1
    pulse_end := 2
    pulse_center := 3 / 2
    median_filter := true
    safe_start := true
    rpm_lim_start := 200000
    rpm_lim_end := 250000
    multi_esc := true
    tc := false
    tc_max_diff := 1200
    tc_offset := 200
    adjustable_throttle_enabled := false
    x1_throttle := 1 / 4
    y1_throttle := 1 / 4
    x2_throttle := 1 / 2
    y2_throttle := 1 / 2
    x3_throttle := 3 / 4
    y3_throttle := 3 / 4
    bezier_reduce_factor := 1 / 2
    max_watt_enabled := false
    max_watt := 1500
    max_watt_ramp_by_current := false
    max_watt_ramp_factor := 1 }

/-- The state right after start-up with `sampleConfig`. -/
def sampleState : State :=
  { is_running := true
    pid_rpm := 0
    mode_switch_pulses := 0
    config := sampleConfig
    pulses_without_power := 0
    filter_buffer := [0, 0, 0, 0, 0, 0, 0, 0]
    filter_ptr := 0
    has_enough_pid_filter_data := false
    x := [0, 1 / 4, 1 / 2, 3 / 4, 1]
    y := [0, 1 / 4, 1 / 2, 3 / 4, 1]
    pulses_without_power_before := 0
    cruise_control_status := 0 }

/-- Drive limits for the examples. -/
def sampleMcconf : mc_configuration :=
  { s_pid_min_erpm := 900
    l_current_max := 60
    l_current_min := -60
    l_max_duty := 19 / 20
    cc_min_current := 1 / 20 }

/-- Readings for the examples: a fresh pulse, no fault, stick at neutral, local
RPM 1000, and the two peers of spec 8: `(id 1, rpm 500, age 0.05 s)` and
`(id 2, rpm -800, age 0.2 s)`; a deadband of width 0 leaves the input as it is. -/
def sampleEnv : Env :=
  { timeout_has_timeout := false
    servodec_get_time_since_update := 2
    timeout_get_timeout_msec := 1000
    mc_interface_get_fault := 0
    servodec_get_servo := 0
    utils_deadband := fun value _ _ => some value
    mcconf := sampleMcconf
    mc_interface_get_rpm := 1000
    peers := [{ id := 1, age := 1 / 20, rpm := 500, cruise_control_status := 0 },
              { id := 2, age := 1 / 5, rpm := -800, cruise_control_status := 0 }]
    mc_interface_get_motor_voltage := 40
    mc_interface_get_max_current_at_current_motor_voltage := 60
    mc_interface_get_duty_cycle_now := 1 / 10
    timeout_get_brake_current := 5 }

/-- Readings in which the only peer is fresh, turns at 5000 RPM and reports
cruise-active, while the local RPM is 6000 and the stick is at neutral. -/
def cruiseEnv : Env :=
  { sampleEnv with
    mc_interface_get_rpm := 6000
    peers := [{ id := 1, age := 1 / 20, rpm := 5000, cruise_control_status := 1 }] }

/-- Speed no-acceleration-limit mode with a full filter ring at 5000 RPM and the
safe-start count at 3. -/
def noAccelState : State :=
  { sampleState with
    config := { sampleConfig with ctrl_type := PPM_CTRL_TYPE_PID_NOACCELERATION }
    pulses_without_power := 3
    has_enough_pid_filter_data := true
    filter_buffer := [5000, 5000, 5000, 5000, 5000, 5000, 5000, 5000] }

/-- The readings of `cruiseEnv` with the stick at half throttle. -/
def halfThrottleCruiseEnv : Env := { cruiseEnv with servodec_get_servo := 1 / 2 }

/-- Readings with the stick at half throttle. -/
def halfThrottleEnv : Env := { sampleEnv with servodec_get_servo := 1 / 2 }

/-- A state past the safe-start count with the speed locked at 5000. -/
def lockedState : State :=
  { sampleState with pid_rpm := 5000, pulses_without_power := 60 }

/-- A state in the middle of operation. -/
def busyState : State :=
  { sampleState with
    pid_rpm := 5000
    mode_switch_pulses := 12
    pulses_without_power := 60
    filter_ptr := 3
    has_enough_pid_filter_data := true }

/-- Speed no-acceleration-limit mode past the safe-start count, with a full
filter ring at 5000 RPM and the speed locked at 7000. -/
def noAccelLockedState : State :=
  { sampleState with
    config := { sampleConfig with ctrl_type := PPM_CTRL_TYPE_PID_NOACCELERATION }
    pid_rpm := 7000
    pulses_without_power := 60
    has_enough_pid_filter_data := true
    filter_buffer := [5000, 5000, 5000, 5000, 5000, 5000, 5000, 5000] }

/-- Cruise secondary-channel mode with the cruise flag active. -/
def cruiseChannelState : State :=
  { sampleState with
    config := { sampleConfig with ctrl_type := PPM_CTRL_TYPE_CRUISE_CONTROL_SECONDARY_CHANNEL }
    cruise_control_status := CRUISE_CONTROL_ACTIVE }

/-- Readings with the stick at one tenth. -/
def tenthThrottleEnv : Env := { sampleEnv with servodec_get_servo := 1 / 10 }

/-- Current mode on a single controller. -/
def singleConfig : ppm_config := { sampleConfig with multi_esc := false }

/-- Cruise secondary-channel mode on a single controller. -/
def singleChannelConfig : ppm_config :=
  { sampleConfig with
    ctrl_type := PPM_CTRL_TYPE_CRUISE_CONTROL_SECONDARY_CHANNEL
    multi_esc := false }

/-- The state right after `app_ppm_configure singleChannelConfig`. -/
def singleChannelStart : State := (app_ppm_configure singleChannelConfig sampleState).1

/-- The start-up state past the safe-start count. -/
def passedState : State := { sampleState with pulses_without_power := 60 }

/-- Power-capped mode with the cap and the ramp enabled, past the safe-start count. -/
def wattState : State :=
  { sampleState with
    config := { sampleConfig with
                ctrl_type := PPM_CTRL_TYPE_WATT_NOREV_BRAKE
                max_watt_enabled := true
                max_watt_ramp_by_current := true
                max_watt_ramp_factor := 1 / 2 }
    pulses_without_power := 60 }

/-- Current mode past the safe-start count with the soft RPM limit band from
1000 to 2000 RPM. -/
def limitState : State :=
  { sampleState with
    config := { sampleConfig with rpm_lim_start := 1000, rpm_lim_end := 2000 }
    pulses_without_power := 60 }

/-- Readings with the stick at half reverse, the local RPM at -3000 and no
fresh peer. -/
def fastReverseEnv : Env :=
  { sampleEnv with
    servodec_get_servo := -(1 / 2)
    mc_interface_get_rpm := -3000
    peers := [] }

/-- A state inside the safe-start count with the speed locked at 5000. -/
def heldLockedState : State := { sampleState with pid_rpm := 5000 }

/-- The start-up state past the safe-start count with traction control on. -/
def tractionState : State :=
  { sampleState with
    config := { sampleConfig with tc := true }
    pulses_without_power := 60 }

/-- Readings with the stick at half reverse, the local RPM at -1500 and one fresh
peer at -500 RPM. -/
def reverseEnv : Env :=
  { sampleEnv with
    servodec_get_servo := -(1 / 2)
    mc_interface_get_rpm := -1500
    peers := [{ id := 1, age := 1 / 20, rpm := -500, cruise_control_status := 0 }] }

/-- Readings in which the only peer is fresh, turns at 3000 RPM and reports
cruise-active, while the local RPM is 3500 and the stick is at neutral. -/
def slowCruiseEnv : Env :=
  { sampleEnv with
    mc_interface_get_rpm := 3500
    peers := [{ id := 1, age := 1 / 20, rpm := 3000, cruise_control_status := 1 }] }

/-- The state after the cruise hand-off has locked the speed at 5000 in the first
cycle after start-up. -/
def firstLockState : State :=
  { sampleState with pid_rpm := 5000, pulses_without_power := 1, pulses_without_power_before := 1 }

theorem nevilleClamp_eq (v : ℚ) : nevilleClamp v = max 0 (min 1 v) := by
  unfold nevilleClamp
  split_ifs with h1 h2
  · rw [min_eq_left (le_of_lt h1), max_eq_right (by norm_num)]
  · rw [min_eq_right (by linarith), max_eq_left (le_of_lt h2)]
  · rw [min_eq_right (by linarith), max_eq_right (by linarith)]

theorem nevilleClamp_mem (v : ℚ) : 0 ≤ nevilleClamp v ∧ nevilleClamp v ≤ 1 := by
  unfold nevilleClamp
  split_ifs with h1 h2 <;> constructor <;> linarith

theorem neville_mem_unit {x y : List ℚ} {k t v : ℚ} (h : neville x y k t = some v) :
    0 ≤ v ∧ v ≤ 1 := by
  unfold neville at h
  cases hd : directSteps x y t with
  | none => simp [hd] at h
  | some d =>
    cases hf : nevilleLoop x y t with
    | none => simp [hd, hf] at h
    | some f =>
      simp [hd, hf] at h
      rw [← h]
      exact nevilleClamp_mem _

theorem nevilleLoop_defined (x0 x1 x2 x3 x4 y0 y1 y2 y3 y4 t : ℚ)
    (h : (([x0, x1, x2, x3, x4] : List ℚ).Pairwise (fun a b => a ≠ b))) :
    ∃ f, nevilleLoop [x0, x1, x2, x3, x4] [y0, y1, y2, y3, y4] t = some f := by
  simp only [List.pairwise_cons, List.mem_cons, List.mem_singleton, forall_eq_or_imp, forall_eq] at h
  obtain ⟨⟨h01, h02, h03, h04, -⟩, ⟨h12, h13, h14, -⟩, ⟨h23, h24, -⟩, ⟨h34, -⟩, -⟩ := h
  have e10 := sub_ne_zero.mpr (Ne.symm h01)
  have e20 := sub_ne_zero.mpr (Ne.symm h02)
  have e30 := sub_ne_zero.mpr (Ne.symm h03)
  have e40 := sub_ne_zero.mpr (Ne.symm h04)
  have e21 := sub_ne_zero.mpr (Ne.symm h12)
  have e31 := sub_ne_zero.mpr (Ne.symm h13)
  have e41 := sub_ne_zero.mpr (Ne.symm h14)
  have e32 := sub_ne_zero.mpr (Ne.symm h23)
  have e42 := sub_ne_zero.mpr (Ne.symm h24)
  have e43 := sub_ne_zero.mpr (Ne.symm h34)
  simp [nevilleLoop, nevilleInner, nevilleAssign, idx, fdiv, List.foldlM, e10, e20, e30, e40, e21, e31, e41, e32, e42, e43]

theorem directSteps_ordered (x1 x2 x3 y1 y2 y3 t : ℚ)
    (h1 : 0 < x1) (h2 : x1 < x2) (h3 : x2 < x3) (h4 : x3 < 1) :
    directSteps [0, x1, x2, x3, 1] [0, y1, y2, y3, 1] t
      = some (piecewiseLinear [(0, 0), (x1, y1), (x2, y2), (x3, y3), (1, 1)] t) := by
  have e1 : x1 ≠ 0 := ne_of_gt h1
  have e2 : x2 - x1 ≠ 0 := sub_ne_zero.mpr (ne_of_gt h2)
  have e3 : x3 - x2 ≠ 0 := sub_ne_zero.mpr (ne_of_gt h3)
  have e4 : 1 - x3 ≠ 0 := sub_ne_zero.mpr (ne_of_gt h4)
  simp only [directSteps, idx, fdiv, piecewiseLinear, List.getD_cons_succ, List.getD_cons_zero,
    e1, e2, e3, e4, if_false, Option.map_some', List.isEmpty_cons, List.isEmpty_nil, or_false, or_true,
    if_true, sub_zero, zero_add, Bool.false_eq_true]
  by_cases c1 : t < x1
  · rw [if_pos c1, if_pos (le_of_lt c1)]
    congr 1; field_simp
  · rw [if_neg c1]
    by_cases c3 : t > x3
    · rw [if_pos c3, if_neg (by linarith), if_neg (by linarith), if_neg (by linarith)]
      congr 1; field_simp; ring
    · rw [if_neg c3]
      by_cases c2 : t > x2
      · rw [if_pos c2, if_neg (by linarith), if_neg (by linarith), if_pos (by linarith)]
        congr 1; field_simp; ring
      · rw [if_neg c2]
        by_cases c0 : t > x1
        · rw [if_pos c0, if_neg (by linarith), if_pos (by linarith)]
          congr 1; field_simp; ring
        · rw [if_neg c0, if_pos (by linarith)]
          have : t = x1 := le_antisymm (by linarith) (by linarith)
          subst this
          congr 1; field_simp

theorem directSteps_defined (x1 x2 x3 y1 y2 y3 t : ℚ)
    (h : (([0, x1, x2, x3, 1] : List ℚ).Pairwise (fun a b => a ≠ b))) :
    ∃ d, directSteps [0, x1, x2, x3, 1] [0, y1, y2, y3, 1] t = some d := by
  simp only [List.pairwise_cons, List.mem_cons, List.mem_singleton, forall_eq_or_imp, forall_eq]
    at h
  obtain ⟨⟨h01, -, -, -, -⟩, ⟨h12, -, -, -⟩, ⟨h23, -, -⟩, ⟨h34, -⟩, -⟩ := h
  have e1 : x1 ≠ 0 := Ne.symm h01
  have e2 : x2 - x1 ≠ 0 := sub_ne_zero.mpr (Ne.symm h12)
  have e3 : x3 - x2 ≠ 0 := sub_ne_zero.mpr (Ne.symm h23)
  have e4 : 1 - x3 ≠ 0 := sub_ne_zero.mpr (Ne.symm h34)
  simp only [directSteps, idx, fdiv, List.getD_cons_succ, List.getD_cons_zero, e1, e2, e3, e4,
    if_false, Option.map_some']
  split_ifs <;> exact ⟨_, rfl⟩

theorem neville_distinct_points_clamped (x1 x2 x3 y1 y2 y3 k t : ℚ)
    (h : (([0, x1, x2, x3, 1] : List ℚ).Pairwise (fun a b => a ≠ b))) :
    ∃ v, neville [0, x1, x2, x3, 1] [0, y1, y2, y3, 1] k t = some v ∧ 0 ≤ v ∧ v ≤ 1 := by
  obtain ⟨d, hd⟩ := directSteps_defined x1 x2 x3 y1 y2 y3 t h
  obtain ⟨f, hf⟩ := nevilleLoop_defined 0 x1 x2 x3 1 0 y1 y2 y3 1 t h
  have hv : neville [0, x1, x2, x3, 1] [0, y1, y2, y3, 1] k t
      = some (nevilleClamp (idx f 4 - ((idx f 4 - d) * k))) := by
    unfold neville
    rw [hd, hf]
    rfl
  exact ⟨_, hv, nevilleClamp_mem _⟩

theorem neville_non_monotonic_points_clamped (y1 y2 y3 k t : ℚ) :
    ∃ v, neville [0, 4 / 5, 1 / 5, 3 / 4, 1] [0, y1, y2, y3, 1] k t = some v ∧ 0 ≤ v ∧ v ≤ 1 :=
  neville_distinct_points_clamped (4 / 5) (1 / 5) (3 / 4) y1 y2 y3 k t (by
    simp only [List.pairwise_cons, List.mem_cons, List.mem_singleton, forall_eq_or_imp, forall_eq,
      List.not_mem_nil, false_implies, implies_true, List.Pairwise.nil, and_true]
    norm_num)

/-! ## Lemmas on the peer aggregation -/

theorem fabsf_eq_abs (v : ℚ) : fabsf v = |v| := by
  unfold fabsf
  split_ifs with h
  · rw [abs_of_neg h]
  · rw [abs_of_nonneg (not_lt.mp h)]

theorem foldl_lowestStep_filter (peers : List can_status_msg) (acc : ℚ × Bool) :
    peers.foldl lowestStep acc = (peers.filter fresh).foldl lowestStep acc := by
  induction peers generalizing acc with
  | nil => rfl
  | cons msg rest ih =>
    by_cases hf : fresh msg = true
    · rw [List.filter_cons_of_pos hf, List.foldl_cons, List.foldl_cons, ih]
    · rw [List.filter_cons_of_neg hf, List.foldl_cons, ih]
      have : lowestStep acc msg = acc := by
        unfold lowestStep
        rw [if_neg hf]
      rw [this]

theorem foldl_lowestStep_snd (peers : List can_status_msg) (acc : ℚ × Bool) :
    (peers.foldl lowestStep acc).2 = true ↔
      acc.2 = true ∨ ∃ msg ∈ peers, fresh msg = true
        ∧ msg.cruise_control_status = CRUISE_CONTROL_ACTIVE := by
  induction peers generalizing acc with
  | nil => simp
  | cons msg rest ih =>
    rw [List.foldl_cons, ih]
    unfold lowestStep
    by_cases hf : fresh msg = true
    · by_cases hc : msg.cruise_control_status = CRUISE_CONTROL_ACTIVE
      · simp [hf, hc]
      · simp [hf, hc]
    · simp [hf]

theorem foldl_lowestStep_fst (peers : List can_status_msg) (acc : ℚ × Bool) :
    (peers.foldl lowestStep acc).1
      = runningLowest acc.1 ((peers.filter fresh).map (fun msg => msg.rpm)) := by
  induction peers generalizing acc with
  | nil => rfl
  | cons msg rest ih =>
    rw [List.foldl_cons, ih]
    unfold lowestStep
    by_cases hf : fresh msg = true
    · simp [hf, runningLowest]
    · simp [hf, runningLowest]

theorem runningLowest_first_min (a : ℚ) (l : List ℚ) :
    ∃ i, i < (a :: l).length ∧ (a :: l).getD i 0 = runningLowest a l
      ∧ (∀ j, j < i → |runningLowest a l| < |(a :: l).getD j 0|)
      ∧ (∀ j, j < (a :: l).length → |runningLowest a l| ≤ |(a :: l).getD j 0|) := by
  induction l using List.reverseRecOn with
  | nil =>
    refine ⟨0, by simp, by simp [runningLowest], by simp, ?_⟩
    intro j hj
    have : j = 0 := by simpa using hj
    subst this
    simp [runningLowest]
  | append_singleton l r ih =>
    obtain ⟨i, hi, hget, hbefore, hall⟩ := ih
    have hstep : runningLowest a (l ++ [r])
        = if |r| < |runningLowest a l| then r else runningLowest a l := by
      simp [runningLowest, List.foldl_append, fabsf_eq_abs]
    have hlen : (a :: (l ++ [r])).length = (a :: l).length + 1 := by simp
    have hold : ∀ j, j < (a :: l).length → (a :: (l ++ [r])).getD j 0 = (a :: l).getD j 0 := by
      intro j hj
      rw [← List.cons_append, List.getD_append _ _ _ _ hj]
    have hlast : (a :: (l ++ [r])).getD (a :: l).length 0 = r := by
      rw [← List.cons_append, List.getD_append_right _ _ _ _ (le_refl _)]
      simp
    by_cases hr : |r| < |runningLowest a l|
    · rw [hstep, if_pos hr]
      refine ⟨(a :: l).length, by rw [hlen]; exact Nat.lt_succ_self _, hlast, ?_, ?_⟩
      · intro j hj
        rw [hold j hj]
        exact lt_of_lt_of_le hr (hall j hj)
      · intro j hj
        rw [hlen] at hj
        rcases Nat.lt_succ_iff_lt_or_eq.mp hj with h | h
        · rw [hold j h]
          exact le_of_lt (lt_of_lt_of_le hr (hall j h))
        · rw [h, hlast]
    · rw [hstep, if_neg hr]
      refine ⟨i, by rw [hlen]; exact Nat.lt_succ_of_lt hi, by rw [hold i hi]; exact hget, ?_, ?_⟩
      · intro j hj
        rw [hold j (lt_trans hj hi)]
        exact hbefore j hj
      · intro j hj
        rw [hlen] at hj
        rcases Nat.lt_succ_iff_lt_or_eq.mp hj with h | h
        · rw [hold j h]
          exact hall j h
        · rw [h, hlast]
          exact not_lt.mp hr
theorem fresh_eq (msg : can_status_msg) :
    fresh msg = decide (0 ≤ msg.id ∧ msg.age < 1 / 10) := by
  simp [fresh, MAX_CAN_AGE]

theorem fresh_fun_eq : fresh = fun msg => decide (0 ≤ msg.id ∧ msg.age < 1 / 10) :=
  funext fresh_eq

/-! ## Lemmas on the cycle -/

theorem SameSettings.refl (s : State) : SameSettings s s := ⟨rfl, rfl, rfl, rfl, rfl, rfl⟩

theorem SameSettings.trans {s t u : State} (h1 : SameSettings s t) (h2 : SameSettings t u) :
    SameSettings s u := by
  unfold SameSettings at *
  obtain ⟨hconfig, hbefore, hx, hy, hrunning, hcruise⟩ := h1
  rw [← hconfig, ← hbefore, ← hx, ← hy, ← hrunning, ← hcruise]
  exact h2

theorem countPulse_settings (c : Bool) (m : Frame) : SameSettings m.s (countPulse c m).s := by
  unfold countPulse
  split_ifs <;> exact ⟨rfl, rfl, rfl, rfl, rfl, rfl⟩

theorem cruiseHandoff_settings (env : Env) (lock : ℚ → Cmd) (m : Frame) :
    SameSettings m.s (cruiseHandoff env lock m).s := by
  unfold cruiseHandoff
  split_ifs <;> exact ⟨rfl, rfl, rfl, rfl, rfl, rfl⟩

theorem caseCurrent_settings (env : Env) (m : Frame) :
    SameSettings m.s (caseCurrent env m).s := by
  unfold caseCurrent
  refine SameSettings.trans ?_ (countPulse_settings _ _)
  split_ifs
  · exact cruiseHandoff_settings _ _ _
  · exact SameSettings.refl _
  · exact SameSettings.refl _

theorem caseCurrentNorevBrake_settings (env : Env) (m : Frame) :
    SameSettings m.s (caseCurrentNorevBrake env m).s := by
  unfold caseCurrentNorevBrake
  refine SameSettings.trans ?_ (countPulse_settings _ _)
  split_ifs
  · exact cruiseHandoff_settings _ _ _
  · exact SameSettings.refl _
  · exact SameSettings.refl _

theorem caseWattNorevBrake_settings (env : Env) (m m' : Frame)
    (h : caseWattNorevBrake env m = some m') : SameSettings m.s m'.s := by
  unfold caseWattNorevBrake at h
  simp only [Option.map_eq_some'] at h
  obtain ⟨a, ha, rfl⟩ := h
  refine SameSettings.trans ?_ (countPulse_settings _ _)
  split_ifs at ha <;>
    first
    | (injection ha with ha
       rw [← ha]
       first
         | exact cruiseHandoff_settings _ _ _
         | exact SameSettings.refl _)
    | (simp only [Option.map_eq_some'] at ha
       obtain ⟨c, -, rfl⟩ := ha
       exact SameSettings.refl _)

theorem casePidNoacceleration_settings (env : Env) (m : Frame) :
    SameSettings m.s (casePidNoacceleration env m).s := by
  unfold casePidNoacceleration
  refine SameSettings.trans ?_ (countPulse_settings _ _)
  simp only
  split_ifs <;> exact ⟨rfl, rfl, rfl, rfl, rfl, rfl⟩

theorem caseDuty_settings (env : Env) (m m' : Frame)
    (h : caseDuty env m = some m') : SameSettings m.s m'.s := by
  unfold caseDuty at h
  simp only at h
  split_ifs at h
  · simp only [Option.map_eq_some'] at h
    obtain ⟨c, -, rfl⟩ := h
    exact countPulse_settings _ _
  · simp only [Option.some.injEq] at h
    rw [← h]
    exact countPulse_settings _ _

theorem casePid_settings (m : Frame) : SameSettings m.s (casePid m).s := by
  unfold casePid
  simp only
  split_ifs
  · exact countPulse_settings _ _
  · exact countPulse_settings _ _

theorem modeSwitch_settings (m : Frame) : SameSettings m.s (modeSwitch m).s := by
  unfold modeSwitch
  split_ifs <;> exact ⟨rfl, rfl, rfl, rfl, rfl, rfl⟩

theorem dispatch_settings (env : Env) (m m' : Frame)
    (h : dispatch env m = some (Flow.proceed m')) : SameSettings m.s m'.s := by
  cases hct : m.s.config.ctrl_type <;> simp only [dispatch, hct] at h
  case PPM_CTRL_TYPE_NONE => simp at h
  case PPM_CTRL_TYPE_CURRENT =>
    injection h with h; injection h with h; rw [← h]; exact caseCurrent_settings _ _
  case PPM_CTRL_TYPE_CURRENT_NOREV =>
    injection h with h; injection h with h; rw [← h]; exact caseCurrent_settings _ _
  case PPM_CTRL_TYPE_CURRENT_NOREV_BRAKE =>
    injection h with h; injection h with h; rw [← h]; exact caseCurrentNorevBrake_settings _ _
  case PPM_CTRL_TYPE_WATT_NOREV_BRAKE =>
    simp only [Option.map_eq_some', Flow.proceed.injEq] at h
    obtain ⟨a, ha, rfl⟩ := h
    exact caseWattNorevBrake_settings _ _ _ ha
  case PPM_CTRL_TYPE_PID_NOACCELERATION =>
    injection h with h; injection h with h; rw [← h]; exact casePidNoacceleration_settings _ _
  case PPM_CTRL_TYPE_CRUISE_CONTROL_SECONDARY_CHANNEL => simp [caseCruiseSecondary] at h
  case PPM_CTRL_TYPE_DUTY =>
    simp only [Option.map_eq_some', Flow.proceed.injEq] at h
    obtain ⟨a, ha, rfl⟩ := h
    exact caseDuty_settings _ _ _ ha
  case PPM_CTRL_TYPE_DUTY_NOREV =>
    simp only [Option.map_eq_some', Flow.proceed.injEq] at h
    obtain ⟨a, ha, rfl⟩ := h
    exact caseDuty_settings _ _ _ ha
  case PPM_CTRL_TYPE_PID =>
    injection h with h; injection h with h; rw [← h]; exact casePid_settings _
  case PPM_CTRL_TYPE_PID_NOREV =>
    injection h with h; injection h with h; rw [← h]; exact casePid_settings _

theorem beforeGate_settings (env : Env) (s : State) (m : Frame)
    (h : beforeGate env s = some (Flow.proceed m)) : SameSettings s m.s := by
  unfold beforeGate at h
  simp only [Option.bind_eq_some, Option.map_eq_some'] at h
  obtain ⟨servo_val, -, r, hr, hm⟩ := h
  cases r with
  | skip s2 out => simp at hm
  | proceed m2 =>
    simp only [Flow.proceed.injEq] at hm
    rw [← hm]
    exact SameSettings.trans (dispatch_settings env _ m2 hr) (modeSwitch_settings m2)

theorem cycle_of_beforeGate (env : Env) (s : State) (m : Frame)
    (hs : staleInput env = false) (hg : beforeGate env s = some (Flow.proceed m)) :
    ppm_thread_cycle env s = afterGate env m := by
  unfold ppm_thread_cycle
  rw [hs, hg]
  rfl

theorem afterGate_hold (env : Env) (m : Frame) (hh : safeStartHold m.s = true) :
    afterGate env m
      = some ({ m.s with
                pulses_without_power :=
                  if m.s.pulses_without_power = m.s.pulses_without_power_before then 0
                  else m.s.pulses_without_power
                pulses_without_power_before :=
                  if m.s.pulses_without_power = m.s.pulses_without_power_before then 0
                  else m.s.pulses_without_power },
              m.out ++ [Cmd.mc_interface_set_brake_current env.timeout_get_brake_current]) := by
  unfold afterGate safeStartGate
  rw [if_pos hh]

theorem utils_map_zero_out (x a b q : ℚ) (h : utils_map x a b 0 0 = some q) : q = 0 := by
  unfold utils_map fdiv at h
  split_ifs at h
  · simp at h
  · simp at h
    exact h.symm

theorem tcDerate_zero (cfg : ppm_config) (mcconf : mc_configuration) (diff v : ℚ)
    (h : tcDerate cfg mcconf 0 diff = some v) : v = 0 := by
  unfold tcDerate at h
  split_ifs at h
  · simp only [Option.map_eq_some'] at h
    obtain ⟨q, hq, hv⟩ := h
    have := utils_map_zero_out _ _ _ _ hq
    subst this
    rw [← hv]
    split_ifs <;> rfl
  · injection h with h
    exact h.symm

theorem tcDerate_zero_defined (cfg : ppm_config) (mcconf : mc_configuration) (diff : ℚ)
    (h : cfg.tc_max_diff ≠ cfg.tc_offset) : tcDerate cfg mcconf 0 diff = some 0 := by
  have hne : cfg.tc_max_diff - cfg.tc_offset - 0 ≠ 0 := by
    rw [sub_zero]
    exact sub_ne_zero.mpr h
  unfold tcDerate utils_map fdiv
  split_ifs <;> simp

theorem tcPeerStep_zero (cfg : ppm_config) (mcconf : mc_configuration) (rpm_lowest : ℚ)
    (out : List Cmd) (msg : can_status_msg) (acc : ℚ × List Cmd)
    (h : tcPeerStep cfg mcconf 0 rpm_lowest false (0, out) msg = some acc) :
    acc = (0, out ++ (if fresh msg then [Cmd.comm_can_set_current msg.id 0] else [])) := by
  unfold tcPeerStep at h
  by_cases hf : fresh msg = true
  · simp only [hf, if_true, Option.map_eq_some'] at h
    obtain ⟨v, hv, rfl⟩ := h
    have hv0 : v = 0 := by
      by_cases htc : cfg.tc = true
      · rw [if_pos htc] at hv
        exact tcDerate_zero _ _ _ _ hv
      · rw [if_neg htc] at hv
        injection hv with hv
        exact hv.symm
    subst hv0
    simp [hf]
  · simp only [hf] at h
    injection h with h
    rw [← h]
    simp [hf]

theorem tcPeers_zero (cfg : ppm_config) (mcconf : mc_configuration) (rpm_lowest : ℚ)
    (peers : List can_status_msg) (out : List Cmd) (acc : ℚ × List Cmd)
    (h : peers.foldlM (tcPeerStep cfg mcconf 0 rpm_lowest false) (0, out) = some acc) :
    acc = (0, out ++ (peers.filter fresh).map (fun msg => Cmd.comm_can_set_current msg.id 0)) := by
  induction peers generalizing out with
  | nil =>
    simp only [List.foldlM_nil, Option.pure_def, Option.some.injEq] at h
    rw [← h]
    simp
  | cons msg rest ih =>
    simp only [List.foldlM_cons, Option.bind_eq_bind, Option.bind_eq_some] at h
    obtain ⟨a, ha, hrest⟩ := h
    have := tcPeerStep_zero cfg mcconf rpm_lowest out msg a ha
    subst this
    have := ih _ hrest
    rw [this]
    by_cases hf : fresh msg = true
    · simp [hf, List.filter_cons]
    · simp [hf, List.filter_cons]

theorem tcPeers_zero_defined (cfg : ppm_config) (mcconf : mc_configuration) (rpm_lowest : ℚ)
    (peers : List can_status_msg) (out : List Cmd)
    (hdef : cfg.tc = true → cfg.tc_max_diff ≠ cfg.tc_offset) :
    ∃ acc, peers.foldlM (tcPeerStep cfg mcconf 0 rpm_lowest false) (0, out) = some acc := by
  induction peers generalizing out with
  | nil => exact ⟨_, rfl⟩
  | cons msg rest ih =>
    have hstep : ∃ out2, tcPeerStep cfg mcconf 0 rpm_lowest false (0, out) msg = some (0, out2) := by
      unfold tcPeerStep
      by_cases hf : fresh msg = true
      · by_cases htc : cfg.tc = true
        · simp [hf, htc, tcDerate_zero_defined cfg mcconf _ (hdef htc)]
        · simp [hf, htc]
      · simp [hf]
    obtain ⟨out2, h2⟩ := hstep
    obtain ⟨acc, hacc⟩ := ih out2
    exact ⟨acc, by simp only [List.foldlM_cons, h2, Option.bind_eq_bind, Option.some_bind, hacc]⟩

theorem cruiseHandoff_servo_val (env : Env) (lock : ℚ → Cmd) (m : Frame) :
    (cruiseHandoff env lock m).l.servo_val = m.l.servo_val := by
  unfold cruiseHandoff
  split_ifs <;> rfl

theorem dispatch_handoff (env : Env) (s : State) (l : Locals) (out : List Cmd)
    (hmode : s.config.ctrl_type ∈ cruiseModes)
    (hzero : l.servo_val = 0) (hcruise : l.cruise_control_status = true) :
    dispatch env { s := s, l := l, out := out }
      = some (Flow.proceed (countPulse true
          (cruiseHandoff env (lockCmd s.config)
            { s := s, l := { l with current_mode := true }, out := out }))) := by
  simp only [cruiseModes, List.mem_cons, List.mem_singleton, List.not_mem_nil, or_false] at hmode
  rcases hmode with h | h | h | h
  · have hl : lockCmd s.config = Cmd.mc_interface_set_pid_speed := by
      funext p; simp [lockCmd, h]
    simp [dispatch, h, caseCurrent, hzero, hcruise, fabsf, hl, cruiseHandoff_servo_val]
  · have hl : lockCmd s.config = Cmd.mc_interface_set_pid_speed := by
      funext p; simp [lockCmd, h]
    simp [dispatch, h, caseCurrent, hzero, hcruise, fabsf, hl, cruiseHandoff_servo_val]
  · have hl : lockCmd s.config = Cmd.mc_interface_set_pid_speed := by
      funext p; simp [lockCmd, h]
    simp [dispatch, h, caseCurrentNorevBrake, hzero, hcruise, hl, cruiseHandoff_servo_val]
  · have hl : lockCmd s.config = (fun pid_rpm =>
        if s.config.max_watt_enabled = true then
          Cmd.mc_interface_set_pid_speed_and_watt pid_rpm s.config.max_watt
        else Cmd.mc_interface_set_pid_speed pid_rpm) := by
      funext p; simp [lockCmd, h]
    simp [dispatch, h, caseWattNorevBrake, hzero, hcruise, hl, cruiseHandoff_servo_val]

theorem afterGate_locked (env : Env) (m : Frame) (hmode : m.l.current_mode = false) :
    ∃ s' out, afterGate env m = some (s', out) ∧ s'.pid_rpm = m.s.pid_rpm
      ∧ ∀ c ∈ m.out, c ∈ out := by
  by_cases hh : safeStartHold m.s = true
  · rw [afterGate_hold env m hh]
    exact ⟨_, _, rfl, rfl, fun c hc => List.mem_append_left _ hc⟩
  · unfold afterGate safeStartGate
    rw [if_neg hh]
    have hcm : (dutyBroadcast env m).l.current_mode = false := by
      unfold dutyBroadcast
      split_ifs <;> exact hmode
    simp only [currentOutput, hcm, Bool.false_eq_true, if_false, Option.map_some']
    refine ⟨_, _, rfl, ?_, ?_⟩
    · unfold dutyBroadcast
      split_ifs <;> rfl
    · intro c hc
      unfold dutyBroadcast
      split_ifs
      · exact List.mem_append_left _ hc
      · exact hc

theorem softRpmLimit_zero (cfg : ppm_config) (mcconf : mc_configuration) (rpm_lowest : ℚ) :
    softRpmLimit cfg mcconf rpm_lowest 0 = some 0 := by
  simp [softRpmLimit]

theorem afterGate_zero_current (env : Env) (m : Frame)
    (hmode : m.l.current_mode = true) (hbrake : m.l.current_mode_brake = false)
    (hcur : m.l.current = 0) (hduty : m.l.send_duty = false) (hout : m.out = [])
    (hmulti : m.s.config.multi_esc = true) (hpid : m.s.pid_rpm = 0) :
    (∀ s' out, afterGate env m = some (s', out) →
        s'.pid_rpm = 0
        ∧ (safeStartHold m.s = false →
            out = (env.peers.filter fresh).map (fun msg => Cmd.comm_can_set_current msg.id 0)
                    ++ [Cmd.mc_interface_set_current 0]))
    ∧ ((m.s.config.tc = true → m.s.config.tc_max_diff ≠ m.s.config.tc_offset) →
        ∃ r, afterGate env m = some r) := by
  by_cases hh : safeStartHold m.s = true
  · rw [afterGate_hold env m hh]
    refine ⟨?_, fun _ => ⟨_, rfl⟩⟩
    intro s' out h
    injection h with h
    injection h with h1 h2
    rw [← h1]
    exact ⟨hpid, fun hc => by rw [hh] at hc; cases hc⟩
  · have hd : dutyBroadcast env m = m := by
      unfold dutyBroadcast
      simp [hduty]
    have hag : afterGate env m
        = ((env.peers.foldlM (tcPeerStep m.s.config env.mcconf 0 m.l.rpm_lowest false)
              (0, [])).bind
            (fun acc =>
              (if m.s.config.tc then
                  tcDerate m.s.config env.mcconf 0 (m.l.rpm_local - m.l.rpm_lowest)
                else some acc.1).map (fun current_out => (current_out, acc.2)))).map
          (fun acc => ({ m.s with pid_rpm := 0 },
            acc.2 ++ [Cmd.mc_interface_set_current acc.1])) := by
      unfold afterGate safeStartGate
      rw [if_neg hh]
      simp only [hd, currentOutput, hmode, hbrake, hcur, softRpmLimit_zero, if_true,
        Bool.false_eq_true, if_false, Option.some_bind, currentCommands, hmulti, hout,
        lt_self_iff_false, decide_False, Option.map_map]
      rfl
    rw [hag]
    constructor
    · intro s' out h
      simp only [Option.map_eq_some', Option.bind_eq_some, Prod.mk.injEq] at h
      obtain ⟨acc, ⟨acc1, hfold, v, hv, hacc⟩, hs, ho⟩ := h
      have h1 := tcPeers_zero _ _ _ _ _ _ hfold
      have hv0 : v = 0 := by
        by_cases htc : m.s.config.tc = true
        · rw [if_pos htc] at hv
          exact tcDerate_zero _ _ _ _ hv
        · rw [if_neg htc] at hv
          injection hv with hv
          rw [← hv, h1]
      subst hv0
      refine ⟨by rw [← hs], fun _ => ?_⟩
      rw [← ho, ← hacc, h1]
      simp
    · intro hdef
      obtain ⟨acc1, hfold⟩ := tcPeers_zero_defined m.s.config env.mcconf m.l.rpm_lowest
        env.peers [] hdef
      rw [hfold]
      by_cases htc : m.s.config.tc = true
      · simp [htc, tcDerate_zero_defined m.s.config env.mcconf _ (hdef htc)]
      · simp [htc]

theorem handoffFrame_in_band (env : Env) (s : State)
    (hband : env.mcconf.s_pid_min_erpm < (initLocals env s 0).rpm_lowest
      ∧ (initLocals env s 0).rpm_lowest < s.config.pid_max_erpm) :
    (handoffFrame env s).l.current_mode = false
    ∧ (handoffFrame env s).s.pid_rpm
        = (if s.pid_rpm = 0 then (initLocals env s 0).rpm_lowest else s.pid_rpm)
    ∧ (handoffFrame env s).out = [lockCmd s.config (handoffFrame env s).s.pid_rpm] := by
  simp only [handoffFrame, modeSwitch, countPulse, cruiseHandoff, hband, gt_iff_lt, and_self,
    if_true]
  split_ifs <;> exact ⟨rfl, rfl, rfl⟩

theorem beforeGate_handoff (env : Env) (s : State)
    (hmode : s.config.ctrl_type ∈ cruiseModes)
    (hshape : shapeInput env s = some 0)
    (hcruise : (initLocals env s 0).cruise_control_status = true) :
    beforeGate env s
      = some (Flow.proceed (handoffFrame env s)) := by
  unfold beforeGate
  rw [hshape]
  simp only [Option.some_bind]
  rw [dispatch_handoff env s _ [] hmode rfl hcruise]
  rfl

theorem safeStartHold_modeSwitch (m : Frame) :
    safeStartHold (modeSwitch m).s = safeStartHold m.s := by
  unfold modeSwitch safeStartHold
  split_ifs <;> rfl

theorem duty_and_speed_hold_brake_only (env : Env) (s : State) (m : Frame)
    (hmode : s.config.ctrl_type = PPM_CTRL_TYPE_DUTY
      ∨ s.config.ctrl_type = PPM_CTRL_TYPE_DUTY_NOREV
      ∨ s.config.ctrl_type = PPM_CTRL_TYPE_PID
      ∨ s.config.ctrl_type = PPM_CTRL_TYPE_PID_NOREV)
    (hfresh : staleInput env = false)
    (hgate : beforeGate env s = some (Flow.proceed m))
    (hhold : safeStartHold m.s = true) :
    (ppm_thread_cycle env s).map Prod.snd
      = some [Cmd.mc_interface_set_brake_current env.timeout_get_brake_current] := by
  rw [cycle_of_beforeGate env s m hfresh hgate, afterGate_hold env m hhold]
  simp only [Option.map_some', Option.some.injEq]
  have hout : m.out = [] := by
    unfold beforeGate at hgate
    simp only [Option.bind_eq_some, Option.map_eq_some'] at hgate
    obtain ⟨servo_val, -, r, hr, hm⟩ := hgate
    cases r with
    | skip s2 out => simp at hm
    | proceed m2 =>
      simp only [Flow.proceed.injEq] at hm
      subst hm
      rw [safeStartHold_modeSwitch] at hhold
      have hmo : (modeSwitch m2).out = m2.out := by
        unfold modeSwitch
        split_ifs <;> rfl
      rw [hmo]
      rcases hmode with h | h | h | h
      · simp only [dispatch, h, Option.map_eq_some', Flow.proceed.injEq] at hr
        obtain ⟨a, ha, rfl⟩ := hr
        unfold caseDuty at ha
        simp only at ha
        split_ifs at ha with hc
        · simp only [Option.map_eq_some'] at ha
          obtain ⟨duty, -, rfl⟩ := ha
          simp only at hhold
          rw [hhold] at hc
          simp at hc
        · injection ha with ha
          rw [← ha]
          unfold countPulse
          split_ifs <;> rfl
      · simp only [dispatch, h, Option.map_eq_some', Flow.proceed.injEq] at hr
        obtain ⟨a, ha, rfl⟩ := hr
        unfold caseDuty at ha
        simp only at ha
        split_ifs at ha with hc
        · simp only [Option.map_eq_some'] at ha
          obtain ⟨duty, -, rfl⟩ := ha
          simp only at hhold
          rw [hhold] at hc
          simp at hc
        · injection ha with ha
          rw [← ha]
          unfold countPulse
          split_ifs <;> rfl
      · simp only [dispatch, h, Option.some.injEq, Flow.proceed.injEq] at hr
        subst hr
        unfold casePid at hhold ⊢
        simp only at hhold ⊢
        split_ifs at hhold ⊢ with hc
        · simp only at hhold
          rw [hhold] at hc
          simp at hc
        · unfold countPulse
          split_ifs <;> rfl
      · simp only [dispatch, h, Option.some.injEq, Flow.proceed.injEq] at hr
        subst hr
        unfold casePid at hhold ⊢
        simp only at hhold ⊢
        split_ifs at hhold ⊢ with hc
        · simp only at hhold
          rw [hhold] at hc
          simp at hc
        · unfold countPulse
          split_ifs <;> rfl
  rw [hout]
  rfl

/-! ## Lemmas on the current path -/

theorem softRpmLimit_defined (cfg : ppm_config) (mcconf : mc_configuration)
    (rpm_lowest current : ℚ) :
    ∃ c, softRpmLimit cfg mcconf rpm_lowest current = some c := by
  unfold softRpmLimit utils_map fdiv
  by_cases h1 : rpm_lowest > cfg.rpm_lim_end ∧ current > 0
  · exact ⟨_, if_pos h1⟩
  · rw [if_neg h1]
    by_cases h2 : rpm_lowest > cfg.rpm_lim_start ∧ current > 0
    · rw [if_pos h2]
      have hne : cfg.rpm_lim_end - cfg.rpm_lim_start ≠ 0 := by
        have hle : rpm_lowest ≤ cfg.rpm_lim_end := by
          by_contra hgt
          exact h1 ⟨not_le.mp hgt, h2.2⟩
        have : cfg.rpm_lim_start < cfg.rpm_lim_end := lt_of_lt_of_le h2.1 hle
        exact ne_of_gt (sub_pos.mpr this)
      rw [if_neg hne]
      exact ⟨_, rfl⟩
    · rw [if_neg h2]
      by_cases h3 : rpm_lowest < -cfg.rpm_lim_end ∧ current < 0
      · exact ⟨_, if_pos h3⟩
      · rw [if_neg h3]
        by_cases h4 : rpm_lowest < -cfg.rpm_lim_start ∧ current < 0
        · rw [if_pos h4]
          have hne : cfg.rpm_lim_end - cfg.rpm_lim_start ≠ 0 := by
            have hle : -cfg.rpm_lim_end ≤ rpm_lowest := by
              by_contra hgt
              exact h3 ⟨not_le.mp hgt, h4.2⟩
            have : cfg.rpm_lim_start < cfg.rpm_lim_end := by linarith [h4.1]
            exact ne_of_gt (sub_pos.mpr this)
          rw [if_neg hne]
          exact ⟨_, rfl⟩
        · exact ⟨_, if_neg h4⟩

theorem tcDerate_defined (cfg : ppm_config) (mcconf : mc_configuration) (current diff : ℚ)
    (h : cfg.tc_max_diff ≠ cfg.tc_offset) :
    ∃ v, tcDerate cfg mcconf current diff = some v := by
  have hne : cfg.tc_max_diff - cfg.tc_offset - 0 ≠ 0 := by
    rw [sub_zero]
    exact sub_ne_zero.mpr h
  unfold tcDerate utils_map fdiv
  split_ifs
  · exact ⟨_, rfl⟩
  · exact ⟨_, rfl⟩

theorem tcPeers_defined (cfg : ppm_config) (mcconf : mc_configuration)
    (current rpm_lowest : ℚ) (is_reverse : Bool) (peers : List can_status_msg)
    (acc : ℚ × List Cmd)
    (hdef : cfg.tc = true → cfg.tc_max_diff ≠ cfg.tc_offset) :
    ∃ r, peers.foldlM (tcPeerStep cfg mcconf current rpm_lowest is_reverse) acc = some r := by
  induction peers generalizing acc with
  | nil => exact ⟨_, rfl⟩
  | cons msg rest ih =>
    have hstep : ∃ a, tcPeerStep cfg mcconf current rpm_lowest is_reverse acc msg = some a := by
      unfold tcPeerStep
      by_cases hf : fresh msg = true
      · rw [if_pos hf]
        by_cases htc : cfg.tc = true
        · rw [if_pos htc]
          obtain ⟨v, hv⟩ := tcDerate_defined cfg mcconf current
            ((if is_reverse then -msg.rpm else msg.rpm) - rpm_lowest) (hdef htc)
          rw [hv]
          exact ⟨_, rfl⟩
        · rw [if_neg htc]
          exact ⟨_, rfl⟩
      · rw [if_neg hf]
        exact ⟨_, rfl⟩
    obtain ⟨a, ha⟩ := hstep
    obtain ⟨r, hr⟩ := ih a
    exact ⟨r, by simp only [List.foldlM_cons, ha, Option.bind_eq_bind, Option.some_bind, hr]⟩

theorem currentCommands_state (env : Env) (m m' : Frame) (current : ℚ)
    (h : currentCommands env m current = some m') : m'.s = m.s := by
  unfold currentCommands at h
  simp only [Option.map_eq_some'] at h
  obtain ⟨acc, -, rfl⟩ := h
  rfl

theorem currentCommands_defined (env : Env) (m : Frame) (current : ℚ)
    (hdef : m.s.config.tc = true → m.s.config.tc_max_diff ≠ m.s.config.tc_offset) :
    ∃ m', currentCommands env m current = some m' := by
  unfold currentCommands
  by_cases hm : m.s.config.multi_esc = true
  · simp only [hm, if_true]
    obtain ⟨r, hr⟩ := tcPeers_defined m.s.config env.mcconf
      (if decide (current < 0) = true then -current else current)
      (if decide (current < 0) = true then -m.l.rpm_lowest else m.l.rpm_lowest)
      (decide (current < 0)) env.peers
      (if decide (current < 0) = true then -current else current, m.out) hdef
    rw [hr]
    by_cases htc : m.s.config.tc = true
    · obtain ⟨v, hv⟩ := tcDerate_defined m.s.config env.mcconf
        (if decide (current < 0) = true then -current else current)
        ((if decide (current < 0) = true then -m.l.rpm_local else m.l.rpm_local)
          - (if decide (current < 0) = true then -m.l.rpm_lowest else m.l.rpm_lowest)) (hdef htc)
      simp only [htc, if_true, Option.some_bind, hv, Option.map_some']
      exact ⟨_, rfl⟩
    · simp only [htc, Bool.false_eq_true, if_false, Option.some_bind, Option.map_some']
      exact ⟨_, rfl⟩
  · simp only [hm, Bool.false_eq_true, if_false, Option.map_some']
    exact ⟨_, rfl⟩

theorem currentOutput_pid_rpm (env : Env) (m m' : Frame)
    (hmode : m.l.current_mode = true) (h : currentOutput env m = some m') :
    m'.s.pid_rpm = 0 := by
  unfold currentOutput at h
  rw [if_pos hmode] at h
  simp only at h
  split_ifs at h
  · injection h with h
    rw [← h]
  · simp only [Option.bind_eq_some] at h
    obtain ⟨c, -, hc⟩ := h
    rw [currentCommands_state env _ m' c hc]

theorem currentOutput_defined (env : Env) (m : Frame)
    (hdef : m.s.config.tc = true → m.s.config.tc_max_diff ≠ m.s.config.tc_offset) :
    ∃ m', currentOutput env m = some m' := by
  unfold currentOutput
  by_cases hm : m.l.current_mode = true
  · by_cases hb : m.l.current_mode_brake = true
    · simp only [hm, hb, if_true]
      exact ⟨_, rfl⟩
    · obtain ⟨c, hc⟩ := softRpmLimit_defined m.s.config env.mcconf m.l.rpm_lowest m.l.current
      simp only [hm, hb, if_true, Bool.false_eq_true, if_false, hc, Option.some_bind]
      exact currentCommands_defined env _ c hdef
  · simp only [hm, Bool.false_eq_true, if_false]
    exact ⟨_, rfl⟩

theorem dutyBroadcast_fields (env : Env) (m : Frame) :
    (dutyBroadcast env m).s = m.s ∧ (dutyBroadcast env m).l = m.l := by
  unfold dutyBroadcast
  split_ifs <;> exact ⟨rfl, rfl⟩

theorem afterGate_pass (env : Env) (m : Frame) (hh : safeStartHold m.s = false) :
    afterGate env m
      = (currentOutput env (dutyBroadcast env m)).map (fun m => (m.s, m.out)) := by
  unfold afterGate safeStartGate
  rw [hh]
  rfl

theorem tcPeers_cmds (cfg : ppm_config) (mcconf : mc_configuration) (current rpm_lowest : ℚ)
    (is_reverse : Bool) (P : ℚ → Prop)
    (hP : ∀ diff v, tcDerate cfg mcconf current diff = some v → P v)
    (peers : List can_status_msg) (acc r : ℚ × List Cmd) (h0 : P acc.1)
    (h : peers.foldlM (tcPeerStep cfg mcconf current rpm_lowest is_reverse) acc = some r) :
    P r.1 ∧ ∃ new, r.2 = acc.2 ++ new
      ∧ ∀ cmd ∈ new, ∃ id v,
          cmd = Cmd.comm_can_set_current id (if is_reverse then -v else v) ∧ P v := by
  induction peers generalizing acc with
  | nil =>
    simp only [List.foldlM_nil, Option.pure_def, Option.some.injEq] at h
    rw [← h]
    exact ⟨h0, [], by simp, by simp⟩
  | cons msg rest ih =>
    simp only [List.foldlM_cons, Option.bind_eq_bind, Option.bind_eq_some] at h
    obtain ⟨a, ha, hrest⟩ := h
    have hstep : P a.1 ∧ ∃ new, a.2 = acc.2 ++ new
        ∧ ∀ cmd ∈ new, ∃ id v,
            cmd = Cmd.comm_can_set_current id (if is_reverse then -v else v) ∧ P v := by
      unfold tcPeerStep at ha
      by_cases hf : fresh msg = true
      · rw [if_pos hf] at ha
        simp only [Option.map_eq_some'] at ha
        obtain ⟨v, hv, rfl⟩ := ha
        have hPv : P v := by
          by_cases htc : cfg.tc = true
          · rw [if_pos htc] at hv
            exact hP _ v hv
          · rw [if_neg htc] at hv
            injection hv with hv
            rw [← hv]
            exact h0
        refine ⟨hPv, [Cmd.comm_can_set_current msg.id (if is_reverse then -v else v)], rfl, ?_⟩
        intro cmd hcmd
        rw [List.mem_singleton] at hcmd
        exact ⟨msg.id, v, hcmd, hPv⟩
      · rw [if_neg hf] at ha
        injection ha with ha
        rw [← ha]
        exact ⟨h0, [], by simp, by simp⟩
    obtain ⟨hPa, new1, hnew1, hall1⟩ := hstep
    obtain ⟨hPr, new2, hnew2, hall2⟩ := ih a hPa hrest
    refine ⟨hPr, new1 ++ new2, by rw [hnew2, hnew1, List.append_assoc], ?_⟩
    intro cmd hcmd
    rcases List.mem_append.mp hcmd with hc | hc
    · exact hall1 cmd hc
    · exact hall2 cmd hc

theorem currentCommands_cmds (env : Env) (m m' : Frame) (current : ℚ) (P : ℚ → Prop)
    (hP : ∀ diff v, tcDerate m.s.config env.mcconf
        (if decide (current < 0) = true then -current else current) diff = some v → P v)
    (h0 : P (if decide (current < 0) = true then -current else current))
    (h : currentCommands env m current = some m') :
    ∃ new, m'.out = m.out ++ new
      ∧ ∀ cmd ∈ new, ∃ v, P v
          ∧ (cmd = Cmd.mc_interface_set_current (if decide (current < 0) = true then -v else v)
              ∨ ∃ id, cmd = Cmd.comm_can_set_current id
                  (if decide (current < 0) = true then -v else v)) := by
  unfold currentCommands at h
  simp only [Option.map_eq_some'] at h
  obtain ⟨acc, hacc, rfl⟩ := h
  by_cases hm : m.s.config.multi_esc = true
  · simp only [hm, if_true, Option.bind_eq_some, Option.map_eq_some'] at hacc
    obtain ⟨r, hr, v, hv, rfl⟩ := hacc
    obtain ⟨hPr, new, hnew, hall⟩ := tcPeers_cmds m.s.config env.mcconf _ _ _ P hP env.peers
      _ r h0 hr
    have hPv : P v := by
      by_cases htc : m.s.config.tc = true
      · rw [if_pos htc] at hv
        exact hP _ v hv
      · rw [if_neg htc] at hv
        injection hv with hv
        rw [← hv]
        exact hPr
    refine ⟨new ++ [Cmd.mc_interface_set_current (if decide (current < 0) = true then -v else v)],
      ?_, ?_⟩
    · simp only at hnew ⊢
      rw [hnew, List.append_assoc]
    · intro cmd hcmd
      rcases List.mem_append.mp hcmd with hc | hc
      · obtain ⟨id, w, hw, hPw⟩ := hall cmd hc
        exact ⟨w, hPw, Or.inr ⟨id, hw⟩⟩
      · rw [List.mem_singleton] at hc
        exact ⟨v, hPv, Or.inl hc⟩
  · simp only [hm, Bool.false_eq_true, if_false, Option.some.injEq] at hacc
    rw [← hacc]
    refine ⟨[Cmd.mc_interface_set_current
      (if decide (current < 0) = true then
        -(if decide (current < 0) = true then -current else current)
       else (if decide (current < 0) = true then -current else current))], rfl, ?_⟩
    intro cmd hcmd
    rw [List.mem_singleton] at hcmd
    exact ⟨_, h0, Or.inl hcmd⟩

theorem tcDerate_range (cfg : ppm_config) (mcconf : mc_configuration) (a diff v : ℚ)
    (ha : 0 ≤ a) (hoff : cfg.tc_offset < cfg.tc_max_diff) (hmin : 0 ≤ mcconf.cc_min_current)
    (h : tcDerate cfg mcconf a diff = some v) : 0 ≤ v ∧ v ≤ a := by
  have hpos : 0 < cfg.tc_max_diff - cfg.tc_offset := sub_pos.mpr hoff
  have hne : cfg.tc_max_diff - cfg.tc_offset - 0 ≠ 0 := by
    rw [sub_zero]; exact ne_of_gt hpos
  unfold tcDerate utils_map fdiv at h
  by_cases hd : diff > cfg.tc_offset
  · rw [if_pos hd, if_neg hne] at h
    simp only [Option.map_some', Option.some.injEq] at h
    have hval : (diff - cfg.tc_offset - 0) * (0 - a) / (cfg.tc_max_diff - cfg.tc_offset - 0) + a
        ≤ a := by
      have : (diff - cfg.tc_offset - 0) * (0 - a) / (cfg.tc_max_diff - cfg.tc_offset - 0) ≤ 0 := by
        apply div_nonpos_of_nonpos_of_nonneg
        · apply mul_nonpos_of_nonneg_of_nonpos
          · linarith
          · linarith
        · linarith
      linarith
    split_ifs at h with hc
    · rw [← h]
      exact ⟨le_refl _, ha⟩
    · rw [← h]
      exact ⟨le_trans hmin (not_lt.mp hc), hval⟩
  · rw [if_neg hd] at h
    injection h with h
    rw [← h]
    exact ⟨ha, le_refl _⟩

theorem countPulse_l (c : Bool) (m : Frame) : (countPulse c m).l = m.l := by
  unfold countPulse
  split_ifs <;> rfl

theorem countPulse_out (c : Bool) (m : Frame) : (countPulse c m).out = m.out := by
  unfold countPulse
  split_ifs <;> rfl

theorem cruiseHandoff_pure (env : Env) (lock : ℚ → Cmd) (m : Frame)
    (h : (cruiseHandoff env lock m).l.current_mode = true) :
    (cruiseHandoff env lock m).out = m.out
    ∧ (cruiseHandoff env lock m).l.send_duty = m.l.send_duty := by
  unfold cruiseHandoff at h ⊢
  split_ifs at h ⊢
  exact ⟨rfl, rfl⟩

theorem caseCurrent_pure (env : Env) (m : Frame)
    (h : (caseCurrent env m).l.current_mode = true) :
    (caseCurrent env m).out = m.out ∧ (caseCurrent env m).l.send_duty = m.l.send_duty := by
  unfold caseCurrent at h ⊢
  simp only [countPulse_l, countPulse_out] at h ⊢
  split_ifs at h ⊢
  · exact cruiseHandoff_pure env _ _ h
  · exact ⟨rfl, rfl⟩
  · exact ⟨rfl, rfl⟩

theorem caseCurrentNorevBrake_pure (env : Env) (m : Frame)
    (h : (caseCurrentNorevBrake env m).l.current_mode = true) :
    (caseCurrentNorevBrake env m).out = m.out
    ∧ (caseCurrentNorevBrake env m).l.send_duty = m.l.send_duty := by
  unfold caseCurrentNorevBrake at h ⊢
  simp only [countPulse_l, countPulse_out] at h ⊢
  split_ifs at h ⊢
  · exact cruiseHandoff_pure env _ _ h
  · exact ⟨rfl, rfl⟩
  · exact ⟨rfl, rfl⟩

theorem caseWattNorevBrake_pure (env : Env) (m m' : Frame)
    (hm : caseWattNorevBrake env m = some m') (h : m'.l.current_mode = true) :
    m'.out = m.out ∧ m'.l.send_duty = m.l.send_duty := by
  unfold caseWattNorevBrake at hm
  simp only [Option.map_eq_some'] at hm
  obtain ⟨a, ha, rfl⟩ := hm
  simp only [countPulse_l, countPulse_out] at h ⊢
  split_ifs at ha <;>
    first
    | (injection ha with ha
       subst ha
       first
         | exact cruiseHandoff_pure env _ _ h
         | exact ⟨rfl, rfl⟩)
    | (simp only [Option.map_eq_some'] at ha
       obtain ⟨c, -, rfl⟩ := ha
       exact ⟨rfl, rfl⟩)

theorem casePidNoacceleration_pure (env : Env) (m : Frame)
    (h : (casePidNoacceleration env m).l.current_mode = true) :
    (casePidNoacceleration env m).out = m.out
    ∧ (casePidNoacceleration env m).l.send_duty = m.l.send_duty := by
  unfold casePidNoacceleration at h ⊢
  simp only [countPulse_l, countPulse_out] at h ⊢
  split_ifs at h ⊢ <;> exact ⟨rfl, rfl⟩

theorem caseDuty_mode (env : Env) (m m' : Frame) (hm : caseDuty env m = some m') :
    m'.l.current_mode = m.l.current_mode := by
  unfold caseDuty at hm
  simp only at hm
  split_ifs at hm
  · simp only [Option.map_eq_some'] at hm
    obtain ⟨d, -, rfl⟩ := hm
    simp only [countPulse_l]
  · injection hm with hm
    rw [← hm, countPulse_l]

theorem casePid_mode (m : Frame) : (casePid m).l.current_mode = m.l.current_mode := by
  unfold casePid
  simp only
  split_ifs
  · simp only [countPulse_l]
  · rw [countPulse_l]

theorem modeSwitch_l (m : Frame) : (modeSwitch m).l = m.l ∧ (modeSwitch m).out = m.out := by
  unfold modeSwitch
  split_ifs <;> exact ⟨rfl, rfl⟩

theorem dispatch_pure_current (env : Env) (m m' : Frame)
    (hd : dispatch env m = some (Flow.proceed m'))
    (h0 : m.l.current_mode = false) (h : m'.l.current_mode = true) :
    m'.out = m.out ∧ m'.l.send_duty = m.l.send_duty := by
  cases hct : m.s.config.ctrl_type <;> simp only [dispatch, hct] at hd
  case PPM_CTRL_TYPE_NONE => simp at hd
  case PPM_CTRL_TYPE_CURRENT =>
    injection hd with hd; injection hd with hd; subst hd; exact caseCurrent_pure env m h
  case PPM_CTRL_TYPE_CURRENT_NOREV =>
    injection hd with hd; injection hd with hd; subst hd; exact caseCurrent_pure env m h
  case PPM_CTRL_TYPE_CURRENT_NOREV_BRAKE =>
    injection hd with hd; injection hd with hd; subst hd
    exact caseCurrentNorevBrake_pure env m h
  case PPM_CTRL_TYPE_WATT_NOREV_BRAKE =>
    simp only [Option.map_eq_some', Flow.proceed.injEq] at hd
    obtain ⟨a, ha, rfl⟩ := hd
    exact caseWattNorevBrake_pure env m a ha h
  case PPM_CTRL_TYPE_PID_NOACCELERATION =>
    injection hd with hd; injection hd with hd; subst hd
    exact casePidNoacceleration_pure env m h
  case PPM_CTRL_TYPE_CRUISE_CONTROL_SECONDARY_CHANNEL => simp [caseCruiseSecondary] at hd
  case PPM_CTRL_TYPE_DUTY =>
    simp only [Option.map_eq_some', Flow.proceed.injEq] at hd
    obtain ⟨a, ha, rfl⟩ := hd
    rw [caseDuty_mode env m a ha, h0] at h
    cases h
  case PPM_CTRL_TYPE_DUTY_NOREV =>
    simp only [Option.map_eq_some', Flow.proceed.injEq] at hd
    obtain ⟨a, ha, rfl⟩ := hd
    rw [caseDuty_mode env m a ha, h0] at h
    cases h
  case PPM_CTRL_TYPE_PID =>
    injection hd with hd; injection hd with hd; subst hd
    rw [casePid_mode, h0] at h
    cases h
  case PPM_CTRL_TYPE_PID_NOREV =>
    injection hd with hd; injection hd with hd; subst hd
    rw [casePid_mode, h0] at h
    cases h

theorem beforeGate_pure_current (env : Env) (s : State) (m : Frame)
    (hgate : beforeGate env s = some (Flow.proceed m)) (h : m.l.current_mode = true) :
    m.out = [] ∧ m.l.send_duty = false := by
  unfold beforeGate at hgate
  simp only [Option.bind_eq_some, Option.map_eq_some'] at hgate
  obtain ⟨servo_val, -, r, hr, hm⟩ := hgate
  cases r with
  | skip s2 out => simp at hm
  | proceed m2 =>
    simp only [Flow.proceed.injEq] at hm
    subst hm
    obtain ⟨hl, ho⟩ := modeSwitch_l m2
    rw [hl] at h ⊢
    rw [ho]
    exact dispatch_pure_current env _ m2 hr rfl h

theorem lowerPid_step (p rf : ℚ) (hp : p ≠ 0) (hpos : 0 < lowerPid p rf) :
    (lowerPid p rf = p ∨ lowerPid p rf = p - 10) ∧ 1000 < rf := by
  by_cases hrf : rf > 1000
  · refine ⟨?_, hrf⟩
    unfold lowerPid
    simp only [hp, if_false, hrf, if_true]
    split_ifs
    · exact Or.inr rfl
    · exact Or.inr rfl
    · exact Or.inl rfl
  · exfalso
    unfold lowerPid at hpos
    simp only [hp, hrf, if_false] at hpos
    exact lt_irrefl 0 hpos

theorem afterGate_no_new_lock (env : Env) (m : Frame) (s' : State) (out : List Cmd)
    (h : afterGate env m = some (s', out)) :
    ∀ cmd ∈ out, isLockedSpeed cmd = true → cmd ∈ m.out := by
  intro cmd hcmd hlock
  by_cases hh : safeStartHold m.s = true
  · rw [afterGate_hold env m hh] at h
    injection h with h
    injection h with _ hout
    rw [← hout] at hcmd
    rcases List.mem_append.mp hcmd with hc | hc
    · exact hc
    · rw [List.mem_singleton] at hc
      rw [hc] at hlock
      simp [isLockedSpeed] at hlock
  · rw [afterGate_pass env m (by simpa using hh)] at h
    simp only [Option.map_eq_some', Prod.mk.injEq] at h
    obtain ⟨m', hm', -, hout⟩ := h
    rw [← hout] at hcmd
    have hduty : ∀ c ∈ (dutyBroadcast env m).out, isLockedSpeed c = true → c ∈ m.out := by
      intro c hc hl
      unfold dutyBroadcast at hc
      split_ifs at hc
      · rcases List.mem_append.mp hc with h1 | h1
        · exact h1
        · unfold toFreshPeers at h1
          simp only [List.mem_map] at h1
          obtain ⟨msg, -, rfl⟩ := h1
          simp [isLockedSpeed] at hl
      · exact hc
    apply hduty cmd _ hlock
    unfold currentOutput at hm'
    by_cases hcm : (dutyBroadcast env m).l.current_mode = true
    · by_cases hbr : (dutyBroadcast env m).l.current_mode_brake = true
      · simp only [hcm, hbr, if_true, Option.some.injEq] at hm'
        rw [← hm'] at hcmd
        simp only [List.append_assoc] at hcmd
        rcases List.mem_append.mp hcmd with h1 | h1
        · exact h1
        · exfalso
          rcases List.mem_append.mp h1 with h2 | h2
          · rw [List.mem_singleton] at h2
            rw [h2] at hlock
            simp [isLockedSpeed] at hlock
          · unfold toFreshPeers at h2
            simp only [List.mem_map] at h2
            obtain ⟨msg, -, rfl⟩ := h2
            simp [isLockedSpeed] at hlock
      · simp only [hcm, hbr, if_true, Bool.false_eq_true, if_false, Option.bind_eq_some] at hm'
        obtain ⟨c, -, hc⟩ := hm'
        obtain ⟨new, hnew, hall⟩ := currentCommands_cmds env _ m' c (fun _ => True)
          (fun _ _ _ => trivial) trivial hc
        rw [hnew] at hcmd
        rcases List.mem_append.mp hcmd with h1 | h1
        · exact h1
        · exfalso
          obtain ⟨v, -, hv⟩ := hall cmd h1
          rcases hv with hv | ⟨id, hv⟩
          · rw [hv] at hlock
            simp [isLockedSpeed] at hlock
          · rw [hv] at hlock
            simp [isLockedSpeed] at hlock
    · simp only [hcm, Bool.false_eq_true, if_false, Option.some.injEq] at hm'
      rw [← hm'] at hcmd
      exact hcmd

theorem pidNoaccel_frame (env : Env) (s : State) (v : ℚ) (hv : 0 < v) :
    (casePidNoacceleration env { s := s, l := initLocals env s v, out := [] }).s.pid_rpm
        = lowerPid s.pid_rpm (rpmFilter s (initLocals env s v).rpm_lowest).2
    ∧ ((0 < lowerPid s.pid_rpm (rpmFilter s (initLocals env s v).rpm_lowest).2
          ∧ lowerPid s.pid_rpm (rpmFilter s (initLocals env s v).rpm_lowest).2
              < s.config.pid_max_erpm) →
        (casePidNoacceleration env { s := s, l := initLocals env s v, out := [] }).l.current_mode
            = false
        ∧ (casePidNoacceleration env { s := s, l := initLocals env s v, out := [] }).out
            = [Cmd.mc_interface_set_pid_speed_and_watt
                (lowerPid s.pid_rpm (rpmFilter s (initLocals env s v).rpm_lowest).2)
                s.config.max_watt]
              ++ (if s.config.multi_esc then
                    toFreshPeers env (fun id => Cmd.comm_can_set_rpm_and_watt id
                      (lowerPid s.pid_rpm (rpmFilter s (initLocals env s v).rpm_lowest).2)
                      s.config.max_watt)
                  else []))
    ∧ (¬ (0 < lowerPid s.pid_rpm (rpmFilter s (initLocals env s v).rpm_lowest).2
          ∧ lowerPid s.pid_rpm (rpmFilter s (initLocals env s v).rpm_lowest).2
              < s.config.pid_max_erpm) →
        (casePidNoacceleration env { s := s, l := initLocals env s v, out := [] }).out = []) := by
  have hsv : (initLocals env s v).servo_val = v := rfl
  have hge : v ≥ 0 := le_of_lt hv
  unfold casePidNoacceleration
  simp only [countPulse_l, countPulse_out, hsv, hge, hv, if_true, gt_iff_lt]
  by_cases hi : 0 < lowerPid s.pid_rpm (rpmFilter s (initLocals env s v).rpm_lowest).2
      ∧ lowerPid s.pid_rpm (rpmFilter s (initLocals env s v).rpm_lowest).2
          < s.config.pid_max_erpm
  · simp only [hi, and_self, if_true, not_true_eq_false, false_implies, and_true, true_implies]
    refine ⟨?_, trivial, ?_⟩
    · unfold countPulse
      split_ifs <;> rfl
    · rw [List.nil_append]
  · simp only [hi, if_false, not_false_eq_true, false_implies, true_implies, true_and]
    refine ⟨?_, trivial⟩
    unfold countPulse
    split_ifs <;> rfl

theorem beforeGate_pidNoaccel (env : Env) (s : State) (v : ℚ)
    (hmode : s.config.ctrl_type = PPM_CTRL_TYPE_PID_NOACCELERATION)
    (hshape : shapeInput env s = some v) :
    beforeGate env s = some (Flow.proceed (modeSwitch
      (casePidNoacceleration env { s := s, l := initLocals env s v, out := [] }))) := by
  unfold beforeGate
  rw [hshape]
  simp only [Option.some_bind, dispatch, hmode, Option.map_some']

/-! ## Lemmas on the Neville loop and Lagrange interpolation -/

theorem interpolate_icc_rec (node val : ℕ → ℚ) (a b : ℕ) (t : ℚ) (hab : a < b)
    (hinj : Set.InjOn node (Finset.Icc a b : Finset ℕ)) :
    Polynomial.eval t (Lagrange.interpolate (Finset.Icc a b) node val)
      = ((t - node a) * Polynomial.eval t (Lagrange.interpolate (Finset.Icc (a + 1) b) node val)
          - (t - node b) * Polynomial.eval t (Lagrange.interpolate (Finset.Icc a (b - 1)) node val))
        / (node b - node a) := by
  have ha : a ∈ Finset.Icc a b := Finset.mem_Icc.mpr ⟨le_refl a, le_of_lt hab⟩
  have hb : b ∈ Finset.Icc a b := Finset.mem_Icc.mpr ⟨le_of_lt hab, le_refl b⟩
  have hne : node b - node a ≠ 0 := by
    intro h
    have : node b = node a := sub_eq_zero.mp h
    exact absurd (hinj (Finset.mem_coe.mpr hb) (Finset.mem_coe.mpr ha) this) (ne_of_gt hab)
  have hne2 : node a - node b ≠ 0 := fun h => hne (by linarith)
  rw [Lagrange.interpolate_eq_add_interpolate_erase val hinj hb ha (ne_of_gt hab),
    Finset.Icc_erase_left, Finset.Icc_erase_right, ← Nat.Icc_succ_left,
    ← Nat.Icc_pred_right a (lt_of_le_of_lt (Nat.zero_le a) hab)]
  simp only [Lagrange.basisDivisor, Polynomial.eval_add, Polynomial.eval_mul, Polynomial.eval_C,
    Polynomial.eval_sub, Polynomial.eval_X, Nat.succ_eq_add_one]
  field_simp
  ring

theorem interpolate_icc_self (node val : ℕ → ℚ) (a : ℕ) (t : ℚ) :
    Polynomial.eval t (Lagrange.interpolate (Finset.Icc a a) node val) = val a := by
  rw [Finset.Icc_self, Lagrange.interpolate_singleton, Polynomial.eval_C]

theorem nevilleAssign_interpolate (xs : List ℚ) (val : ℕ → ℚ) (t : ℚ) (j i : ℕ) (f : List ℚ)
    (hj : 1 ≤ j) (hji : j ≤ i)
    (hinj : Set.InjOn (idx xs) (Finset.Icc (i - j) i : Finset ℕ))
    (h1 : idx f i
      = Polynomial.eval t (Lagrange.interpolate (Finset.Icc (i - j + 1) i) (idx xs) val))
    (h2 : idx f (i - 1)
      = Polynomial.eval t (Lagrange.interpolate (Finset.Icc (i - j) (i - 1)) (idx xs) val)) :
    nevilleAssign xs t j f i
      = some (f.set i
          (Polynomial.eval t (Lagrange.interpolate (Finset.Icc (i - j) i) (idx xs) val))) := by
  have hlt : i - j < i := Nat.sub_lt (lt_of_lt_of_le hj hji) hj
  have ha : i - j ∈ Finset.Icc (i - j) i := Finset.mem_Icc.mpr ⟨le_refl _, le_of_lt hlt⟩
  have hb : i ∈ Finset.Icc (i - j) i := Finset.mem_Icc.mpr ⟨le_of_lt hlt, le_refl _⟩
  have hne : idx xs i - idx xs (i - j) ≠ 0 := by
    intro h
    have : idx xs i = idx xs (i - j) := sub_eq_zero.mp h
    exact absurd (hinj (Finset.mem_coe.mpr hb) (Finset.mem_coe.mpr ha) this) (ne_of_gt hlt)
  unfold nevilleAssign fdiv
  rw [if_neg hne, h1, h2, ← interpolate_icc_rec (idx xs) val (i - j) i t hlt hinj]
  rfl

theorem nevilleStages_of_step (xs : List ℚ) (t : ℚ) (P : ℕ → ℕ → ℚ)
    (step : ∀ (j i : ℕ) (f : List ℚ), 1 ≤ j → j ≤ i → i ≤ 4 →
      idx f i = P (i - j + 1) i → idx f (i - 1) = P (i - j) (i - 1) →
      nevilleAssign xs t j f i = some (f.set i (P (i - j) i))) :
    [1, 2, 3, 4].foldlM (nevilleInner xs t) [P 0 0, P 1 1, P 2 2, P 3 3, P 4 4]
      = some [P 0 0, P 0 1, P 0 2, P 0 3, P 0 4] := by
  have s14 := step 1 4 [P 0 0, P 1 1, P 2 2, P 3 3, P 4 4] (by decide) (by decide) (by decide)
    rfl rfl
  have s13 := step 1 3 [P 0 0, P 1 1, P 2 2, P 3 3, P 3 4] (by decide) (by decide) (by decide)
    rfl rfl
  have s12 := step 1 2 [P 0 0, P 1 1, P 2 2, P 2 3, P 3 4] (by decide) (by decide) (by decide)
    rfl rfl
  have s11 := step 1 1 [P 0 0, P 1 1, P 1 2, P 2 3, P 3 4] (by decide) (by decide) (by decide)
    rfl rfl
  have s24 := step 2 4 [P 0 0, P 0 1, P 1 2, P 2 3, P 3 4] (by decide) (by decide) (by decide)
    rfl rfl
  have s23 := step 2 3 [P 0 0, P 0 1, P 1 2, P 2 3, P 2 4] (by decide) (by decide) (by decide)
    rfl rfl
  have s22 := step 2 2 [P 0 0, P 0 1, P 1 2, P 1 3, P 2 4] (by decide) (by decide) (by decide)
    rfl rfl
  have s34 := step 3 4 [P 0 0, P 0 1, P 0 2, P 1 3, P 2 4] (by decide) (by decide) (by decide)
    rfl rfl
  have s33 := step 3 3 [P 0 0, P 0 1, P 0 2, P 1 3, P 1 4] (by decide) (by decide) (by decide)
    rfl rfl
  have s44 := step 4 4 [P 0 0, P 0 1, P 0 2, P 0 3, P 1 4] (by decide) (by decide) (by decide)
    rfl rfl
  simp only [List.set_cons_succ, List.set_cons_zero, Nat.reduceSub] at s14 s13 s12 s11 s24
  simp only [List.set_cons_succ, List.set_cons_zero, Nat.reduceSub] at s23 s22 s34 s33 s44
  simp only [List.foldlM, nevilleInner, List.filter, Nat.one_le_ofNat, Nat.reduceLeDiff,
    le_refl, decide_True, decide_False, Option.bind_eq_bind, Option.pure_def, s14, s13, s12, s11,
    s24, s23, s22, s34, s33, s44, Option.some_bind]

theorem nevilleLoop_interpolate (xs : List ℚ) (y0 y1 y2 y3 y4 t : ℚ)
    (hinj : Set.InjOn (idx xs) (Finset.Icc 0 4 : Finset ℕ)) :
    ∃ f, nevilleLoop xs [y0, y1, y2, y3, y4] t = some f
      ∧ idx f 4 = Polynomial.eval t
          (Lagrange.interpolate (Finset.Icc 0 4) (idx xs) (idx [y0, y1, y2, y3, y4])) := by
  have hsub : ∀ a b : ℕ, b ≤ 4 → Set.InjOn (idx xs) (Finset.Icc a b : Finset ℕ) := by
    intro a b hb
    apply hinj.mono
    intro k hk
    rw [Finset.mem_coe, Finset.mem_Icc] at hk ⊢
    exact ⟨Nat.zero_le k, le_trans hk.2 hb⟩
  have hstages := nevilleStages_of_step xs t
    (fun a b => Polynomial.eval t
      (Lagrange.interpolate (Finset.Icc a b) (idx xs) (idx [y0, y1, y2, y3, y4])))
    (fun j i f hj hji hi h1 h2 =>
      nevilleAssign_interpolate xs (idx [y0, y1, y2, y3, y4]) t j i f hj hji
        (hsub (i - j) i hi) h1 h2)
  simp only [interpolate_icc_self] at hstages
  refine ⟨_, hstages, rfl⟩

theorem idx_injOn_of_pairwise (x0 x1 x2 x3 x4 : ℚ)
    (h : (([x0, x1, x2, x3, x4] : List ℚ).Pairwise (fun a b => a ≠ b))) :
    Set.InjOn (idx [x0, x1, x2, x3, x4]) (Finset.Icc 0 4 : Finset ℕ) := by
  simp only [List.pairwise_cons, List.mem_cons, List.mem_singleton, forall_eq_or_imp, forall_eq]
    at h
  obtain ⟨⟨h01, h02, h03, h04, -⟩, ⟨h12, h13, h14, -⟩, ⟨h23, h24, -⟩, ⟨h34, -⟩, -⟩ := h
  intro k hk l hl hkl
  rw [Finset.mem_coe, Finset.mem_Icc] at hk hl
  obtain ⟨-, hk4⟩ := hk
  obtain ⟨-, hl4⟩ := hl
  interval_cases k <;> interval_cases l <;>
    simp only [idx, List.getD_cons_succ, List.getD_cons_zero] at hkl <;>
    first
    | rfl
    | exact absurd hkl h01 | exact absurd hkl h02 | exact absurd hkl h03 | exact absurd hkl h04
    | exact absurd hkl h12 | exact absurd hkl h13 | exact absurd hkl h14
    | exact absurd hkl h23 | exact absurd hkl h24 | exact absurd hkl h34
    | exact absurd hkl.symm h01 | exact absurd hkl.symm h02 | exact absurd hkl.symm h03
    | exact absurd hkl.symm h04 | exact absurd hkl.symm h12 | exact absurd hkl.symm h13
    | exact absurd hkl.symm h14 | exact absurd hkl.symm h23 | exact absurd hkl.symm h24
    | exact absurd hkl.symm h34

theorem directSteps_defined_of_pairwise (x0 x1 x2 x3 x4 y0 y1 y2 y3 y4 t : ℚ)
    (h : (([x0, x1, x2, x3, x4] : List ℚ).Pairwise (fun a b => a ≠ b))) (hx1 : x1 ≠ 0) :
    ∃ d, directSteps [x0, x1, x2, x3, x4] [y0, y1, y2, y3, y4] t = some d := by
  simp only [List.pairwise_cons, List.mem_cons, List.mem_singleton, forall_eq_or_imp, forall_eq]
    at h
  obtain ⟨-, ⟨h12, -, -, -⟩, ⟨h23, -, -⟩, ⟨h34, -⟩, -⟩ := h
  have e2 : x2 - x1 ≠ 0 := sub_ne_zero.mpr (Ne.symm h12)
  have e3 : x3 - x2 ≠ 0 := sub_ne_zero.mpr (Ne.symm h23)
  have e4 : x4 - x3 ≠ 0 := sub_ne_zero.mpr (Ne.symm h34)
  simp only [directSteps, idx, fdiv, List.getD_cons_succ, List.getD_cons_zero, hx1, e2, e3, e4,
    if_false, Option.map_some']
  split_ifs <;> exact ⟨_, rfl⟩

/-! ## Lemmas on single modes -/

theorem cruise_channel_cycle (env : Env) (s : State) (v : ℚ)
    (hfresh : staleInput env = false)
    (hmode : s.config.ctrl_type = PPM_CTRL_TYPE_CRUISE_CONTROL_SECONDARY_CHANNEL)
    (hshape : shapeInput env s = some v) :
    ppm_thread_cycle env s
      = some ({ s with cruise_control_status :=
                  if v ≥ 3 / 10 ∨ v ≤ -(3 / 10) then CRUISE_CONTROL_ACTIVE
                  else CRUISE_CONTROL_INACTIVE },
              [Cmd.mc_interface_set_cruise_control_status
                 (if v ≥ 3 / 10 ∨ v ≤ -(3 / 10) then CRUISE_CONTROL_ACTIVE
                  else CRUISE_CONTROL_INACTIVE),
               Cmd.timeout_reset]) := by
  unfold ppm_thread_cycle beforeGate
  rw [hfresh, hshape]
  simp [dispatch, hmode, caseCruiseSecondary, initLocals]

theorem handoffFrame_in_band_broadcast (env : Env) (s : State)
    (hband : env.mcconf.s_pid_min_erpm < (initLocals env s 0).rpm_lowest
      ∧ (initLocals env s 0).rpm_lowest < s.config.pid_max_erpm) :
    (handoffFrame env s).l.send_duty = true ∧ (handoffFrame env s).s.config = s.config := by
  simp only [handoffFrame, modeSwitch, countPulse, cruiseHandoff, hband, gt_iff_lt, and_self,
    if_true]
  split_ifs <;> exact ⟨rfl, rfl⟩

theorem wattCurrent_eq_min (env : Env) (cfg : ppm_config) (servo_val : ℚ)
    (hv : cfg.max_watt_enabled = true → env.mc_interface_get_motor_voltage ≠ 0) :
    wattCurrent env cfg servo_val
      = some (min env.mcconf.l_current_max
          (if cfg.max_watt_ramp_by_current then
              min (servo_val * env.mcconf.l_current_max * cfg.max_watt_ramp_factor)
                (if cfg.max_watt_enabled then
                    servo_val * cfg.max_watt / env.mc_interface_get_motor_voltage
                  else servo_val * env.mc_interface_get_max_current_at_current_motor_voltage)
            else
              (if cfg.max_watt_enabled then
                  servo_val * cfg.max_watt / env.mc_interface_get_motor_voltage
                else servo_val * env.mc_interface_get_max_current_at_current_motor_voltage))) := by
  have hmin : ∀ a b : ℚ, (if a > b then b else a) = min b a := by
    intro a b
    by_cases h : a > b
    · rw [if_pos h, min_eq_left (le_of_lt h)]
    · rw [if_neg h, min_eq_right (not_lt.mp h)]
  have hmin2 : ∀ a b : ℚ, (if a < b then a else b) = min a b := by
    intro a b
    by_cases h : a < b
    · rw [if_pos h, min_eq_left (le_of_lt h)]
    · rw [if_neg h, min_eq_right (not_lt.mp h)]
  unfold wattCurrent fdiv
  by_cases hw : cfg.max_watt_enabled = true
  · simp only [hw, if_true, if_neg (hv hw), Option.map_some', hmin, hmin2, mul_div_assoc]
  · simp only [hw, Bool.false_eq_true, if_false, Option.map_some', hmin, hmin2]

theorem softRpmLimit_odd_of_no_min_current (cfg : ppm_config) (mcconf : mc_configuration)
    (rpm_lowest current : ℚ) (hstart : 0 ≤ cfg.rpm_lim_start)
    (hband : cfg.rpm_lim_start < cfg.rpm_lim_end) (hcc : mcconf.cc_min_current = 0) :
    softRpmLimit cfg mcconf (-rpm_lowest) (-current)
      = (softRpmLimit cfg mcconf rpm_lowest current).map (fun c => -c) := by
  have hne : cfg.rpm_lim_end - cfg.rpm_lim_start ≠ 0 := ne_of_gt (sub_pos.mpr hband)
  unfold softRpmLimit utils_map fdiv
  simp only [hcc, hne, if_false, Option.map_some', neg_neg, gt_iff_lt, neg_lt_neg_iff,
    Left.neg_pos_iff, Left.neg_neg_iff, lt_neg]
  by_cases hc : 0 < current
  · have hn : ¬ current < 0 := not_lt.mpr (le_of_lt hc)
    simp only [hc, hn, and_true, and_false, if_false]
    by_cases h1 : cfg.rpm_lim_end < rpm_lowest
    · have h2 : ¬ rpm_lowest < -cfg.rpm_lim_end := by linarith
      have h3 : ¬ rpm_lowest < -cfg.rpm_lim_start := by linarith
      simp [h1, h2, h3]
    · by_cases h4 : cfg.rpm_lim_start < rpm_lowest
      · simp [h1, h4]
      · simp [h1, h4]
  · by_cases hc2 : current < 0
    · simp only [hc, hc2, and_true, and_false, if_false]
      by_cases h1 : cfg.rpm_lim_end < -rpm_lowest
      · simp [h1]
      · by_cases h4 : cfg.rpm_lim_start < -rpm_lowest
        · simp only [h1, h4, if_true, if_false, Option.map_some', Option.some.injEq]
          ring
        · simp [h1, h4]
    · simp [hc, hc2]

theorem currentCommands_local (env : Env) (m m' : Frame) (current : ℚ)
    (h : currentCommands env m current = some m') :
    ∃ v, Cmd.mc_interface_set_current v ∈ m'.out := by
  unfold currentCommands at h
  simp only [Option.map_eq_some'] at h
  obtain ⟨acc, -, rfl⟩ := h
  exact ⟨_, List.mem_append_right _ (List.mem_singleton.mpr rfl)⟩

/-! ## Lemmas on the state after the gate and on reachable states -/

theorem afterGate_state (env : Env) (m : Frame) (s' : State) (out : List Cmd)
    (h : afterGate env m = some (s', out)) : s' = afterGateState env m := by
  unfold afterGate at h
  unfold afterGateState
  cases hg : safeStartGate env m with
  | skip s2 out2 =>
    rw [hg] at h
    simp only [Option.some.injEq, Prod.mk.injEq] at h
    exact h.1.symm
  | proceed m2 =>
    rw [hg] at h
    simp only [Option.map_eq_some', Prod.mk.injEq] at h
    obtain ⟨m3, hm3, hs, -⟩ := h
    obtain ⟨hds, hdl⟩ := dutyBroadcast_fields env m2
    rw [← hs]
    simp only
    unfold currentOutput at hm3
    rw [hdl] at hm3
    by_cases hc : m2.l.current_mode = true
    · rw [if_pos hc] at hm3 ⊢
      simp only at hm3
      split_ifs at hm3
      · injection hm3 with hm3
        rw [← hm3, hds]
      · simp only [Option.bind_eq_some] at hm3
        obtain ⟨c, -, hcc⟩ := hm3
        rw [currentCommands_state env _ m3 c hcc, hds]
    · rw [if_neg hc] at hm3 ⊢
      injection hm3 with hm3
      rw [← hm3, hds]

theorem afterGateState_settings (env : Env) (m : Frame) :
    (afterGateState env m).config = m.s.config
    ∧ (afterGateState env m).cruise_control_status = m.s.cruise_control_status := by
  unfold afterGateState safeStartGate
  by_cases hh : safeStartHold m.s = true
  · rw [if_pos hh]
    exact ⟨rfl, rfl⟩
  · rw [if_neg hh]
    simp only
    split_ifs <;> exact ⟨rfl, rfl⟩

theorem dispatch_skip (env : Env) (m : Frame) (s2 : State) (out : List Cmd)
    (h : dispatch env m = some (Flow.skip s2 out)) :
    s2.config = m.s.config
    ∧ (m.s.config.ctrl_type ≠ PPM_CTRL_TYPE_CRUISE_CONTROL_SECONDARY_CHANNEL →
        s2.cruise_control_status = m.s.cruise_control_status) := by
  cases hct : m.s.config.ctrl_type <;> simp only [dispatch, hct] at h
  case PPM_CTRL_TYPE_NONE =>
    simp only [Option.some.injEq, Flow.skip.injEq] at h
    rw [← h.1]
    exact ⟨rfl, fun _ => rfl⟩
  case PPM_CTRL_TYPE_CRUISE_CONTROL_SECONDARY_CHANNEL =>
    simp only [caseCruiseSecondary, Option.some.injEq, Flow.skip.injEq] at h
    rw [← h.1]
    exact ⟨rfl, fun hne => absurd rfl hne⟩
  all_goals simp at h

theorem cycle_flag (env : Env) (s s' : State) (out : List Cmd)
    (h : ppm_thread_cycle env s = some (s', out)) :
    s'.config = s.config
    ∧ (s.config.ctrl_type ≠ PPM_CTRL_TYPE_CRUISE_CONTROL_SECONDARY_CHANNEL →
        s'.cruise_control_status = s.cruise_control_status) := by
  unfold ppm_thread_cycle at h
  split_ifs at h with hst
  · simp only [Option.some.injEq, Prod.mk.injEq] at h
    rw [← h.1]
    exact ⟨rfl, fun _ => rfl⟩
  · simp only [Option.bind_eq_some] at h
    obtain ⟨r, hr, hres⟩ := h
    cases r with
    | proceed m =>
      simp only at hres
      obtain ⟨hc, -, -, -, -, hf⟩ := beforeGate_settings env s m hr
      have hs := afterGate_state env m s' out hres
      obtain ⟨h1, h2⟩ := afterGateState_settings env m
      rw [hs, h1, h2]
      exact ⟨hc, fun _ => hf⟩
    | skip s2 out2 =>
      simp only [Option.some.injEq, Prod.mk.injEq] at hres
      unfold beforeGate at hr
      simp only [Option.bind_eq_some, Option.map_eq_some'] at hr
      obtain ⟨servo_val, -, r2, hr2, hm⟩ := hr
      cases r2 with
      | proceed m2 => simp at hm
      | skip s3 out3 =>
        simp only [Flow.skip.injEq] at hm
        have := dispatch_skip env _ s3 out3 hr2
        rw [← hres.1, ← hm.1]
        exact this

theorem reachable_flag_inactive (s : State) (h : Reachable s)
    (hmode : s.config.ctrl_type ≠ PPM_CTRL_TYPE_CRUISE_CONTROL_SECONDARY_CHANNEL) :
    s.cruise_control_status = CRUISE_CONTROL_INACTIVE := by
  induction h with
  | configure conf s0 => rfl
  | cycle env s1 s2 out _ hc ih =>
    obtain ⟨hcfg, hflag⟩ := cycle_flag env s1 s2 out hc
    rw [hcfg] at hmode
    rw [hflag hmode]
    exact ih hmode

theorem current_path_resets_past_gate (env : Env) (s : State) (m : Frame)
    (hfresh : staleInput env = false)
    (hgate : beforeGate env s = some (Flow.proceed m))
    (hmode : m.l.current_mode = true)
    (hpass : safeStartHold m.s = false) :
    (afterGateState env m).pid_rpm = 0
    ∧ (∀ s' out, ppm_thread_cycle env s = some (s', out) → s'.pid_rpm = 0)
    ∧ ((s.config.tc = true → s.config.tc_max_diff ≠ s.config.tc_offset) →
        ∃ s' out, ppm_thread_cycle env s = some (s', out)) := by
  have hst : (afterGateState env m).pid_rpm = 0 := by
    unfold afterGateState safeStartGate
    rw [hpass]
    simp [hmode]
  refine ⟨hst, ?_, ?_⟩
  · intro s' out h
    rw [cycle_of_beforeGate env s m hfresh hgate] at h
    rw [afterGate_state env m s' out h]
    exact hst
  · intro hdef
    rw [cycle_of_beforeGate env s m hfresh hgate, afterGate_pass env m hpass]
    have hcfg : m.s.config = s.config := (beforeGate_settings env s m hgate).1
    obtain ⟨hds, hdl⟩ := dutyBroadcast_fields env m
    obtain ⟨m', hm'⟩ := currentOutput_defined env (dutyBroadcast env m)
      (by rw [hds, hcfg]; exact hdef)
    rw [hm']
    exact ⟨_, _, rfl⟩

/-! ## Lemmas on the unlock cycle -/

/-- C1 (failing input).  With the control points `x1 = x2 = 1/2`, `y1 = y2 = 1/2`
the assignment of line 97 for `j = 1`, `i = 2` divides `0` by `0`, so `neville`
has no value in `[0, 1]` to return: the clamp of lines 102-103 is not reached
with a number. -/
theorem neville_coincident_points_no_value :
    ((3 / 10 - idx [0, 1 / 2, 1 / 2, 3 / 4, 1] 1) * idx [0, 1 / 2, 1 / 2, 3 / 4, 1] 2
        - (3 / 10 - idx [0, 1 / 2, 1 / 2, 3 / 4, 1] 2) * idx [0, 1 / 2, 1 / 2, 3 / 4, 1] 1 = 0
      ∧ idx [0, 1 / 2, 1 / 2, 3 / 4, 1] 2 - idx [0, 1 / 2, 1 / 2, 3 / 4, 1] 1 = 0)
    ∧ neville [0, 1 / 2, 1 / 2, 3 / 4, 1] [0, 1 / 2, 1 / 2, 3 / 4, 1] 0 (3 / 10) = none := by
  refine ⟨⟨?_, ?_⟩, ?_⟩
  · norm_num [idx]
  · norm_num [idx]
  · simp [neville, nevilleLoop, nevilleInner, nevilleAssign, idx, fdiv, List.foldlM]

/-- C2 (counterexample).  With blend factor 0 and the ordered control points
`(1/4, 1/2)`, `(1/2, 1/2)`, `(3/4, 1/2)`, `neville (1/8)` is `11/32`, the value of the
interpolation polynomial, while the piecewise-linear curve gives `1/4`. -/
theorem neville_factor_zero_not_piecewise_linear :
    neville [0, 1 / 4, 1 / 2, 3 / 4, 1] [0, 1 / 2, 1 / 2, 1 / 2, 1] 0 (1 / 8) = some (11 / 32)
    ∧ max 0 (min 1 (piecewiseLinear
        [(0, 0), (1 / 4, 1 / 2), (1 / 2, 1 / 2), (3 / 4, 1 / 2), (1, 1)] (1 / 8))) = 1 / 4
    ∧ neville [0, 1 / 4, 1 / 2, 3 / 4, 1] [0, 1 / 2, 1 / 2, 1 / 2, 1] 0 (1 / 8)
        ≠ some (max 0 (min 1 (piecewiseLinear
            [(0, 0), (1 / 4, 1 / 2), (1 / 2, 1 / 2), (3 / 4, 1 / 2), (1, 1)] (1 / 8)))) := by
  have h1 : neville [0, 1 / 4, 1 / 2, 3 / 4, 1] [0, 1 / 2, 1 / 2, 1 / 2, 1] 0 (1 / 8)
      = some (11 / 32) := by
    norm_num [neville, directSteps, nevilleLoop, nevilleInner, nevilleAssign, nevilleClamp, idx,
      fdiv, List.foldlM]
  have h2 : max 0 (min 1 (piecewiseLinear
      [(0, 0), (1 / 4, 1 / 2), (1 / 2, 1 / 2), (3 / 4, 1 / 2), (1, 1)] (1 / 8))) = (1 / 4 : ℚ) := by
    norm_num [piecewiseLinear]
  refine ⟨h1, h2, ?_⟩
  rw [h1, h2]
  norm_num

/-- C2 (amended).  With blend factor 1 and ordered control points
`0 < x1 < x2 < x3 < 1`, `neville t` is, for every `t`, the piecewise-linear
interpolation through `(0,0)`, `(x1,y1)`, `(x2,y2)`, `(x3,y3)`, `(1,1)` clamped to `[0, 1]`. -/
theorem neville_factor_one_piecewise_linear (x1 x2 x3 y1 y2 y3 t : ℚ)
    (h1 : 0 < x1) (h2 : x1 < x2) (h3 : x2 < x3) (h4 : x3 < 1) :
    neville [0, x1, x2, x3, 1] [0, y1, y2, y3, 1] 1 t
      = some (max 0 (min 1
          (piecewiseLinear [(0, 0), (x1, y1), (x2, y2), (x3, y3), (1, 1)] t))) := by
  obtain ⟨f, hf⟩ := nevilleLoop_defined 0 x1 x2 x3 1 0 y1 y2 y3 1 t (by
    simp only [List.pairwise_cons, List.mem_cons, List.mem_singleton, forall_eq_or_imp, forall_eq,
      List.not_mem_nil, false_implies, implies_true, List.Pairwise.nil, and_true]
    refine ⟨⟨?_, ?_, ?_, ?_⟩, ⟨?_, ?_, ?_⟩, ⟨?_, ?_⟩, ?_⟩ <;> apply ne_of_lt <;> linarith)
  unfold neville
  rw [directSteps_ordered x1 x2 x3 y1 y2 y3 t h1 h2 h3 h4, hf]
  simp only [Option.bind_eq_bind, Option.some_bind, Option.pure_def, mul_one, sub_sub_cancel]
  rw [nevilleClamp_eq]

/-- C2 (amended), at the points of the counterexample and `t = 1/8`. -/
theorem neville_factor_one_piecewise_linear_witness :
    neville [0, 1 / 4, 1 / 2, 3 / 4, 1] [0, 1 / 2, 1 / 2, 1 / 2, 1] 1 (1 / 8)
      = some (max 0 (min 1 (piecewiseLinear
          [(0, 0), (1 / 4, 1 / 2), (1 / 2, 1 / 2), (3 / 4, 1 / 2), (1, 1)] (1 / 8)))) :=
  neville_factor_one_piecewise_linear (1 / 4) (1 / 2) (3 / 4) (1 / 2) (1 / 2) (1 / 2) (1 / 8)
    (by norm_num) (by norm_num) (by norm_num) (by norm_num)

/-- C3.  After `app_ppm_configure` with the default control points
`(1/4, 1/4)`, `(1/2, 1/2)`, `(3/4, 3/4)` and any blend factor, `neville t = t` for
every `t` in `[0, 1]`. -/
theorem neville_default_points_identity (conf : ppm_config) (s : State) (t : ℚ)
    (hx1 : conf.x1_throttle = 1 / 4) (hy1 : conf.y1_throttle = 1 / 4)
    (hx2 : conf.x2_throttle = 1 / 2) (hy2 : conf.y2_throttle = 1 / 2)
    (hx3 : conf.x3_throttle = 3 / 4) (hy3 : conf.y3_throttle = 3 / 4)
    (h0 : 0 ≤ t) (h1 : t ≤ 1) :
    neville (app_ppm_configure conf s).1.x (app_ppm_configure conf s).1.y
      (app_ppm_configure conf s).1.config.bezier_reduce_factor t = some t := by
  have hloop : nevilleLoop [0, 1 / 4, 1 / 2, 3 / 4, 1] [0, 1 / 4, 1 / 2, 3 / 4, 1] t
      = some [0, t, t, t, t] := by
    simp [nevilleLoop, nevilleInner, nevilleAssign, idx, fdiv, List.foldlM]
    norm_num
    refine ⟨?_, ?_, ?_, ?_⟩ <;> ring
  have hdirect : directSteps [0, 1 / 4, 1 / 2, 3 / 4, 1] [0, 1 / 4, 1 / 2, 3 / 4, 1] t = some t := by
    rw [directSteps_ordered (1 / 4) (1 / 2) (3 / 4) (1 / 4) (1 / 2) (3 / 4) t
      (by norm_num) (by norm_num) (by norm_num) (by norm_num)]
    simp only [piecewiseLinear, List.isEmpty_cons, List.isEmpty_nil, Bool.false_eq_true, or_false,
      or_true, if_true]
    congr 1
    split_ifs <;> norm_num
  simp only [app_ppm_configure, hx1, hy1, hx2, hy2, hx3, hy3]
  unfold neville
  rw [hdirect, hloop]
  simp only [Option.bind_eq_bind, Option.some_bind, Option.pure_def, idx, List.getD_cons_succ,
    List.getD_cons_zero, sub_self, zero_mul, sub_zero]
  congr 1
  unfold nevilleClamp
  rw [if_neg (by linarith), if_neg (by linarith)]

/-- C3, at `t = 3/10` with blend factor 1/2. -/
theorem neville_default_points_identity_witness :
    neville (app_ppm_configure sampleConfig sampleState).1.x
      (app_ppm_configure sampleConfig sampleState).1.y
      (app_ppm_configure sampleConfig sampleState).1.config.bezier_reduce_factor (3 / 10)
      = some (3 / 10) :=
  neville_default_points_identity sampleConfig sampleState (3 / 10) rfl rfl rfl rfl rfl rfl
    (by norm_num) (by norm_num)

/-- C4.  With multi-controller mode enabled, the lowest RPM of a cycle is the
first element of minimum absolute value among the local RPM followed by the RPMs
of the records with `id >= 0` and age below 0.1 s, in table order; the cruise
flag is true exactly when one such record reports cruise-active; and two tables
with the same such records give the same two results. -/
theorem lowest_rpm_first_min_and_cruise_any (env : Env) (s : State) (servo_val : ℚ)
    (hmulti : s.config.multi_esc = true) :
    (∃ i, i < (rpmCandidates env.mc_interface_get_rpm env.peers).length
        ∧ (rpmCandidates env.mc_interface_get_rpm env.peers).getD i 0
            = (initLocals env s servo_val).rpm_lowest
        ∧ (∀ j, j < i → |(initLocals env s servo_val).rpm_lowest|
            < |(rpmCandidates env.mc_interface_get_rpm env.peers).getD j 0|)
        ∧ (∀ j, j < (rpmCandidates env.mc_interface_get_rpm env.peers).length →
            |(initLocals env s servo_val).rpm_lowest|
              ≤ |(rpmCandidates env.mc_interface_get_rpm env.peers).getD j 0|))
    ∧ ((initLocals env s servo_val).cruise_control_status = true ↔
        ∃ msg ∈ env.peers, (0 ≤ msg.id ∧ msg.age < 1 / 10)
          ∧ msg.cruise_control_status = CRUISE_CONTROL_ACTIVE)
    ∧ (∀ env2 : Env, env2.mc_interface_get_rpm = env.mc_interface_get_rpm →
        env2.peers.filter (fun msg => decide (0 ≤ msg.id ∧ msg.age < 1 / 10))
          = env.peers.filter (fun msg => decide (0 ≤ msg.id ∧ msg.age < 1 / 10)) →
        (initLocals env2 s servo_val).rpm_lowest = (initLocals env s servo_val).rpm_lowest
        ∧ (initLocals env2 s servo_val).cruise_control_status
            = (initLocals env s servo_val).cruise_control_status) := by
  have hl : (initLocals env s servo_val).rpm_lowest
      = runningLowest env.mc_interface_get_rpm ((env.peers.filter fresh).map (fun msg => msg.rpm)) := by
    simp only [initLocals, findLowest, hmulti, if_true]
    exact foldl_lowestStep_fst env.peers (env.mc_interface_get_rpm, false)
  have hc : (initLocals env s servo_val).cruise_control_status
      = (env.peers.foldl lowestStep (env.mc_interface_get_rpm, false)).2 := by
    simp only [initLocals, findLowest, hmulti, if_true]
  refine ⟨?_, ?_, ?_⟩
  · rw [hl]
    unfold rpmCandidates
    rw [← fresh_fun_eq]
    exact runningLowest_first_min _ _
  · rw [hc, foldl_lowestStep_snd]
    simp [fresh_eq]
  · intro env2 hrpm hpeers
    simp only [initLocals, findLowest, hmulti, if_true]
    rw [← fresh_fun_eq] at hpeers
    rw [foldl_lowestStep_filter env2.peers, foldl_lowestStep_filter env.peers, hpeers, hrpm]
    exact ⟨rfl, rfl⟩

/-- C4, at the peers `(id 1, rpm 500, age 0.05 s)`, `(id 2, rpm -800, age 0.2 s)`
with local RPM 1000: the lowest RPM is 500. -/
theorem lowest_rpm_first_min_and_cruise_any_witness :
    sampleState.config.multi_esc = true
    ∧ (initLocals sampleEnv sampleState 0).rpm_lowest = 500
    ∧ (initLocals sampleEnv sampleState 0).cruise_control_status = false
    ∧ (∃ i, i < (rpmCandidates sampleEnv.mc_interface_get_rpm sampleEnv.peers).length
        ∧ (rpmCandidates sampleEnv.mc_interface_get_rpm sampleEnv.peers).getD i 0
            = (initLocals sampleEnv sampleState 0).rpm_lowest
        ∧ (∀ j, j < i → |(initLocals sampleEnv sampleState 0).rpm_lowest|
            < |(rpmCandidates sampleEnv.mc_interface_get_rpm sampleEnv.peers).getD j 0|)
        ∧ (∀ j, j < (rpmCandidates sampleEnv.mc_interface_get_rpm sampleEnv.peers).length →
            |(initLocals sampleEnv sampleState 0).rpm_lowest|
              ≤ |(rpmCandidates sampleEnv.mc_interface_get_rpm sampleEnv.peers).getD j 0|)) := by
  refine ⟨rfl, ?_, ?_, (lowest_rpm_first_min_and_cruise_any sampleEnv sampleState 0 rfl).1⟩
  · norm_num [initLocals, findLowest, lowestStep, fresh, fabsf, MAX_CAN_AGE, sampleEnv, sampleState,
      sampleConfig, CRUISE_CONTROL_ACTIVE]
  · norm_num [initLocals, findLowest, lowestStep, fresh, fabsf, MAX_CAN_AGE, sampleEnv, sampleState,
      sampleConfig, CRUISE_CONTROL_ACTIVE]

/-- C5.  In a cycle where the decoder timeout is asserted, or the time since the last
decode exceeds the timeout, or the drive reports a fault other than
`FAULT_CODE_NONE`, no call is made and the state afterwards is the state before
with `pulses_without_power` set to 0: `pid_rpm`, `mode_switch_pulses`, the filter
ring and the cruise flag are unchanged. -/
theorem stale_cycle_no_op (env : Env) (s : State)
    (h : env.timeout_has_timeout = true
      ∨ env.servodec_get_time_since_update > env.timeout_get_timeout_msec
      ∨ env.mc_interface_get_fault ≠ FAULT_CODE_NONE) :
    ∃ s', ppm_thread_cycle env s = some (s', [])
      ∧ s'.pulses_without_power = 0
      ∧ s'.pid_rpm = s.pid_rpm
      ∧ s'.mode_switch_pulses = s.mode_switch_pulses
      ∧ s'.filter_buffer = s.filter_buffer
      ∧ s'.filter_ptr = s.filter_ptr
      ∧ s'.has_enough_pid_filter_data = s.has_enough_pid_filter_data
      ∧ s'.cruise_control_status = s.cruise_control_status
      ∧ s' = { s with pulses_without_power := 0 } := by
  have hs : staleInput env = true := by
    unfold staleInput
    rcases h with h | h | h
    · simp [h]
    · simp [h]
    · simp [h]
  refine ⟨{ s with pulses_without_power := 0 }, ?_, rfl, rfl, rfl, rfl, rfl, rfl, rfl, rfl⟩
  unfold ppm_thread_cycle
  rw [if_pos hs]

/-- C5, at a cycle with fault code 3, a count of 17 and a lock at 4000. -/
theorem stale_cycle_no_op_witness :
    ∃ s', ppm_thread_cycle { sampleEnv with mc_interface_get_fault := 3 }
        { sampleState with pulses_without_power := 17, pid_rpm := 4000 } = some (s', [])
      ∧ s'.pulses_without_power = 0
      ∧ s'.pid_rpm = 4000 := by
  obtain ⟨s', h1, h2, h3, -⟩ := stale_cycle_no_op { sampleEnv with mc_interface_get_fault := 3 }
    { sampleState with pulses_without_power := 17, pid_rpm := 4000 }
    (Or.inr (Or.inr (by decide)))
  exact ⟨s', h1, h2, h3⟩

/-- C6 (failing inputs).  Two cycles that pass the stale-input check and reach the
safe-start gate with safe start enabled and `pulses_without_power < 50`.  In
current mode with the cruise hand-off the calls are a locked-speed command and
then the brake; in speed no-acceleration-limit mode they are a locked-speed
command, the same command to the peer, and then the brake. -/
theorem safe_start_hold_still_commands_speed :
    (staleInput cruiseEnv = false
      ∧ sampleState.config.ctrl_type = PPM_CTRL_TYPE_CURRENT
      ∧ (∃ m, beforeGate cruiseEnv sampleState = some (Flow.proceed m)
          ∧ safeStartHold m.s = true)
      ∧ (ppm_thread_cycle cruiseEnv sampleState).map Prod.snd
          = some [Cmd.mc_interface_set_pid_speed 5000, Cmd.mc_interface_set_brake_current 5])
    ∧ (staleInput halfThrottleCruiseEnv = false
      ∧ noAccelState.config.ctrl_type = PPM_CTRL_TYPE_PID_NOACCELERATION
      ∧ (∃ m, beforeGate halfThrottleCruiseEnv noAccelState = some (Flow.proceed m)
          ∧ safeStartHold m.s = true)
      ∧ (ppm_thread_cycle halfThrottleCruiseEnv noAccelState).map Prod.snd
          = some [Cmd.mc_interface_set_pid_speed_and_watt 5000 1500,
                  Cmd.comm_can_set_rpm_and_watt 1 5000 1500,
                  Cmd.mc_interface_set_brake_current 5]) := by
  have hb : beforeGate cruiseEnv sampleState = some (Flow.proceed
      { s := { sampleState with pid_rpm := 5000, pulses_without_power := 1 }
        l := { servo_val := 0, current := 0, current_mode := false, current_mode_brake := false
               send_duty := true, rpm_local := 6000, rpm_lowest := 5000
               cruise_control_status := true }
        out := [Cmd.mc_interface_set_pid_speed 5000] }) := by
    norm_num [beforeGate, shapeInput, dispatch, initLocals, findLowest, lowestStep, fresh, fabsf,
      caseCurrent, cruiseHandoff, countPulse, modeSwitch, int_incr, MAX_CAN_AGE,
      CRUISE_CONTROL_ACTIVE, cruiseEnv, sampleEnv, sampleState, sampleConfig, sampleMcconf]
  have hb2 : beforeGate halfThrottleCruiseEnv noAccelState = some (Flow.proceed
      { s := { noAccelState with pid_rpm := 5000, filter_ptr := 1 }
        l := { servo_val := 1 / 2, current := 0, current_mode := false
               current_mode_brake := false, send_duty := true, rpm_local := 6000
               rpm_lowest := 5000, cruise_control_status := true }
        out := [Cmd.mc_interface_set_pid_speed_and_watt 5000 1500,
                Cmd.comm_can_set_rpm_and_watt 1 5000 1500] }) := by
    norm_num [beforeGate, shapeInput, dispatch, initLocals, findLowest, lowestStep, fresh, fabsf,
      casePidNoacceleration, rpmFilter, lowerPid, toFreshPeers, countPulse, modeSwitch, int_incr,
      idx, MAX_CAN_AGE, RPM_FILTER_SAMPLES, CRUISE_CONTROL_ACTIVE, halfThrottleCruiseEnv,
      noAccelState, cruiseEnv, sampleEnv, sampleState, sampleConfig, sampleMcconf, List.range,
      List.range.loop]
  refine ⟨⟨by decide, rfl, ⟨_, hb, by decide⟩, ?_⟩, ⟨by decide, rfl, ⟨_, hb2, by decide⟩, ?_⟩⟩
  · rw [cycle_of_beforeGate _ _ _ (by decide) hb, afterGate_hold _ _ (by decide)]
    rfl
  · rw [cycle_of_beforeGate _ _ _ (by decide) hb2, afterGate_hold _ _ (by decide)]
    rfl

/-- C7.  Two consecutive cycles that both reach the safe-start gate while it holds
(safe start enabled, `pulses_without_power < 50`): if the second cycle reaches
the gate with the counter it started with (no increment), the counter is 0
after the second cycle. -/
theorem safe_start_counter_reset (env1 env2 : Env) (s s1 : State) (out1 : List Cmd)
    (m1 m2 : Frame)
    (hfresh1 : staleInput env1 = false)
    (hgate1 : beforeGate env1 s = some (Flow.proceed m1))
    (hhold1 : safeStartHold m1.s = true)
    (hcycle1 : ppm_thread_cycle env1 s = some (s1, out1))
    (hfresh2 : staleInput env2 = false)
    (hgate2 : beforeGate env2 s1 = some (Flow.proceed m2))
    (hhold2 : safeStartHold m2.s = true)
    (hsame : m2.s.pulses_without_power = s1.pulses_without_power) :
    ∃ s2 out2, ppm_thread_cycle env2 s1 = some (s2, out2) ∧ s2.pulses_without_power = 0 := by
  rw [cycle_of_beforeGate env1 s m1 hfresh1 hgate1, afterGate_hold env1 m1 hhold1] at hcycle1
  injection hcycle1 with hcycle1
  injection hcycle1 with hs1 _
  have heq : s1.pulses_without_power = s1.pulses_without_power_before := by
    rw [← hs1]
  have hbefore : m2.s.pulses_without_power_before = s1.pulses_without_power_before :=
    (beforeGate_settings env2 s1 m2 hgate2).2.1
  rw [cycle_of_beforeGate env2 s1 m2 hfresh2 hgate2, afterGate_hold env2 m2 hhold2]
  refine ⟨_, _, rfl, ?_⟩
  simp only
  rw [if_pos (by rw [hsame, hbefore, heq])]

/-- C7, at a neutral-stick cycle that takes the count from 7 to 8, followed by a
half-throttle cycle: the count is 0 afterwards. -/
theorem safe_start_counter_reset_witness :
    ∃ s1 out1 m1 m2,
      staleInput sampleEnv = false
      ∧ beforeGate sampleEnv { sampleState with pulses_without_power := 7 } = some (Flow.proceed m1)
      ∧ safeStartHold m1.s = true
      ∧ ppm_thread_cycle sampleEnv { sampleState with pulses_without_power := 7 } = some (s1, out1)
      ∧ s1.pulses_without_power = 8
      ∧ staleInput halfThrottleEnv = false
      ∧ beforeGate halfThrottleEnv s1 = some (Flow.proceed m2)
      ∧ safeStartHold m2.s = true
      ∧ m2.s.pulses_without_power = s1.pulses_without_power
      ∧ ∃ s2 out2, ppm_thread_cycle halfThrottleEnv s1 = some (s2, out2)
          ∧ s2.pulses_without_power = 0 := by
  have hb1 : beforeGate sampleEnv { sampleState with pulses_without_power := 7 }
      = some (Flow.proceed
          { s := { sampleState with pulses_without_power := 8 }
            l := { servo_val := 0, current := 0, current_mode := true, current_mode_brake := false
                   send_duty := false, rpm_local := 1000, rpm_lowest := 500
                   cruise_control_status := false }
            out := [] }) := by
    norm_num [beforeGate, shapeInput, dispatch, initLocals, findLowest, lowestStep, fresh, fabsf,
      caseCurrent, cruiseHandoff, countPulse, modeSwitch, int_incr, MAX_CAN_AGE,
      CRUISE_CONTROL_ACTIVE, sampleEnv, sampleState, sampleConfig, sampleMcconf]
  have hc1 : ppm_thread_cycle sampleEnv { sampleState with pulses_without_power := 7 }
      = some ({ sampleState with pulses_without_power := 8, pulses_without_power_before := 8 },
              [Cmd.mc_interface_set_brake_current 5]) := by
    rw [cycle_of_beforeGate _ _ _ (by decide) hb1, afterGate_hold _ _ (by decide)]
    norm_num [sampleState, sampleEnv]
  have hb2 : beforeGate halfThrottleEnv
      { sampleState with pulses_without_power := 8, pulses_without_power_before := 8 }
      = some (Flow.proceed
          { s := { sampleState with pulses_without_power := 8, pulses_without_power_before := 8 }
            l := { servo_val := 1 / 2, current := 30, current_mode := true
                   current_mode_brake := false, send_duty := false, rpm_local := 1000
                   rpm_lowest := 500, cruise_control_status := false }
            out := [] }) := by
    norm_num [beforeGate, shapeInput, dispatch, initLocals, findLowest, lowestStep, fresh, fabsf,
      caseCurrent, cruiseHandoff, countPulse, modeSwitch, int_incr, MAX_CAN_AGE,
      CRUISE_CONTROL_ACTIVE, halfThrottleEnv, sampleEnv, sampleState, sampleConfig, sampleMcconf]
  exact ⟨_, _, _, _, by decide, hb1, by decide, hc1, rfl, by decide, hb2, by decide, rfl,
    safe_start_counter_reset sampleEnv halfThrottleEnv _ _ _ _ _ (by decide) hb1 (by decide) hc1
      (by decide) hb2 (by decide) rfl⟩

/-- C9.  For `base >= 0`, `tc_offset < tc_max_diff` and `cc_min_current >= 0` the
traction-control current is `base` for `diff <= tc_offset`, and for
`diff > tc_offset` it is `base * (tc_max_diff - diff) / (tc_max_diff - tc_offset)`
when that is at least `cc_min_current` and 0 otherwise; it is 0 for every
`diff >= tc_max_diff`.  This is the value sent to a fresh peer with
`diff = peer_rpm - lowest_rpm` and commanded locally with
`diff = local_rpm - lowest_rpm`. -/
theorem traction_derate_formula (cfg : ppm_config) (mcconf : mc_configuration) (base diff : ℚ)
    (hbase : 0 ≤ base) (hoff : cfg.tc_offset < cfg.tc_max_diff)
    (hmin : 0 ≤ mcconf.cc_min_current) :
    tcDerate cfg mcconf base diff
      = some (if diff ≤ cfg.tc_offset then base
              else if mcconf.cc_min_current
                  ≤ base * (cfg.tc_max_diff - diff) / (cfg.tc_max_diff - cfg.tc_offset) then
                base * (cfg.tc_max_diff - diff) / (cfg.tc_max_diff - cfg.tc_offset)
              else 0)
    ∧ (cfg.tc_max_diff ≤ diff → tcDerate cfg mcconf base diff = some 0)
    ∧ (∀ (rpm_lowest : ℚ) (acc : ℚ × List Cmd) (msg : can_status_msg),
        cfg.tc = true → 0 ≤ msg.id → msg.age < 1 / 10 → msg.rpm - rpm_lowest = diff →
        tcPeerStep cfg mcconf base rpm_lowest false acc msg
          = (tcDerate cfg mcconf base diff).map
              (fun current_out => (current_out, acc.2 ++ [Cmd.comm_can_set_current msg.id current_out])))
    ∧ (∀ (env : Env) (m : Frame) (acc : ℚ × List Cmd), m.s.config = cfg → env.mcconf = mcconf →
        cfg.multi_esc = true → cfg.tc = true →
        env.peers.foldlM (tcPeerStep cfg mcconf base m.l.rpm_lowest false) (base, m.out)
          = some acc →
        m.l.rpm_local - m.l.rpm_lowest = diff →
        (currentCommands env m base).map (fun m' => m'.out)
          = (tcDerate cfg mcconf base diff).map
              (fun current_out => acc.2 ++ [Cmd.mc_interface_set_current current_out])) := by
  have hpos : 0 < cfg.tc_max_diff - cfg.tc_offset := sub_pos.mpr hoff
  have hne : cfg.tc_max_diff - cfg.tc_offset - 0 ≠ 0 := by
    rw [sub_zero]; exact ne_of_gt hpos
  have hval : ∀ d, (d - cfg.tc_offset - 0) * (0 - base) / (cfg.tc_max_diff - cfg.tc_offset - 0) + base
      = base * (cfg.tc_max_diff - d) / (cfg.tc_max_diff - cfg.tc_offset) := by
    intro d
    rw [sub_zero, sub_zero]
    field_simp
    ring
  have hmain : tcDerate cfg mcconf base diff
      = some (if diff ≤ cfg.tc_offset then base
              else if mcconf.cc_min_current
                  ≤ base * (cfg.tc_max_diff - diff) / (cfg.tc_max_diff - cfg.tc_offset) then
                base * (cfg.tc_max_diff - diff) / (cfg.tc_max_diff - cfg.tc_offset)
              else 0) := by
    unfold tcDerate utils_map fdiv
    by_cases hd : diff ≤ cfg.tc_offset
    · rw [if_neg (not_lt.mpr hd), if_pos hd]
    · rw [if_pos (not_le.mp hd), if_neg hne, if_neg hd]
      simp only [Option.map_some', hval]
      by_cases hc : mcconf.cc_min_current
          ≤ base * (cfg.tc_max_diff - diff) / (cfg.tc_max_diff - cfg.tc_offset)
      · rw [if_neg (not_lt.mpr hc), if_pos hc]
      · rw [if_pos (not_le.mp hc), if_neg hc]
  refine ⟨hmain, ?_, ?_, ?_⟩
  · intro hd
    rw [hmain, if_neg (not_le.mpr (lt_of_lt_of_le hoff hd))]
    have hle : base * (cfg.tc_max_diff - diff) / (cfg.tc_max_diff - cfg.tc_offset) ≤ 0 :=
      div_nonpos_of_nonpos_of_nonneg
        (mul_nonpos_of_nonneg_of_nonpos hbase (sub_nonpos.mpr hd)) (le_of_lt hpos)
    split_ifs with hc
    · rw [le_antisymm hle (le_trans hmin hc)]
    · rfl
  · intro rpm_lowest acc msg htc hid hage hdiff
    have hf : fresh msg = true := by
      rw [fresh_eq]; exact decide_eq_true ⟨hid, hage⟩
    simp [tcPeerStep, hf, htc, hdiff]
  · intro env m acc hcfg hmc hmulti htc hpeers hdiff
    have hb : ¬ base < 0 := not_lt.mpr hbase
    simp [currentCommands, hcfg, hmc, hmulti, htc, hpeers, hb, hdiff, Option.map_map,
      Function.comp_def]

/-- C9, at base 10, `tc_offset` 200, `tc_max_diff` 1200, `cc_min_current` 1/20:
`diff` 700 gives 5, `diff` 1200 gives 0, `diff` 100 gives 10. -/
theorem traction_derate_formula_witness :
    tcDerate { sampleConfig with tc := true } sampleMcconf 10 700 = some 5
    ∧ tcDerate { sampleConfig with tc := true } sampleMcconf 10 1200 = some 0
    ∧ tcDerate { sampleConfig with tc := true } sampleMcconf 10 100 = some 10 := by
  have h700 := (traction_derate_formula { sampleConfig with tc := true } sampleMcconf 10 700
    (by norm_num) (by norm_num [sampleConfig]) (by norm_num [sampleMcconf])).1
  have h1200 := (traction_derate_formula { sampleConfig with tc := true } sampleMcconf 10 1200
    (by norm_num) (by norm_num [sampleConfig]) (by norm_num [sampleMcconf])).2.1
    (by norm_num [sampleConfig])
  have h100 := (traction_derate_formula { sampleConfig with tc := true } sampleMcconf 10 100
    (by norm_num) (by norm_num [sampleConfig]) (by norm_num [sampleMcconf])).1
  refine ⟨?_, h1200, ?_⟩
  · rw [h700]
    norm_num [sampleConfig, sampleMcconf]
  · rw [h100]
    norm_num [sampleConfig, sampleMcconf]

/-- C10 (counterexample).  Configuring a state with `pid_rpm = 5000` and
`mode_switch_pulses = 12` leaves both as they are. -/
theorem configure_keeps_pid_rpm_and_mode_switch :
    (app_ppm_configure sampleConfig busyState).1.pid_rpm = 5000
    ∧ (app_ppm_configure sampleConfig busyState).1.mode_switch_pulses = 12
    ∧ ¬ ((app_ppm_configure sampleConfig busyState).1.pulses_without_power = 0
          ∧ (app_ppm_configure sampleConfig busyState).1.mode_switch_pulses = 0
          ∧ (app_ppm_configure sampleConfig busyState).1.pid_rpm = 0
          ∧ (app_ppm_configure sampleConfig busyState).1.filter_ptr = 0
          ∧ (app_ppm_configure sampleConfig busyState).1.has_enough_pid_filter_data = false) := by
  refine ⟨rfl, rfl, ?_⟩
  rintro ⟨-, h, -⟩
  have : (app_ppm_configure sampleConfig busyState).1.mode_switch_pulses = 12 := rfl
  rw [this] at h
  exact absurd h (by decide)

/-- C10 (amended).  After `app_ppm_configure conf`, whatever the prior state:
`pulses_without_power = 0`, the filter ring is empty (write index 0, buffer-full
flag false), the control points are `x = (0, x1, x2, x3, 1)` and
`y = (0, y1, y2, y3, 1)` of `conf`, and `mode_switch_pulses` and `pid_rpm` keep
their prior values. -/
theorem configure_resets (conf : ppm_config) (s : State) :
    (app_ppm_configure conf s).1.pulses_without_power = 0
    ∧ (app_ppm_configure conf s).1.filter_ptr = 0
    ∧ (app_ppm_configure conf s).1.has_enough_pid_filter_data = false
    ∧ (app_ppm_configure conf s).1.x
        = [0, conf.x1_throttle, conf.x2_throttle, conf.x3_throttle, 1]
    ∧ (app_ppm_configure conf s).1.y
        = [0, conf.y1_throttle, conf.y2_throttle, conf.y3_throttle, 1]
    ∧ (app_ppm_configure conf s).1.config = conf
    ∧ (app_ppm_configure conf s).1.mode_switch_pulses = s.mode_switch_pulses
    ∧ (app_ppm_configure conf s).1.pid_rpm = s.pid_rpm :=
  ⟨rfl, rfl, rfl, rfl, rfl, rfl, rfl, rfl⟩

/-- C11 (counterexample).  Configuring a state with `mode_switch_pulses = 12` once or
twice gives the same state, and `mode_switch_pulses` is 12, not 0, both times. -/
theorem configure_twice_mode_switch_not_zero :
    (app_ppm_configure sampleConfig (app_ppm_configure sampleConfig busyState).1).1
        = (app_ppm_configure sampleConfig busyState).1
    ∧ (app_ppm_configure sampleConfig busyState).1.mode_switch_pulses = 12
    ∧ (app_ppm_configure sampleConfig
        (app_ppm_configure sampleConfig busyState).1).1.mode_switch_pulses = 12
    ∧ ¬ ((app_ppm_configure sampleConfig busyState).1.pulses_without_power = 0
          ∧ (app_ppm_configure sampleConfig busyState).1.mode_switch_pulses = 0
          ∧ (app_ppm_configure sampleConfig
              (app_ppm_configure sampleConfig busyState).1).1.pulses_without_power = 0
          ∧ (app_ppm_configure sampleConfig
              (app_ppm_configure sampleConfig busyState).1).1.mode_switch_pulses = 0) := by
  refine ⟨rfl, rfl, rfl, ?_⟩
  rintro ⟨-, h, -⟩
  have h12 : (app_ppm_configure sampleConfig busyState).1.mode_switch_pulses = 12 := rfl
  rw [h12] at h
  exact absurd h (by decide)

/-- C11 (amended).  Applying `conf` twice gives exactly the state and the calls of
applying it once; `pulses_without_power` is 0 both times and
`mode_switch_pulses` keeps its prior value both times. -/
theorem configure_idempotent (conf : ppm_config) (s : State) :
    app_ppm_configure conf (app_ppm_configure conf s).1 = app_ppm_configure conf s
    ∧ (app_ppm_configure conf s).1.pulses_without_power = 0
    ∧ (app_ppm_configure conf (app_ppm_configure conf s).1).1.pulses_without_power = 0
    ∧ (app_ppm_configure conf s).1.mode_switch_pulses = s.mode_switch_pulses
    ∧ (app_ppm_configure conf (app_ppm_configure conf s).1).1.mode_switch_pulses
        = s.mode_switch_pulses :=
  ⟨rfl, rfl, rfl, rfl, rfl⟩

/-- C12 (failing input).  From the state right after `app_ppm_configure`: a first
cycle at neutral with a cruise-active peer at 5000 RPM locks `pid_rpm` at 5000;
the next cycle, in current mode at half throttle, ends its dispatch with
`current_mode` true, is held by the safe-start gate, calls only the brake and
leaves `pid_rpm` at 5000, and so does every further such cycle; a later cruise
hand-off with the lowest RPM at 3000 then commands the stale speed 5000.  The same
half-throttle cycle entered past the safe-start count is not held and resets
`pid_rpm` to 0. -/
theorem lock_survives_held_current_cycle :
    (app_ppm_configure sampleConfig sampleState).1 = sampleState
    ∧ ppm_thread_cycle cruiseEnv sampleState
        = some (firstLockState,
            [Cmd.mc_interface_set_pid_speed 5000, Cmd.mc_interface_set_brake_current 5])
    ∧ staleInput halfThrottleEnv = false
    ∧ (∃ m, beforeGate halfThrottleEnv firstLockState = some (Flow.proceed m)
        ∧ m.l.current_mode = true ∧ safeStartHold m.s = true)
    ∧ ppm_thread_cycle halfThrottleEnv firstLockState
        = some (heldLockedState, [Cmd.mc_interface_set_brake_current 5])
    ∧ heldLockedState.pid_rpm = 5000
    ∧ (∃ m, beforeGate halfThrottleEnv heldLockedState = some (Flow.proceed m)
        ∧ m.l.current_mode = true ∧ safeStartHold m.s = true)
    ∧ ppm_thread_cycle halfThrottleEnv heldLockedState
        = some (heldLockedState, [Cmd.mc_interface_set_brake_current 5])
    ∧ staleInput slowCruiseEnv = false
    ∧ (initLocals slowCruiseEnv heldLockedState 0).rpm_lowest = 3000
    ∧ (ppm_thread_cycle slowCruiseEnv heldLockedState).map Prod.snd
        = some [Cmd.mc_interface_set_pid_speed 5000, Cmd.mc_interface_set_brake_current 5]
    ∧ lockedState.pid_rpm = 5000
    ∧ ppm_thread_cycle halfThrottleEnv lockedState
        = some ({ lockedState with pid_rpm := 0 },
            [Cmd.comm_can_set_current 1 30, Cmd.mc_interface_set_current 30]) := by
  have hb0 : beforeGate cruiseEnv sampleState = some (Flow.proceed
      { s := { sampleState with pid_rpm := 5000, pulses_without_power := 1 }
        l := { servo_val := 0, current := 0, current_mode := false, current_mode_brake := false
               send_duty := true, rpm_local := 6000, rpm_lowest := 5000
               cruise_control_status := true }
        out := [Cmd.mc_interface_set_pid_speed 5000] }) := by
    norm_num [beforeGate, shapeInput, dispatch, initLocals, findLowest, lowestStep, fresh, fabsf,
      caseCurrent, cruiseHandoff, countPulse, modeSwitch, int_incr, MAX_CAN_AGE,
      CRUISE_CONTROL_ACTIVE, cruiseEnv, sampleEnv, sampleState, sampleConfig, sampleMcconf]
  have hb1 : beforeGate halfThrottleEnv firstLockState = some (Flow.proceed
      { s := firstLockState
        l := { servo_val := 1 / 2, current := 30, current_mode := true
               current_mode_brake := false, send_duty := false, rpm_local := 1000
               rpm_lowest := 500, cruise_control_status := false }
        out := [] }) := by
    norm_num [beforeGate, shapeInput, dispatch, initLocals, findLowest, lowestStep, fresh, fabsf,
      caseCurrent, cruiseHandoff, countPulse, modeSwitch, int_incr, MAX_CAN_AGE,
      CRUISE_CONTROL_ACTIVE, halfThrottleEnv, firstLockState, sampleEnv, sampleState,
      sampleConfig, sampleMcconf]
  have hb2 : beforeGate halfThrottleEnv heldLockedState = some (Flow.proceed
      { s := heldLockedState
        l := { servo_val := 1 / 2, current := 30, current_mode := true
               current_mode_brake := false, send_duty := false, rpm_local := 1000
               rpm_lowest := 500, cruise_control_status := false }
        out := [] }) := by
    norm_num [beforeGate, shapeInput, dispatch, initLocals, findLowest, lowestStep, fresh, fabsf,
      caseCurrent, cruiseHandoff, countPulse, modeSwitch, int_incr, MAX_CAN_AGE,
      CRUISE_CONTROL_ACTIVE, halfThrottleEnv, heldLockedState, sampleEnv, sampleState,
      sampleConfig, sampleMcconf]
  have hb3 : beforeGate slowCruiseEnv heldLockedState = some (Flow.proceed
      { s := { heldLockedState with pulses_without_power := 1 }
        l := { servo_val := 0, current := 0, current_mode := false, current_mode_brake := false
               send_duty := true, rpm_local := 3500, rpm_lowest := 3000
               cruise_control_status := true }
        out := [Cmd.mc_interface_set_pid_speed 5000] }) := by
    norm_num [beforeGate, shapeInput, dispatch, initLocals, findLowest, lowestStep, fresh, fabsf,
      caseCurrent, cruiseHandoff, countPulse, modeSwitch, int_incr, MAX_CAN_AGE,
      CRUISE_CONTROL_ACTIVE, slowCruiseEnv, heldLockedState, sampleEnv, sampleState,
      sampleConfig, sampleMcconf]
  have hb4 : beforeGate halfThrottleEnv lockedState = some (Flow.proceed
      { s := lockedState
        l := { servo_val := 1 / 2, current := 30, current_mode := true
               current_mode_brake := false, send_duty := false, rpm_local := 1000
               rpm_lowest := 500, cruise_control_status := false }
        out := [] }) := by
    norm_num [beforeGate, shapeInput, dispatch, initLocals, findLowest, lowestStep, fresh, fabsf,
      caseCurrent, cruiseHandoff, countPulse, modeSwitch, int_incr, MAX_CAN_AGE,
      CRUISE_CONTROL_ACTIVE, halfThrottleEnv, lockedState, sampleEnv, sampleState,
      sampleConfig, sampleMcconf]
  refine ⟨rfl, ?_, by decide, ⟨_, hb1, rfl, by decide⟩, ?_, rfl, ⟨_, hb2, rfl, by decide⟩, ?_,
    by decide, ?_, ?_, rfl, ?_⟩
  · rw [cycle_of_beforeGate _ _ _ (by decide) hb0, afterGate_hold _ _ (by decide)]
    norm_num [firstLockState, sampleState, cruiseEnv, sampleEnv]
  · rw [cycle_of_beforeGate _ _ _ (by decide) hb1, afterGate_hold _ _ (by decide)]
    norm_num [firstLockState, heldLockedState, sampleState, halfThrottleEnv, sampleEnv]
  · rw [cycle_of_beforeGate _ _ _ (by decide) hb2, afterGate_hold _ _ (by decide)]
    norm_num [heldLockedState, sampleState, halfThrottleEnv, sampleEnv]
  · norm_num [initLocals, findLowest, lowestStep, fresh, fabsf, MAX_CAN_AGE, slowCruiseEnv,
      heldLockedState, sampleEnv, sampleState, sampleConfig]
  · rw [cycle_of_beforeGate _ _ _ (by decide) hb3, afterGate_hold _ _ (by decide)]
    norm_num [slowCruiseEnv, sampleEnv]
  · rw [cycle_of_beforeGate _ _ _ (by decide) hb4, afterGate_pass _ _ (by decide)]
    norm_num [currentOutput, dutyBroadcast, softRpmLimit, currentCommands, tcPeerStep, fresh,
      MAX_CAN_AGE, halfThrottleEnv, lockedState, sampleEnv, sampleState, sampleConfig,
      sampleMcconf]

/-- C13 (counterexample).  In cruise secondary-channel mode with the flag active, a
cycle with input 1/10 sets the flag inactive. -/
theorem cruise_flag_not_held_inside_band :
    staleInput tenthThrottleEnv = false
    ∧ cruiseChannelState.config.ctrl_type = PPM_CTRL_TYPE_CRUISE_CONTROL_SECONDARY_CHANNEL
    ∧ cruiseChannelState.cruise_control_status = CRUISE_CONTROL_ACTIVE
    ∧ shapeInput tenthThrottleEnv cruiseChannelState = some (1 / 10)
    ∧ ∃ s' out, ppm_thread_cycle tenthThrottleEnv cruiseChannelState = some (s', out)
        ∧ s'.cruise_control_status = CRUISE_CONTROL_INACTIVE
        ∧ out = [Cmd.mc_interface_set_cruise_control_status CRUISE_CONTROL_INACTIVE,
                 Cmd.timeout_reset] := by
  have hshape : shapeInput tenthThrottleEnv cruiseChannelState = some (1 / 10) := by
    norm_num [shapeInput, tenthThrottleEnv, cruiseChannelState, sampleEnv, sampleState,
      sampleConfig]
  refine ⟨by decide, rfl, rfl, hshape, ?_⟩
  rw [cruise_channel_cycle tenthThrottleEnv cruiseChannelState (1 / 10) (by decide) rfl hshape]
  refine ⟨_, _, rfl, ?_, ?_⟩
  · norm_num
  · norm_num

/-- C13 (amended).  In cruise secondary-channel mode the flag after a cycle depends
on the input of that cycle only: active for an input `>= 0.3` or `<= -0.3`,
inactive for an input strictly inside `(-0.3, 0.3)`; the calls are the flag
write and the watchdog reset. -/
theorem cruise_flag_follows_input (env : Env) (s : State) (v : ℚ)
    (hfresh : staleInput env = false)
    (hmode : s.config.ctrl_type = PPM_CTRL_TYPE_CRUISE_CONTROL_SECONDARY_CHANNEL)
    (hshape : shapeInput env s = some v) :
    ∃ s' out, ppm_thread_cycle env s = some (s', out)
      ∧ ((v ≥ 3 / 10 ∨ v ≤ -(3 / 10)) → s'.cruise_control_status = CRUISE_CONTROL_ACTIVE
          ∧ out = [Cmd.mc_interface_set_cruise_control_status CRUISE_CONTROL_ACTIVE,
                   Cmd.timeout_reset])
      ∧ ((-(3 / 10) < v ∧ v < 3 / 10) → s'.cruise_control_status = CRUISE_CONTROL_INACTIVE
          ∧ out = [Cmd.mc_interface_set_cruise_control_status CRUISE_CONTROL_INACTIVE,
                   Cmd.timeout_reset]) := by
  rw [cruise_channel_cycle env s v hfresh hmode hshape]
  refine ⟨_, _, rfl, ?_, ?_⟩
  · intro h
    simp [h]
  · intro h
    have hn : ¬ (v ≥ 3 / 10 ∨ v ≤ -(3 / 10)) := by
      rintro (h1 | h1)
      · exact absurd h.2 (not_lt.mpr h1)
      · exact absurd h.1 (not_lt.mpr h1)
    simp [hn]

/-- C13 (amended), at input 1/10 with the flag active before. -/
theorem cruise_flag_follows_input_witness :
    ∃ s' out, ppm_thread_cycle tenthThrottleEnv cruiseChannelState = some (s', out)
      ∧ s'.cruise_control_status = CRUISE_CONTROL_INACTIVE := by
  have hshape : shapeInput tenthThrottleEnv cruiseChannelState = some (1 / 10) := by
    norm_num [shapeInput, tenthThrottleEnv, cruiseChannelState, sampleEnv, sampleState,
      sampleConfig]
  obtain ⟨s', out, hc, -, hin⟩ :=
    cruise_flag_follows_input tenthThrottleEnv cruiseChannelState (1 / 10) (by decide) rfl hshape
  exact ⟨s', out, hc, (hin (by norm_num)).1⟩

/-- C14 (counterexample).  A hand-off cycle past the gate with one fresh peer: the
calls are the local locked speed 5000 and a duty command to the peer; the peer
receives no locked-speed command. -/
theorem handoff_peer_gets_no_locked_speed :
    staleInput cruiseEnv = false
    ∧ passedState.config.ctrl_type = PPM_CTRL_TYPE_CURRENT
    ∧ passedState.config.multi_esc = true
    ∧ (∃ m, beforeGate cruiseEnv passedState = some (Flow.proceed m)
        ∧ safeStartHold m.s = false)
    ∧ ∃ s' out, ppm_thread_cycle cruiseEnv passedState = some (s', out)
        ∧ s'.pid_rpm = 5000
        ∧ out = [Cmd.mc_interface_set_pid_speed 5000, Cmd.comm_can_set_duty 1 (1 / 10)]
        ∧ ¬ ∃ rpm watt, Cmd.comm_can_set_rpm_and_watt 1 rpm watt ∈ out := by
  have hb : beforeGate cruiseEnv passedState = some (Flow.proceed
      { s := { passedState with pid_rpm := 5000, pulses_without_power := 61 }
        l := { servo_val := 0, current := 0, current_mode := false, current_mode_brake := false
               send_duty := true, rpm_local := 6000, rpm_lowest := 5000
               cruise_control_status := true }
        out := [Cmd.mc_interface_set_pid_speed 5000] }) := by
    norm_num [beforeGate, shapeInput, dispatch, initLocals, findLowest, lowestStep, fresh, fabsf,
      caseCurrent, cruiseHandoff, countPulse, modeSwitch, int_incr, MAX_CAN_AGE,
      CRUISE_CONTROL_ACTIVE, cruiseEnv, passedState, sampleEnv, sampleState, sampleConfig,
      sampleMcconf]
  have hc : ppm_thread_cycle cruiseEnv passedState
      = some ({ passedState with pid_rpm := 5000, pulses_without_power := 61 },
              [Cmd.mc_interface_set_pid_speed 5000, Cmd.comm_can_set_duty 1 (1 / 10)]) := by
    rw [cycle_of_beforeGate _ _ _ (by decide) hb, afterGate_pass _ _ (by decide)]
    norm_num [currentOutput, dutyBroadcast, toFreshPeers, fresh, MAX_CAN_AGE, passedState,
      sampleState, sampleConfig, cruiseEnv, sampleEnv]
  refine ⟨by decide, rfl, rfl, ⟨_, hb, by decide⟩, _, _, hc, rfl, rfl, ?_⟩
  simp

/-- C14 (amended).  In a primary-channel current mode with multi-controller mode
enabled, a cycle past the gate that takes the cruise hand-off issues the locked
speed `pid_rpm` (with the power cap in power-capped mode, if enabled) to the
local drive, and then to each fresh peer a duty command carrying the local
duty cycle. -/
theorem handoff_peers_get_duty (env : Env) (s : State) (m : Frame)
    (hfresh : staleInput env = false)
    (hmode : s.config.ctrl_type = PPM_CTRL_TYPE_CURRENT
      ∨ s.config.ctrl_type = PPM_CTRL_TYPE_CURRENT_NOREV
      ∨ s.config.ctrl_type = PPM_CTRL_TYPE_CURRENT_NOREV_BRAKE
      ∨ s.config.ctrl_type = PPM_CTRL_TYPE_WATT_NOREV_BRAKE)
    (hmulti : s.config.multi_esc = true)
    (hshape : shapeInput env s = some 0)
    (hcruise : (initLocals env s 0).cruise_control_status = true)
    (hband : env.mcconf.s_pid_min_erpm < (initLocals env s 0).rpm_lowest
      ∧ (initLocals env s 0).rpm_lowest < s.config.pid_max_erpm)
    (hgate : beforeGate env s = some (Flow.proceed m))
    (hpass : safeStartHold m.s = false) :
    ∃ s', ppm_thread_cycle env s
        = some (s',
            [if s.config.ctrl_type = PPM_CTRL_TYPE_WATT_NOREV_BRAKE
                ∧ s.config.max_watt_enabled = true then
               Cmd.mc_interface_set_pid_speed_and_watt s'.pid_rpm s.config.max_watt
             else Cmd.mc_interface_set_pid_speed s'.pid_rpm]
            ++ (env.peers.filter (fun msg => decide (0 ≤ msg.id ∧ msg.age < 1 / 10))).map
                 (fun msg => Cmd.comm_can_set_duty msg.id env.mc_interface_get_duty_cycle_now))
      ∧ s'.pid_rpm = (if s.pid_rpm = 0 then (initLocals env s 0).rpm_lowest else s.pid_rpm) := by
  have hm : s.config.ctrl_type ∈ cruiseModes := by
    simp only [cruiseModes, List.mem_cons, List.mem_singleton, List.not_mem_nil, or_false]
    exact hmode
  have hg := beforeGate_handoff env s hm hshape hcruise
  rw [hg] at hgate
  injection hgate with hgate
  injection hgate with hgate
  subst hgate
  obtain ⟨hl1, hl2, hl3⟩ := handoffFrame_in_band env s hband
  obtain ⟨hl4, hl5⟩ := handoffFrame_in_band_broadcast env s hband
  rw [cycle_of_beforeGate env s _ hfresh hg, afterGate_pass env _ hpass]
  have hd : dutyBroadcast env (handoffFrame env s)
      = { s := (handoffFrame env s).s
          l := (handoffFrame env s).l
          out := (handoffFrame env s).out
            ++ toFreshPeers env
                (fun id => Cmd.comm_can_set_duty id env.mc_interface_get_duty_cycle_now) } := by
    unfold dutyBroadcast
    rw [hl4, hl5, hmulti]
    rfl
  rw [hd]
  simp only [currentOutput, hl1, Bool.false_eq_true, if_false, Option.map_some']
  refine ⟨_, ?_, hl2⟩
  rw [hl3, ← fresh_fun_eq]
  rfl

/-- C14 (amended), at a peer at 5000 RPM reporting cruise-active and duty cycle 1/10. -/
theorem handoff_peers_get_duty_witness :
    ∃ s', ppm_thread_cycle cruiseEnv passedState
        = some (s', [Cmd.mc_interface_set_pid_speed 5000, Cmd.comm_can_set_duty 1 (1 / 10)])
      ∧ s'.pid_rpm = 5000 := by
  have hshape : shapeInput cruiseEnv passedState = some 0 := by
    norm_num [shapeInput, cruiseEnv, passedState, sampleEnv, sampleState, sampleConfig]
  have hl : initLocals cruiseEnv passedState 0
      = { servo_val := 0, current := 0, current_mode := false, current_mode_brake := false
          send_duty := false, rpm_local := 6000, rpm_lowest := 5000
          cruise_control_status := true } := by
    norm_num [initLocals, findLowest, lowestStep, fresh, fabsf, MAX_CAN_AGE,
      CRUISE_CONTROL_ACTIVE, cruiseEnv, passedState, sampleEnv, sampleState, sampleConfig]
  have hg := beforeGate_handoff cruiseEnv passedState (by decide) hshape (by rw [hl])
  have hh : safeStartHold (handoffFrame cruiseEnv passedState).s = false := by
    simp only [handoffFrame, hl]
    norm_num [modeSwitch, countPulse, cruiseHandoff, safeStartHold, int_incr,
      MIN_PULSES_WITHOUT_POWER, passedState, sampleState, sampleConfig, cruiseEnv, sampleEnv,
      sampleMcconf]
  obtain ⟨s', hc, hp⟩ := handoff_peers_get_duty cruiseEnv passedState _ (by decide)
    (Or.inl rfl) rfl hshape (by rw [hl])
    (by rw [hl]; norm_num [cruiseEnv, sampleEnv, sampleMcconf, passedState, sampleState,
          sampleConfig])
    hg hh
  rw [hl] at hp
  have hp5 : s'.pid_rpm = 5000 := by
    rw [hp]
    norm_num [passedState, sampleState]
  refine ⟨s', ?_, hp5⟩
  rw [hc, hp5]
  norm_num [passedState, sampleState, sampleConfig, cruiseEnv, sampleEnv]

/-- C15 (counterexample).  A single controller configured for the cruise
secondary channel: after `app_ppm_configure`, one cycle at input 1/2 sets the
controller's own cruise flag active; in the cycle after it, with a cruise-active
peer in the table, lines 209-230 still give the local RPM as lowest RPM and
`false` as aggregated cruise flag, which is not the own flag. -/
theorem single_controller_flag_differs_after_secondary_channel :
    ∃ s1, ppm_thread_cycle halfThrottleEnv singleChannelStart
        = some (s1, [Cmd.mc_interface_set_cruise_control_status CRUISE_CONTROL_ACTIVE,
                     Cmd.timeout_reset])
      ∧ Reachable s1
      ∧ s1.config.multi_esc = false
      ∧ s1.cruise_control_status = CRUISE_CONTROL_ACTIVE
      ∧ staleInput halfThrottleCruiseEnv = false
      ∧ shapeInput halfThrottleCruiseEnv s1 = some (1 / 2)
      ∧ (initLocals halfThrottleCruiseEnv s1 (1 / 2)).rpm_lowest = 6000
      ∧ (initLocals halfThrottleCruiseEnv s1 (1 / 2)).cruise_control_status = false
      ∧ ¬ ((initLocals halfThrottleCruiseEnv s1 (1 / 2)).cruise_control_status = true
            ↔ s1.cruise_control_status = CRUISE_CONTROL_ACTIVE) := by
  have hc : ppm_thread_cycle halfThrottleEnv singleChannelStart
      = some ({ singleChannelStart with cruise_control_status := CRUISE_CONTROL_ACTIVE },
          [Cmd.mc_interface_set_cruise_control_status CRUISE_CONTROL_ACTIVE,
           Cmd.timeout_reset]) := by
    norm_num [ppm_thread_cycle, staleInput, beforeGate, shapeInput, dispatch, caseCruiseSecondary,
      initLocals, findLowest, FAULT_CODE_NONE, CRUISE_CONTROL_ACTIVE, CRUISE_CONTROL_INACTIVE,
      singleChannelStart, singleChannelConfig, app_ppm_configure, halfThrottleEnv, sampleEnv,
      sampleState, sampleConfig]
  have hl : (initLocals halfThrottleCruiseEnv
      { singleChannelStart with cruise_control_status := CRUISE_CONTROL_ACTIVE }
      (1 / 2)).cruise_control_status = false := by
    simp [initLocals, findLowest, singleChannelStart, singleChannelConfig, app_ppm_configure]
  refine ⟨_, hc, Reachable.cycle _ _ _ _ (Reachable.configure _ _) hc, rfl, rfl, by decide,
    ?_, ?_, hl, ?_⟩
  · norm_num [shapeInput, singleChannelStart, singleChannelConfig, app_ppm_configure,
      halfThrottleCruiseEnv, cruiseEnv, sampleEnv, sampleConfig]
  · norm_num [initLocals, findLowest, singleChannelStart, singleChannelConfig, app_ppm_configure,
      halfThrottleCruiseEnv, cruiseEnv, sampleEnv]
  · rw [hl]
    simp [CRUISE_CONTROL_ACTIVE]

/-- C15 (amended).  With multi-controller mode off, for every peer table, the lowest
RPM used by the cycle is the local RPM and the cruise flag used by the cycle is
false.  In a state reached from `app_ppm_configure` whose control mode is not the
cruise secondary channel the controller's own cruise flag is inactive, so there
the flag used by the cycle is true exactly when the own flag is active. -/
theorem single_controller_aggregate (env : Env) (s : State) (servo_val : ℚ)
    (hsingle : s.config.multi_esc = false) :
    (initLocals env s servo_val).rpm_lowest = env.mc_interface_get_rpm
    ∧ (initLocals env s servo_val).cruise_control_status = false
    ∧ (Reachable s →
        s.config.ctrl_type ≠ PPM_CTRL_TYPE_CRUISE_CONTROL_SECONDARY_CHANNEL →
        s.cruise_control_status = CRUISE_CONTROL_INACTIVE
        ∧ ((initLocals env s servo_val).cruise_control_status = true
            ↔ s.cruise_control_status = CRUISE_CONTROL_ACTIVE)) := by
  have h1 : (initLocals env s servo_val).rpm_lowest = env.mc_interface_get_rpm := by
    simp [initLocals, findLowest, hsingle]
  have h2 : (initLocals env s servo_val).cruise_control_status = false := by
    simp [initLocals, findLowest, hsingle]
  refine ⟨h1, h2, fun hr hmode => ?_⟩
  have h3 := reachable_flag_inactive s hr hmode
  refine ⟨h3, ?_⟩
  rw [h2, h3]
  simp [CRUISE_CONTROL_ACTIVE, CRUISE_CONTROL_INACTIVE]

/-- C15 (amended), right after `app_ppm_configure` in current mode on a single
controller, at local RPM 6000 with a cruise-active peer in the table. -/
theorem single_controller_aggregate_witness :
    (initLocals cruiseEnv (app_ppm_configure singleConfig sampleState).1 0).rpm_lowest = 6000
    ∧ (initLocals cruiseEnv (app_ppm_configure singleConfig sampleState).1 0).cruise_control_status
        = false
    ∧ (app_ppm_configure singleConfig sampleState).1.cruise_control_status
        = CRUISE_CONTROL_INACTIVE
    ∧ ((initLocals cruiseEnv (app_ppm_configure singleConfig sampleState).1 0).cruise_control_status
          = true
        ↔ (app_ppm_configure singleConfig sampleState).1.cruise_control_status
            = CRUISE_CONTROL_ACTIVE) := by
  obtain ⟨h1, h2, h3⟩ :=
    single_controller_aggregate cruiseEnv (app_ppm_configure singleConfig sampleState).1 0 rfl
  obtain ⟨h4, h5⟩ := h3 (Reachable.configure _ _) (by decide)
  exact ⟨h1, h2, h4, h5⟩

/-- C16.  In power-capped mode with input `s >= 0` and no cruise hand-off, the
current is the minimum of `l_current_max`, of `c0`, and (with ramp-by-current
enabled) of `s * l_current_max * max_watt_ramp_factor`, where `c0` is
`s * max_watt / motor_voltage` with the power cap enabled (motor voltage not 0)
and `s` times the max current at the present motor voltage otherwise; it is at
most `l_current_max`. -/
theorem watt_mode_forward_current (env : Env) (m : Frame)
    (hpos : 0 ≤ m.l.servo_val)
    (hno : ¬ (m.l.cruise_control_status = true ∧ m.l.servo_val = 0))
    (hv : m.s.config.max_watt_enabled = true → env.mc_interface_get_motor_voltage ≠ 0) :
    ∃ m', caseWattNorevBrake env m = some m'
      ∧ m'.l.current
          = min env.mcconf.l_current_max
              (if m.s.config.max_watt_ramp_by_current then
                  min (m.l.servo_val * env.mcconf.l_current_max * m.s.config.max_watt_ramp_factor)
                    (if m.s.config.max_watt_enabled then
                        m.l.servo_val * m.s.config.max_watt / env.mc_interface_get_motor_voltage
                      else
                        m.l.servo_val * env.mc_interface_get_max_current_at_current_motor_voltage)
                else
                  (if m.s.config.max_watt_enabled then
                      m.l.servo_val * m.s.config.max_watt / env.mc_interface_get_motor_voltage
                    else
                      m.l.servo_val * env.mc_interface_get_max_current_at_current_motor_voltage))
      ∧ m'.l.current ≤ env.mcconf.l_current_max
      ∧ m'.l.current_mode = true ∧ m'.l.current_mode_brake = m.l.current_mode_brake := by
  have hc : (m.l.cruise_control_status && decide (m.l.servo_val = 0)) = false := by
    by_contra h
    simp only [Bool.not_eq_false, Bool.and_eq_true, decide_eq_true_eq] at h
    exact hno h
  have hl : ∀ (c : Bool) (m0 : Frame), (countPulse c m0).l = m0.l := by
    intro c m0
    unfold countPulse
    split_ifs <;> rfl
  unfold caseWattNorevBrake
  simp only [ge_iff_le, hpos, if_true, hc, Bool.false_eq_true, if_false,
    wattCurrent_eq_min env m.s.config m.l.servo_val hv, Option.map_some']
  refine ⟨_, rfl, ?_, ?_, ?_, ?_⟩
  · rw [hl]
  · rw [hl]
    exact min_le_left _ _
  · rw [hl]
  · rw [hl]

/-- C16, at `s = 1/2`, 1500 W, 40 V, `l_current_max` 60 and ramp factor 1/2: 15. -/
theorem watt_mode_forward_current_witness :
    ∃ m', caseWattNorevBrake halfThrottleEnv
        { s := wattState, l := initLocals halfThrottleEnv wattState (1 / 2), out := [] } = some m'
      ∧ m'.l.current = 15 := by
  obtain ⟨m', h, hc, -⟩ := watt_mode_forward_current halfThrottleEnv
    { s := wattState, l := initLocals halfThrottleEnv wattState (1 / 2), out := [] }
    (by norm_num [initLocals]) (by norm_num [initLocals])
    (by intro _; norm_num [halfThrottleEnv, sampleEnv])
  refine ⟨m', h, ?_⟩
  rw [hc]
  norm_num [initLocals, wattState, sampleConfig, halfThrottleEnv, sampleEnv, sampleMcconf]

/-- C17.  For pairwise distinct `x0..x4` and every `t`, the Neville loop ends with
`f[4]` equal to the value at `t` of the Lagrange interpolation polynomial
through `(x0,y0)..(x4,y4)`, which has degree below 5 and takes the value `y_k`
at `x_k`.  With `x0 = 0` and blend factor 0, `neville t` is that value clamped
to `[0, 1]`, and `neville x_k = y_k` for every `k` with `y_k` in `[0, 1]`. -/
theorem neville_is_lagrange (x0 x1 x2 x3 x4 y0 y1 y2 y3 y4 t : ℚ)
    (h : (([x0, x1, x2, x3, x4] : List ℚ).Pairwise (fun a b => a ≠ b))) :
    (∃ f, nevilleLoop [x0, x1, x2, x3, x4] [y0, y1, y2, y3, y4] t = some f
      ∧ idx f 4 = Polynomial.eval t
          (Lagrange.interpolate (Finset.Icc 0 4) (idx [x0, x1, x2, x3, x4])
            (idx [y0, y1, y2, y3, y4])))
    ∧ (Lagrange.interpolate (Finset.Icc 0 4) (idx [x0, x1, x2, x3, x4])
          (idx [y0, y1, y2, y3, y4])).degree < 5
    ∧ (∀ k, k ≤ 4 →
        Polynomial.eval (idx [x0, x1, x2, x3, x4] k)
          (Lagrange.interpolate (Finset.Icc 0 4) (idx [x0, x1, x2, x3, x4])
            (idx [y0, y1, y2, y3, y4])) = idx [y0, y1, y2, y3, y4] k)
    ∧ (x0 = 0 →
        neville [x0, x1, x2, x3, x4] [y0, y1, y2, y3, y4] 0 t
          = some (max 0 (min 1 (Polynomial.eval t
              (Lagrange.interpolate (Finset.Icc 0 4) (idx [x0, x1, x2, x3, x4])
                (idx [y0, y1, y2, y3, y4]))))))
    ∧ (x0 = 0 → ∀ k, k ≤ 4 →
        0 ≤ idx [y0, y1, y2, y3, y4] k → idx [y0, y1, y2, y3, y4] k ≤ 1 →
        neville [x0, x1, x2, x3, x4] [y0, y1, y2, y3, y4] 0 (idx [x0, x1, x2, x3, x4] k)
          = some (idx [y0, y1, y2, y3, y4] k)) := by
  have hinj := idx_injOn_of_pairwise x0 x1 x2 x3 x4 h
  have hnode : ∀ k, k ≤ 4 →
      Polynomial.eval (idx [x0, x1, x2, x3, x4] k)
        (Lagrange.interpolate (Finset.Icc 0 4) (idx [x0, x1, x2, x3, x4])
          (idx [y0, y1, y2, y3, y4])) = idx [y0, y1, y2, y3, y4] k := by
    intro k hk
    exact Lagrange.eval_interpolate_at_node _ hinj (Finset.mem_Icc.mpr ⟨Nat.zero_le k, hk⟩)
  have hnev : ∀ u : ℚ, x0 = 0 →
      neville [x0, x1, x2, x3, x4] [y0, y1, y2, y3, y4] 0 u
        = some (max 0 (min 1 (Polynomial.eval u
            (Lagrange.interpolate (Finset.Icc 0 4) (idx [x0, x1, x2, x3, x4])
              (idx [y0, y1, y2, y3, y4]))))) := by
    intro u hx0
    have hx1 : x1 ≠ 0 := by
      have h01 : x0 ≠ x1 := by
        simp only [List.pairwise_cons, List.mem_cons, List.mem_singleton, forall_eq_or_imp,
          forall_eq] at h
        exact h.1.1
      rw [hx0] at h01
      exact Ne.symm h01
    obtain ⟨d, hd⟩ := directSteps_defined_of_pairwise x0 x1 x2 x3 x4 y0 y1 y2 y3 y4 u h hx1
    obtain ⟨f, hf, hf4⟩ := nevilleLoop_interpolate [x0, x1, x2, x3, x4] y0 y1 y2 y3 y4 u hinj
    unfold neville
    rw [hd, hf]
    simp only [Option.bind_eq_bind, Option.some_bind, Option.pure_def, mul_zero, sub_zero]
    rw [nevilleClamp_eq, hf4]
  refine ⟨nevilleLoop_interpolate [x0, x1, x2, x3, x4] y0 y1 y2 y3 y4 t hinj, ?_, hnode,
    hnev t, ?_⟩
  · have hdeg := Lagrange.degree_interpolate_lt (idx [y0, y1, y2, y3, y4]) hinj
    simpa using hdeg
  · intro hx0 k hk h0 h1
    rw [hnev _ hx0, hnode k hk, min_eq_right h1, max_eq_right h0]

/-- C17, at the non-monotonic points `x = (0, 4/5, 1/5, 3/4, 1)`: `neville (1/5)` is
`y2 = 1/3`. -/
theorem neville_is_lagrange_witness :
    neville [0, 4 / 5, 1 / 5, 3 / 4, 1] [0, 1 / 2, 1 / 3, 1 / 2, 1] 0 (1 / 5) = some (1 / 3) := by
  have h := (neville_is_lagrange 0 (4 / 5) (1 / 5) (3 / 4) 1 0 (1 / 2) (1 / 3) (1 / 2) 1 0 (by
    simp only [List.pairwise_cons, List.mem_cons, List.mem_singleton, forall_eq_or_imp, forall_eq,
      List.not_mem_nil, false_implies, implies_true, List.Pairwise.nil, and_true]
    norm_num)).2.2.2.2 rfl 2 (by decide) (by norm_num [idx]) (by norm_num [idx])
  simpa [idx] using h

/-- C18.  In a cycle past the gate on the non-brake current path, with
`tc_offset < tc_max_diff` and `cc_min_current >= 0`, the calls of the cycle are
current commands only, one of them local, and each value lies between 0 and the
base current after the soft RPM limit (between the base and 0 for a negative
base). -/
theorem current_commands_bounded (env : Env) (s : State) (m : Frame) (base : ℚ)
    (hfresh : staleInput env = false)
    (hgate : beforeGate env s = some (Flow.proceed m))
    (hpass : safeStartHold m.s = false)
    (hmode : m.l.current_mode = true)
    (hbrake : m.l.current_mode_brake = false)
    (hoff : s.config.tc_offset < s.config.tc_max_diff)
    (hmin : 0 ≤ env.mcconf.cc_min_current)
    (hbase : softRpmLimit s.config env.mcconf m.l.rpm_lowest m.l.current = some base) :
    ∃ s' out, ppm_thread_cycle env s = some (s', out)
      ∧ (∃ v, Cmd.mc_interface_set_current v ∈ out)
      ∧ ∀ cmd ∈ out, ∃ v,
          (cmd = Cmd.mc_interface_set_current v ∨ ∃ id, cmd = Cmd.comm_can_set_current id v)
          ∧ (0 ≤ base → 0 ≤ v ∧ v ≤ base)
          ∧ (base ≤ 0 → base ≤ v ∧ v ≤ 0) := by
  have hcfg : m.s.config = s.config := (beforeGate_settings env s m hgate).1
  obtain ⟨hout, hduty⟩ := beforeGate_pure_current env s m hgate hmode
  have hd : dutyBroadcast env m = m := by
    unfold dutyBroadcast
    simp [hduty]
  have hco : currentOutput env m
      = currentCommands env { m with s := { m.s with pid_rpm := 0 } } base := by
    unfold currentOutput
    simp only [hmode, hbrake, if_true, Bool.false_eq_true, if_false, hcfg, hbase,
      Option.some_bind]
  rw [cycle_of_beforeGate env s m hfresh hgate, afterGate_pass env m hpass, hd, hco]
  obtain ⟨m', hm'⟩ := currentCommands_defined env { m with s := { m.s with pid_rpm := 0 } } base
    (by
      intro _
      show m.s.config.tc_max_diff ≠ m.s.config.tc_offset
      rw [hcfg]
      exact ne_of_gt hoff)
  have ha : 0 ≤ (if decide (base < 0) = true then -base else base) := by
    by_cases hb : base < 0
    · simp only [hb, decide_True, if_true]
      linarith
    · simp only [hb, decide_False, Bool.false_eq_true, if_false]
      exact not_lt.mp hb
  obtain ⟨new, hnew, hall⟩ := currentCommands_cmds env _ m' base
    (fun v => 0 ≤ v ∧ v ≤ (if decide (base < 0) = true then -base else base))
    (by
      intro diff v hv
      have hv' : tcDerate s.config env.mcconf
          (if decide (base < 0) = true then -base else base) diff = some v := by
        rw [← hcfg]
        exact hv
      exact tcDerate_range s.config env.mcconf _ diff v ha hoff hmin hv')
    ⟨ha, le_refl _⟩ hm'
  rw [hm']
  refine ⟨m'.s, m'.out, rfl, currentCommands_local env _ m' base hm', ?_⟩
  intro cmd hcmd
  rw [hnew] at hcmd
  simp only [hout, List.nil_append] at hcmd
  obtain ⟨v, ⟨hv0, hv1⟩, hshape⟩ := hall cmd hcmd
  by_cases hb : base < 0
  · simp only [hb, decide_True, if_true] at hshape hv1
    refine ⟨-v, hshape, ?_, ?_⟩
    · intro h0
      exact absurd hb (not_lt.mpr h0)
    · intro _
      constructor <;> linarith
  · simp only [hb, decide_False, Bool.false_eq_true, if_false] at hshape hv1
    refine ⟨v, hshape, ?_, ?_⟩
    · intro _
      exact ⟨hv0, hv1⟩
    · intro h0
      have : base = 0 := le_antisymm h0 (not_lt.mp hb)
      subst this
      constructor <;> linarith

/-- C18, at half reverse (base current -30) with traction control on. -/
theorem current_commands_bounded_witness :
    ∃ s' out, ppm_thread_cycle reverseEnv tractionState = some (s', out)
      ∧ (∃ v, Cmd.mc_interface_set_current v ∈ out)
      ∧ ∀ cmd ∈ out, ∃ v,
          (cmd = Cmd.mc_interface_set_current v ∨ ∃ id, cmd = Cmd.comm_can_set_current id v)
          ∧ (0 ≤ (-30 : ℚ) → 0 ≤ v ∧ v ≤ -30)
          ∧ ((-30 : ℚ) ≤ 0 → -30 ≤ v ∧ v ≤ 0) := by
  have hb : beforeGate reverseEnv tractionState = some (Flow.proceed
      { s := tractionState
        l := { servo_val := -(1 / 2), current := -30, current_mode := true
               current_mode_brake := false, send_duty := false, rpm_local := -1500
               rpm_lowest := -500, cruise_control_status := false }
        out := [] }) := by
    norm_num [beforeGate, shapeInput, dispatch, initLocals, findLowest, lowestStep, fresh, fabsf,
      caseCurrent, cruiseHandoff, countPulse, modeSwitch, int_incr, MAX_CAN_AGE,
      CRUISE_CONTROL_ACTIVE, reverseEnv, tractionState, sampleEnv, sampleState,
      sampleConfig, sampleMcconf]
  exact current_commands_bounded reverseEnv tractionState _ (-30) (by decide) hb (by decide)
    rfl rfl (by norm_num [tractionState, sampleConfig])
    (by norm_num [reverseEnv, sampleEnv, sampleMcconf])
    (by norm_num [softRpmLimit, tractionState, sampleConfig, reverseEnv, sampleEnv, sampleMcconf])

/-- C19.  In speed no-acceleration-limit mode, in a cycle with positive input entered
with `pid_rpm = p`, `p` not 0, every locked-speed call of the cycle (local or to
a peer) carries `p` or `p - 10`, a value above 0 and below `pid_max_erpm`, the
filtered RPM is above 1000, and `pid_rpm` ends at that value; when the updated
target is above 0 and below `pid_max_erpm` the cycle has a result and issues it
locally. -/
theorem no_accel_target_step (env : Env) (s : State) (v : ℚ)
    (hfresh : staleInput env = false)
    (hmode : s.config.ctrl_type = PPM_CTRL_TYPE_PID_NOACCELERATION)
    (hshape : shapeInput env s = some v)
    (hv : 0 < v)
    (hp : s.pid_rpm ≠ 0) :
    (∀ s' out, ppm_thread_cycle env s = some (s', out) →
      ∀ rpm watt,
        (Cmd.mc_interface_set_pid_speed_and_watt rpm watt ∈ out
          ∨ ∃ id, Cmd.comm_can_set_rpm_and_watt id rpm watt ∈ out) →
        (rpm = s.pid_rpm ∨ rpm = s.pid_rpm - 10)
        ∧ 0 < rpm ∧ rpm < s.config.pid_max_erpm
        ∧ 1000 < (rpmFilter s (initLocals env s v).rpm_lowest).2
        ∧ s'.pid_rpm = rpm)
    ∧ ((0 < lowerPid s.pid_rpm (rpmFilter s (initLocals env s v).rpm_lowest).2
          ∧ lowerPid s.pid_rpm (rpmFilter s (initLocals env s v).rpm_lowest).2
              < s.config.pid_max_erpm) →
        ∃ s' out, ppm_thread_cycle env s = some (s', out)
          ∧ Cmd.mc_interface_set_pid_speed_and_watt
              (lowerPid s.pid_rpm (rpmFilter s (initLocals env s v).rpm_lowest).2)
              s.config.max_watt ∈ out) := by
  have hg := beforeGate_pidNoaccel env s v hmode hshape
  obtain ⟨hpid, hissue, hnone⟩ := pidNoaccel_frame env s v hv
  obtain ⟨hml, hmo⟩ := modeSwitch_l
    (casePidNoacceleration env { s := s, l := initLocals env s v, out := [] })
  have hmp : (modeSwitch
      (casePidNoacceleration env { s := s, l := initLocals env s v, out := [] })).s.pid_rpm
      = lowerPid s.pid_rpm (rpmFilter s (initLocals env s v).rpm_lowest).2 := by
    rw [← hpid]
    unfold modeSwitch
    split_ifs <;> rfl
  rw [cycle_of_beforeGate env s _ hfresh hg]
  constructor
  · intro s' out hc rpm watt hin
    have hmem : ∀ cmd ∈ out, isLockedSpeed cmd = true →
        cmd ∈ (casePidNoacceleration env { s := s, l := initLocals env s v, out := [] }).out := by
      intro cmd hcmd hl
      rw [← hmo]
      exact afterGate_no_new_lock env _ s' out hc cmd hcmd hl
    by_cases hi : 0 < lowerPid s.pid_rpm (rpmFilter s (initLocals env s v).rpm_lowest).2
        ∧ lowerPid s.pid_rpm (rpmFilter s (initLocals env s v).rpm_lowest).2
            < s.config.pid_max_erpm
    · obtain ⟨hcm, hout⟩ := hissue hi
      have hrpm : rpm = lowerPid s.pid_rpm (rpmFilter s (initLocals env s v).rpm_lowest).2 := by
        rcases hin with h1 | ⟨id, h1⟩
        · have := hmem _ h1 rfl
          rw [hout] at this
          rcases List.mem_append.mp this with h2 | h2
          · rw [List.mem_singleton] at h2
            injection h2
          · split_ifs at h2
            · unfold toFreshPeers at h2
              simp only [List.mem_map] at h2
              obtain ⟨msg, -, hmsg⟩ := h2
              cases hmsg
            · cases h2
        · have := hmem _ h1 rfl
          rw [hout] at this
          rcases List.mem_append.mp this with h2 | h2
          · rw [List.mem_singleton] at h2
            cases h2
          · split_ifs at h2
            · unfold toFreshPeers at h2
              simp only [List.mem_map] at h2
              obtain ⟨msg, -, hmsg⟩ := h2
              injection hmsg with _ hr _
              exact hr.symm
            · cases h2
      obtain ⟨hstep, hrf⟩ := lowerPid_step s.pid_rpm _ hp hi.1
      obtain ⟨t', out', hag, hpid', -⟩ := afterGate_locked env (modeSwitch
        (casePidNoacceleration env { s := s, l := initLocals env s v, out := [] }))
        (by rw [hml]; exact hcm)
      rw [hc] at hag
      injection hag with hag
      injection hag with hs' _
      rw [hrpm]
      refine ⟨hstep, hi.1, hi.2, hrf, ?_⟩
      rw [hs', hpid', hmp]
    · exfalso
      have hempty := hnone hi
      rcases hin with h1 | ⟨id, h1⟩
      · have := hmem _ h1 rfl
        rw [hempty] at this
        cases this
      · have := hmem _ h1 rfl
        rw [hempty] at this
        cases this
  · intro hi
    obtain ⟨hcm, hout⟩ := hissue hi
    obtain ⟨t', out', hag, -, hsub⟩ := afterGate_locked env (modeSwitch
      (casePidNoacceleration env { s := s, l := initLocals env s v, out := [] }))
      (by rw [hml]; exact hcm)
    refine ⟨t', out', hag, hsub _ ?_⟩
    rw [hmo, hout]
    exact List.mem_append_left _ (List.mem_singleton.mpr rfl)

/-- C19, at `p = 7000` and a filtered RPM of 5000: the target issued is 6990. -/
theorem no_accel_target_step_witness :
    ∃ s' out, ppm_thread_cycle halfThrottleCruiseEnv noAccelLockedState = some (s', out)
      ∧ Cmd.mc_interface_set_pid_speed_and_watt 6990 1500 ∈ out
      ∧ s'.pid_rpm = 6990 := by
  have hshape : shapeInput halfThrottleCruiseEnv noAccelLockedState = some (1 / 2) := by
    norm_num [shapeInput, halfThrottleCruiseEnv, noAccelLockedState, cruiseEnv, sampleEnv,
      sampleState, sampleConfig]
  have hl : lowerPid noAccelLockedState.pid_rpm
      (rpmFilter noAccelLockedState
        (initLocals halfThrottleCruiseEnv noAccelLockedState (1 / 2)).rpm_lowest).2 = 6990 := by
    norm_num [lowerPid, rpmFilter, initLocals, findLowest, lowestStep, fresh, fabsf, idx,
      MAX_CAN_AGE, RPM_FILTER_SAMPLES, CRUISE_CONTROL_ACTIVE, halfThrottleCruiseEnv,
      noAccelLockedState, cruiseEnv, sampleEnv, sampleState, sampleConfig, List.range,
      List.range.loop]
  obtain ⟨hall, hex⟩ := no_accel_target_step halfThrottleCruiseEnv noAccelLockedState (1 / 2)
    (by decide) rfl hshape (by norm_num) (by norm_num [noAccelLockedState])
  rw [hl] at hex
  obtain ⟨s', out, hc, hin⟩ := hex (by norm_num [noAccelLockedState, sampleConfig])
  have hin' : Cmd.mc_interface_set_pid_speed_and_watt 6990 1500 ∈ out := by
    simpa [noAccelLockedState, sampleConfig] using hin
  exact ⟨s', out, hc, hin', (hall s' out hc 6990 1500 (Or.inl hin')).2.2.2.2⟩

/-- C20 (failing input).  With the band from 1000 to 2000 RPM and `cc_min_current`
1/20: beyond the end of the band the limit is `+1/20` both for `(3000, 10)` and
for `(-3000, -10)`, while inside the band `(1500, 10)` gives `201/40` and
`(-1500, -10)` gives `-201/40`; a cycle at half reverse and -3000 RPM commands
the current `+1/20`. -/
theorem soft_limit_reverse_end_not_negated :
    softRpmLimit limitState.config sampleMcconf 3000 10 = some (1 / 20)
    ∧ softRpmLimit limitState.config sampleMcconf (-3000) (-10) = some (1 / 20)
    ∧ softRpmLimit limitState.config sampleMcconf 1500 10 = some (201 / 40)
    ∧ softRpmLimit limitState.config sampleMcconf (-1500) (-10) = some (-(201 / 40))
    ∧ (ppm_thread_cycle fastReverseEnv limitState).map Prod.snd
        = some [Cmd.mc_interface_set_current (1 / 20)] := by
  refine ⟨?_, ?_, ?_, ?_, ?_⟩
  · norm_num [softRpmLimit, limitState, sampleConfig, sampleMcconf]
  · norm_num [softRpmLimit, limitState, sampleConfig, sampleMcconf]
  · norm_num [softRpmLimit, utils_map, fdiv, limitState, sampleConfig, sampleMcconf]
  · norm_num [softRpmLimit, utils_map, fdiv, limitState, sampleConfig, sampleMcconf]
  · have hb : beforeGate fastReverseEnv limitState = some (Flow.proceed
        { s := limitState
          l := { servo_val := -(1 / 2), current := -30, current_mode := true
                 current_mode_brake := false, send_duty := false, rpm_local := -3000
                 rpm_lowest := -3000, cruise_control_status := false }
          out := [] }) := by
      norm_num [beforeGate, shapeInput, dispatch, initLocals, findLowest, lowestStep, fresh,
        fabsf, caseCurrent, cruiseHandoff, countPulse, modeSwitch, int_incr, MAX_CAN_AGE,
        CRUISE_CONTROL_ACTIVE, fastReverseEnv, limitState, sampleEnv, sampleState,
        sampleConfig, sampleMcconf]
    rw [cycle_of_beforeGate _ _ _ (by decide) hb, afterGate_pass _ _ (by decide)]
    norm_num [currentOutput, dutyBroadcast, softRpmLimit, currentCommands, limitState,
      sampleState, sampleConfig, fastReverseEnv, sampleEnv, sampleMcconf]

end AppPpm
